import Mathlib

namespace Tienda

/-- A finite JavaScript number, given by the decimal digits Number::toString prints
(`digits`, most significant first; empty for zero) and the position `n` of the decimal
point, so that the value is `0.d1 d2 ... dk * 10 ^ n`; or an infinity. -/
inductive JsNum where
  | finite (neg : Bool) (digits : List Nat) (n : Int)
  | infinity (neg : Bool)
  deriving DecidableEq, Repr

/-- A value of a parsed request body: a JSON value, or `undefined` for an absent field. -/
inductive JsVal where
  | undefined
  | null
  | bool (b : Bool)
  | num (x : JsNum)
  | str (s : String)
  | arr (xs : List JsVal)
  | obj
  deriving Repr

/-- The character of a decimal digit. -/
def digitChar (d : Nat) : Char := Char.ofNat (48 + d % 10)

/-- A run of `k` zero characters. -/
def zeros (k : Nat) : List Char := List.replicate k '0'

/-- Number::toString of ECMAScript for radix 10: plain decimal notation when the decimal
point lies within 21 digits to the right or 6 to the left, exponent notation otherwise. -/
def JsNum.toChars : JsNum → List Char
  | .infinity neg => (if neg then ['-'] else []) ++ "Infinity".toList
  | .finite _ [] _ => ['0']
  | .finite neg (d :: ds) n =>
    let k := ds.length + 1
    let s := (d :: ds).map digitChar
    (if neg then ['-'] else []) ++
    (if (k : Int) ≤ n ∧ n ≤ 21 then s ++ zeros (n - k).toNat
     else if 0 < n ∧ n ≤ 21 then s.take n.toNat ++ ['.'] ++ s.drop n.toNat
     else if -6 < n ∧ n ≤ 0 then ['0', '.'] ++ zeros (-n).toNat ++ s
     else
       let e := n - 1
       let es := (if e < 0 then ['-'] else ['+']) ++ (Nat.repr e.natAbs).toList
       if ds = [] then digitChar d :: 'e' :: es
       else digitChar d :: '.' :: ds.map digitChar ++ 'e' :: es)

mutual
/-- ToString of a request value; an array prints its elements joined by commas. -/
def JsVal.toChars : JsVal → List Char
  | .undefined => "undefined".toList
  | .null => "null".toList
  | .bool true => "true".toList
  | .bool false => "false".toList
  | .num x => x.toChars
  | .str s => s.toList
  | .arr xs => JsVal.joinChars xs
  | .obj => "[object Object]".toList
termination_by structural v => v
/-- Array.prototype.join with a comma: `undefined` and `null` elements print empty. -/
def JsVal.joinChars : List JsVal → List Char
  | [] => []
  | x :: rest =>
    (match x with
     | .undefined => []
     | .null => []
     | v => JsVal.toChars v) ++
    (match rest with
     | [] => []
     | _ :: _ => ',' :: JsVal.joinChars rest)
termination_by structural xs => xs
end


/-- The code points of WhiteSpace and LineTerminator that parseInt skips. -/
def isStrWhiteSpace (c : Char) : Bool :=
  let n := c.toNat
  n = 0x09 || n = 0x0A || n = 0x0B || n = 0x0C || n = 0x0D || n = 0x20 || n = 0xA0 ||
  n = 0x1680 || (0x2000 ≤ n && n ≤ 0x200A) || n = 0x2028 || n = 0x2029 || n = 0x202F ||
  n = 0x205F || n = 0x3000 || n = 0xFEFF

/-- The value of `c` as a digit of the given radix (10 or 16), if it is one. -/
def digitValue (radix : Nat) (c : Char) : Option Nat :=
  let n := c.toNat
  if 48 ≤ n ∧ n ≤ 57 then some (n - 48)
  else if radix = 16 ∧ 97 ≤ n ∧ n ≤ 102 then some (n - 87)
  else if radix = 16 ∧ 65 ≤ n ∧ n ≤ 70 then some (n - 55)
  else none

/-- Reads the longest run of radix digits at the head of `cs`: `acc` is the value read so
far and `seen` tells whether a digit was read. The result is `none` (NaN) for an empty run. -/
def readDigits (radix : Nat) : List Char → Nat → Bool → Option Nat
  | [], acc, seen => if seen then some acc else none
  | c :: cs, acc, seen =>
    match digitValue radix c with
    | some d => readDigits radix cs (acc * radix + d) true
    | none => if seen then some acc else none

/-- Strips one leading sign; the flag is true for a minus sign. -/
def dropSign : List Char → Bool × List Char
  | '-' :: cs => (true, cs)
  | '+' :: cs => (false, cs)
  | cs => (false, cs)

/-- Strips a leading 0x or 0X and selects radix 16, else radix 10. -/
def dropHexMark : List Char → Nat × List Char
  | '0' :: 'x' :: cs => (16, cs)
  | '0' :: 'X' :: cs => (16, cs)
  | cs => (10, cs)

/-- parseInt applied to a string with no radix argument; `none` is NaN, and -0 is 0. -/
def parseIntChars (input : List Char) : Option Int :=
  let s := input.dropWhile isStrWhiteSpace
  let (neg, s) := dropSign s
  let (radix, s) := dropHexMark s
  match readDigits radix s 0 false with
  | none => none
  | some m => some (if neg then - (m : Int) else m)

/-- The call parseInt(v) of the handlers: ToString, then the string algorithm. -/
def parseInt (v : JsVal) : Option Int := parseIntChars v.toChars

/-- The decimal digits of `n`, most significant first, read off by repeated division;
`fuel` bounds the number of digits and `acc` holds the digits already produced. -/
def natDigitsAux : Nat → Nat → List Nat → List Nat
  | 0, _, acc => acc
  | fuel + 1, n, acc => if n = 0 then acc else natDigitsAux fuel (n / 10) (n % 10 :: acc)

/-- The decimal digits of `n`, most significant first; empty for zero. -/
def natDigits (n : Nat) : List Nat := natDigitsAux n n []

/-- The JavaScript number that an integer column value arrives as in a result row. -/
def JsVal.ofInt (q : Int) : JsVal :=
  .num (.finite (decide (q < 0)) (natDigits q.natAbs) (natDigits q.natAbs).length)

/-- Addition of two JavaScript numbers that are integers or NaN (`none`). -/
def jsAdd : Option Int → Option Int → Option Int
  | some a, some b => some (a + b)
  | _, _ => none

/-- Number.prototype.toFixed(2) followed by parseFloat, on an exact value: the sign is
split off and the magnitude goes to the nearest multiple of 1/100, the larger one on a
tie. Numbers are idealised as rationals: binary rounding error is not represented. -/
def toFixed2 (x : ℚ) : ℚ :=
  if x < 0 then - ((⌊(-x) * 100 + 1 / 2⌋ : ℤ) : ℚ) / 100 else ((⌊x * 100 + 1 / 2⌋ : ℤ) : ℚ) / 100

/-- A row of table products; `price` is the DECIMAL(10,2) column, held as an exact
rational. -/
structure Product where
  id : Int
  name : String
  description : String
  price : ℚ
  category : String
  stock : Int
  image_url : String
  deriving DecidableEq, Repr

/-- A row of table cart_items; `created_at` is the timestamp in seconds. -/
structure CartItem where
  id : Int
  user_id : Int
  product_id : Int
  quantity : Int
  created_at : Nat
  deriving DecidableEq, Repr

/-- The stored state the cart routes read and write: the two tables and the
sqlite_sequence entry of cart_items (the largest id handed out so far). -/
structure Db where
  products : List Product
  cart_items : List CartItem
  cart_seq : Int
  deriving DecidableEq, Repr

/-- A piece of a message template: literal text or an interpolated number. -/
inductive MsgPart where
  | text (s : String)
  | int (i : Int)
  deriving DecidableEq, Repr

/-- The status code and JSON body of the message-shaped responses. -/
structure Response where
  status : Nat
  success : Bool
  error : Option String
  message : List MsgPart
  cart_item_id : Option Int
  deriving DecidableEq, Repr

/-- The body of POST /add. `product_id` is a JSON integer or absent. -/
structure AddBody where
  product_id : Option Int
  quantity : JsVal

/-- The 400 response of the product id check. -/
def errProductId : Response :=
  ⟨400, false, some "Datos incompletos",
    [.text "El ID del producto es requerido y debe ser válido"], none⟩

/-- The 400 response of the quantity check. -/
def errQuantity : Response :=
  ⟨400, false, some "Cantidad inválida",
    [.text "La cantidad debe ser un número entero positivo"], none⟩

/-- The 404 response for an unknown product. -/
def errProductNotFound : Response :=
  ⟨404, false, some "Producto no encontrado", [.text "El producto solicitado no existe"], none⟩

/-- The 400 response when the requested quantity exceeds the stock. -/
def errStock (stock : Int) : Response :=
  ⟨400, false, some "Stock insuficiente",
    [.text "Solo hay ", .int stock, .text " unidades disponibles"], none⟩

/-- The 400 response when the merged quantity exceeds the stock. -/
def errStockMerge (more : Int) : Response :=
  ⟨400, false, some "Stock insuficiente",
    [.text "Solo puedes agregar ", .int more, .text " unidades más"], none⟩

/-- The 404 response for a cart item that is absent or not the caller's. -/
def errItemNotFound : Response :=
  ⟨404, false, some "Item no encontrado", [.text "El producto no está en tu carrito"], none⟩

/-- The 404 response of clear on an empty cart. -/
def errEmptyCart : Response :=
  ⟨404, false, some "Carrito vacío", [.text "No hay productos en tu carrito"], none⟩

/-- The id AUTOINCREMENT gives the next row: one more than the largest id in the table
or ever handed out. -/
def nextCartItemId (db : Db) : Int :=
  db.cart_items.foldl (fun m ci => max m ci.id) db.cart_seq + 1

/-- UPDATE cart_items SET quantity = ? WHERE id = ?. -/
def setQuantity (items : List CartItem) (id quantity : Int) : List CartItem :=
  items.map fun ci => if ci.id = id then { ci with quantity := quantity } else ci

/-- The rows of cart_items JOIN products ON ci.product_id = p.id, in table order. -/
def joinProducts (db : Db) : List (CartItem × Product) :=
  db.cart_items.flatMap fun ci =>
    (db.products.filter fun p => decide (ci.product_id = p.id)).map fun p => (ci, p)

/-- The destructuring default `quantity = 1`: an absent field reads as the number 1. -/
def quantityOrDefault : JsVal → JsVal
  | .undefined => .num (.finite false [1] 1)
  | v => v

/-- POST /add: the response and the state after the request of user `userId`;
`now` is the timestamp a new row receives. -/
def cartAdd (db : Db) (userId : Int) (body : AddBody) (now : Nat) : Response × Db :=
  let quantity := quantityOrDefault body.quantity
  match body.product_id with
  | none => (errProductId, db)
  | some product_id =>
    if product_id = 0 ∨ product_id ≤ 0 then (errProductId, db)
    else
      match parseInt quantity with
      | none => (errQuantity, db)
      | some qty =>
        if qty ≤ 0 then (errQuantity, db)
        else
          match db.products.find? fun p => decide (p.id = product_id) with
          | none => (errProductNotFound, db)
          | some product =>
            if product.stock < qty then (errStock product.stock, db)
            else
              match db.cart_items.find? fun ci =>
                  decide (ci.user_id = userId) && decide (ci.product_id = product_id) with
              | some existingItem =>
                let newQuantity := existingItem.quantity + qty
                if newQuantity > product.stock then
                  (errStockMerge (product.stock - existingItem.quantity), db)
                else
                  (⟨200, true, none,
                      [.text "Cantidad actualizada - ", .int newQuantity, .text " unidades de ",
                       .text product.name], none⟩,
                   { db with cart_items := setQuantity db.cart_items existingItem.id newQuantity })
              | none =>
                let lastID := nextCartItemId db
                (⟨201, true, none, [.text product.name, .text " agregado al carrito"],
                    some lastID⟩,
                 { db with
                   cart_items := db.cart_items ++ [⟨lastID, userId, product_id, qty, now⟩]
                   cart_seq := lastID })

/-- PUT /update/:cart_item_id with body field `quantity`. -/
def cartUpdate (db : Db) (userId cart_item_id : Int) (quantity : JsVal) : Response × Db :=
  match parseInt quantity with
  | none => (errQuantity, db)
  | some qty =>
    if qty ≤ 0 then (errQuantity, db)
    else
      match (joinProducts db).find? fun r =>
          decide (r.1.id = cart_item_id) && decide (r.1.user_id = userId) with
      | none => (errItemNotFound, db)
      | some cartItem =>
        if qty > cartItem.2.stock then (errStock cartItem.2.stock, db)
        else
          (⟨200, true, none,
              [.text "Cantidad actualizada - ", .int qty, .text " unidades de ",
               .text cartItem.2.name], none⟩,
           { db with cart_items := setQuantity db.cart_items cart_item_id qty })

/-- DELETE /remove/:cart_item_id. -/
def cartRemove (db : Db) (userId cart_item_id : Int) : Response × Db :=
  match (joinProducts db).find? fun r =>
      decide (r.1.id = cart_item_id) && decide (r.1.user_id = userId) with
  | none => (errItemNotFound, db)
  | some cartItem =>
    (⟨200, true, none, [.text cartItem.2.name, .text " eliminado del carrito"], none⟩,
     { db with cart_items := db.cart_items.filter fun ci => !decide (ci.id = cart_item_id) })

/-- DELETE /clear. The number in the message is the row count the DELETE reports. -/
def cartClear (db : Db) (userId : Int) : Response × Db :=
  let itemCount := (db.cart_items.filter fun ci => decide (ci.user_id = userId)).length
  if itemCount = 0 then (errEmptyCart, db)
  else
    let kept := db.cart_items.filter fun ci => !decide (ci.user_id = userId)
    let changes := db.cart_items.length - kept.length
    (⟨200, true, none,
        [.text "Carrito vaciado - ", .int changes, .text " productos eliminados"], none⟩,
     { db with cart_items := kept })

/-- A row of the GET / query: a cart item joined with its product. -/
structure CartRow where
  cart_item_id : Int
  quantity : Int
  added_at : Nat
  product_id : Int
  name : String
  description : String
  price : ℚ
  category : String
  stock : Int
  image_url : String
  subtotal : ℚ
  deriving DecidableEq, Repr

/-- The summary object of GET /; `total_items` is `none` when the sum is NaN. -/
structure CartSummary where
  total_items : Option Int
  total_amount : ℚ
  deriving DecidableEq, Repr

/-- The data object of GET /. -/
structure CartData where
  items : List CartRow
  summary : CartSummary
  deriving DecidableEq, Repr

/-- The SELECT list of GET / on one joined row. -/
def cartRow (r : CartItem × Product) : CartRow :=
  ⟨r.1.id, r.1.quantity, r.1.created_at, r.2.id, r.2.name, r.2.description, r.2.price,
    r.2.category, r.2.stock, r.2.image_url, r.2.price * r.1.quantity⟩

/-- The query of GET /: the caller's joined rows, newest first (rows of equal timestamp
stay in table order). -/
def cartRows (db : Db) (userId : Int) : List CartRow :=
  (((joinProducts db).filter fun r => decide (r.1.user_id = userId)).map cartRow).insertionSort
    fun a b => a.added_at ≥ b.added_at

/-- GET /: the items and the summary computed from them. -/
def cartGet (db : Db) (userId : Int) : CartData :=
  let cartItems := cartRows db userId
  let total := cartItems.foldl (fun sum item => sum + item.subtotal) (0 : ℚ)
  let totalItems :=
    cartItems.foldl (fun sum item => jsAdd sum (parseInt (JsVal.ofInt item.quantity))) (some 0)
  ⟨cartItems, ⟨totalItems, toFixed2 total⟩⟩

/-- A row of the POST /validate query. -/
structure ValidateRow where
  cart_item_id : Int
  quantity : Int
  product_id : Int
  name : String
  price : ℚ
  stock : Int
  status : String
  deriving DecidableEq, Repr

/-- The data object of POST /validate. -/
structure ValidateData where
  is_valid : Bool
  items : List ValidateRow
  invalid_items : List ValidateRow
  total_items : Nat
  invalid_count : Nat
  deriving DecidableEq, Repr

/-- The SELECT list of POST /validate on one joined row, with its CASE expression. -/
def validateRow (r : CartItem × Product) : ValidateRow :=
  ⟨r.1.id, r.1.quantity, r.2.id, r.2.name, r.2.price, r.2.stock,
    if r.1.quantity > r.2.stock then "insufficient_stock" else "valid"⟩

/-- POST /validate. -/
def cartValidate (db : Db) (userId : Int) : ValidateData :=
  let cartItems :=
    ((joinProducts db).filter fun r => decide (r.1.user_id = userId)).map validateRow
  let invalidItems := cartItems.filter fun item => item.status != "valid"
  let isValid := invalidItems.length == 0
  ⟨isValid, cartItems, invalidItems, cartItems.length, invalidItems.length⟩

/-- The cart states the routes can produce: from an empty cart over any catalog, any
sequence of add, update, remove and clear requests by any users. -/
inductive Reachable : Db → Prop where
  | init (products : List Product) (seq : Int) : Reachable ⟨products, [], seq⟩
  | add {db : Db} (userId : Int) (body : AddBody) (now : Nat) :
      Reachable db → Reachable (cartAdd db userId body now).2
  | update {db : Db} (userId cart_item_id : Int) (quantity : JsVal) :
      Reachable db → Reachable (cartUpdate db userId cart_item_id quantity).2
  | remove {db : Db} (userId cart_item_id : Int) :
      Reachable db → Reachable (cartRemove db userId cart_item_id).2
  | clear {db : Db} (userId : Int) : Reachable db → Reachable (cartClear db userId).2

/-- The invariant of the reachable states: every quantity is at least 1 and the ids of
cart_items are pairwise distinct (the primary key). -/
def CartInv (db : Db) : Prop :=
  (∀ ci ∈ db.cart_items, 1 ≤ ci.quantity) ∧ (db.cart_items.map fun ci => ci.id).Nodup

/-- A catalog of two seeded products, with ids as the seed inserts them. -/
def sampleProducts : List Product :=
  [⟨1, "Pintura Acrílica Blanca", "Pintura acrílica de alta calidad color blanco mate",
      15.99, "Pinturas", 50, ""⟩,
   ⟨10, "Rodillo Antigoteo", "Rodillo con sistema antigoteo para paredes",
      8.75, "Rodillos", 40, ""⟩]

/-- User 7 holds two units of product 1 and one unit of product 10. -/
def sampleDb : Db := ⟨sampleProducts, [⟨1, 7, 1, 2, 100⟩, ⟨2, 7, 10, 1, 160⟩], 2⟩

/-- A catalog holding the seeded product of id 5, and no cart rows. -/
def emptyCartDb : Db :=
  ⟨[⟨5, "Pintura Acrílica Amarilla", "Pintura acrílica color amarillo sol, alta cobertura",
      16.80, "Pinturas", 33, ""⟩], [], 0⟩

/-- A product with 10 units in stock. -/
def lowStockProduct : Product :=
  ⟨3, "Pintura Acrílica Azul", "Pintura acrílica color azul cielo", 17.25, "Pinturas", 10, ""⟩

/-- The row of user 7 holding 8 units of the product of id 3. -/
def lowStockRow : CartItem := ⟨1, 7, 3, 8, 100⟩

/-- User 7 holds 8 of the 10 units in stock of product 3. -/
def lowStockDb : Db := ⟨[lowStockProduct], [lowStockRow], 1⟩

/-- The JSON number 2.7. -/
def num2_7 : JsVal := .num (.finite false [2, 7] 1)

/-- The stock invariant of the reachable states: every cart row's quantity is at most
the stock of the product the add route finds for it. -/
def StockInv (db : Db) : Prop :=
  ∀ ci ∈ db.cart_items, ∃ p,
    (db.products.find? fun p => decide (p.id = ci.product_id)) = some p ∧ ci.quantity ≤ p.stock

/-- The data object of GET /summary. -/
structure SummaryData where
  total_items : Int
  total_quantity : Int
  total_amount : ℚ
  deriving DecidableEq, Repr

/-- The aggregate SUM of SQL: NULL (`none`) over no rows. -/
def sqlSum {α : Type} [Add α] [Zero α] : List α → Option α
  | [] => none
  | x :: xs => some (x :: xs).sum

/-- The expression `x || 0` on a number or NULL. -/
def orZero {α : Type} [Zero α] [DecidableEq α] : Option α → α
  | none => 0
  | some x => if x = 0 then 0 else x

/-- GET /summary: the aggregates of the caller's joined rows. -/
def cartSummary (db : Db) (userId : Int) : SummaryData :=
  let rows := (joinProducts db).filter fun r => decide (r.1.user_id = userId)
  let total_items : Option Int := some (rows.length : Int)
  let total_quantity := sqlSum (rows.map fun r => r.1.quantity)
  let total_amount := sqlSum (rows.map fun r => r.2.price * (r.1.quantity : ℚ))
  ⟨orZero total_items, orZero total_quantity, toFixed2 (orZero total_amount)⟩

/-- A request to one of the cart routes. -/
inductive CartOp where
  | get (userId : Int)
  | add (userId : Int) (body : AddBody) (now : Nat)
  | update (userId cart_item_id : Int) (quantity : JsVal)
  | remove (userId cart_item_id : Int)
  | clear (userId : Int)
  | summary (userId : Int)
  | validate (userId : Int)

/-- The stored state after a request; the three read routes only issue SELECTs. -/
def CartOp.apply (db : Db) : CartOp → Db
  | .get _ => db
  | .add userId body now => (cartAdd db userId body now).2
  | .update userId cart_item_id quantity => (cartUpdate db userId cart_item_id quantity).2
  | .remove userId cart_item_id => (cartRemove db userId cart_item_id).2
  | .clear userId => (cartClear db userId).2
  | .summary _ => db
  | .validate _ => db

/-- The stored state after a sequence of requests. -/
def runOps (db : Db) (ops : List CartOp) : Db := ops.foldl CartOp.apply db

/-- A row of table users; `password` is the stored hash. -/
structure User where
  id : Int
  username : String
  email : String
  password : String
  created_at : Nat
  deriving DecidableEq, Repr

/-- The users table and its sqlite_sequence entry. -/
structure UserStore where
  users : List User
  user_seq : Int
  deriving DecidableEq, Repr

/-- The libraries the auth routes call: bcrypt.hash (with the salt it draws),
bcrypt.compare on a password and a stored hash, and jwt.sign on the token payload. -/
structure AuthEnv where
  hash : String → String → String
  compare : String → String → Bool
  sign : Int → String → String → String

/-- The user object of a successful auth response. -/
structure UserInfo where
  id : Int
  username : String
  email : String
  deriving DecidableEq, Repr

/-- The status code and JSON body of the auth responses. -/
structure AuthResponse where
  status : Nat
  success : Bool
  error : Option String
  message : String
  user : Option UserInfo
  token : Option String
  deriving DecidableEq, Repr

/-- The body of POST /register; a field is a string or absent. -/
structure RegisterBody where
  username : Option String
  email : Option String
  password : Option String
  deriving DecidableEq, Repr

/-- The body of POST /login; a field is a string or absent. -/
structure LoginBody where
  email : Option String
  username : Option String
  password : Option String
  deriving DecidableEq, Repr

/-- A field that passes the test `!field`: present and not the empty string. -/
def truthy : Option String → Option String
  | some s => if s = "" then none else some s
  | none => none

/-- The `length` of a JavaScript string: its number of UTF-16 code units. -/
def jsLength (s : String) : Nat :=
  (s.toList.map fun c => if c.toNat < 0x10000 then 1 else 2).sum

/-- The id AUTOINCREMENT gives the next user. -/
def nextUserId (store : UserStore) : Int :=
  store.users.foldl (fun m usr => max m usr.id) store.user_seq + 1

/-- The 400 response of register for a missing field. -/
def errRegisterIncomplete : AuthResponse :=
  ⟨400, false, some "Datos incompletos", "Username, email y password son requeridos", none,
    none⟩

/-- The 400 response of register for a short password. -/
def errShortPassword : AuthResponse :=
  ⟨400, false, some "Password muy corto", "El password debe tener al menos 6 caracteres", none,
    none⟩

/-- The 409 response of register. -/
def errUserExists : AuthResponse :=
  ⟨409, false, some "Usuario ya existe", "El username o email ya están registrados", none, none⟩

/-- The 400 response of login for a missing field. -/
def errLoginIncomplete : AuthResponse :=
  ⟨400, false, some "Datos incompletos", "Email o username y password son requeridos", none,
    none⟩

/-- The 404 response of login. -/
def errUserNotFound : AuthResponse :=
  ⟨404, false, some "Usuario no encontrado", "Las credenciales no son válidas", none, none⟩

/-- The 401 response of login. -/
def errWrongPassword : AuthResponse :=
  ⟨401, false, some "Password incorrecto", "Las credenciales no son válidas", none, none⟩

/-- The row `db.get` yields for SELECT * FROM users WHERE username = ? OR email = ?. Both
columns are UNIQUE, and the engine answers the OR through their two indexes in the order
of the terms: the row whose username matches comes before the row whose email matches,
whatever the order of insertion. -/
def findUser (users : List User) (username email : String) : Option User :=
  match users.find? fun usr => decide (usr.username = username) with
  | some usr => some usr
  | none => users.find? fun usr => decide (usr.email = email)

/-- POST /register: the response and the users table after the request; `salt` is the
salt bcrypt draws and `now` the timestamp of the new row. -/
def authRegister (env : AuthEnv) (store : UserStore) (body : RegisterBody) (salt : String)
    (now : Nat) : AuthResponse × UserStore :=
  match truthy body.username, truthy body.email, truthy body.password with
  | some username, some email, some password =>
    if jsLength password < 6 then (errShortPassword, store)
    else
      match findUser store.users username email with
      | some _ => (errUserExists, store)
      | none =>
        let hashedPassword := env.hash password salt
        let lastID := nextUserId store
        (⟨201, true, none, "Usuario registrado exitosamente", some ⟨lastID, username, email⟩,
            some (env.sign lastID username email)⟩,
         ⟨store.users ++ [⟨lastID, username, email, hashedPassword, now⟩], lastID⟩)
  | _, _, _ => (errRegisterIncomplete, store)

/-- The expression `email || username` of login. -/
def loginIdentifier (body : LoginBody) : Option String :=
  match truthy body.email with
  | some email => some email
  | none => body.username

/-- POST /login. -/
def authLogin (env : AuthEnv) (store : UserStore) (body : LoginBody) : AuthResponse :=
  match truthy (loginIdentifier body), truthy body.password with
  | some identifier, some password =>
    match findUser store.users identifier identifier with
    | none => errUserNotFound
    | some user =>
      if env.compare password user.password then
        ⟨200, true, none, "Login exitoso", some ⟨user.id, user.username, user.email⟩,
          some (env.sign user.id user.username user.email)⟩
      else errWrongPassword
  | _, _ => errLoginIncomplete

/-- The users tables registration can produce from an empty table. -/
inductive UserReachable : UserStore → Prop where
  | init (seq : Int) : UserReachable ⟨[], seq⟩
  | register {store : UserStore} (env : AuthEnv) (body : RegisterBody) (salt : String)
      (now : Nat) : UserReachable store → UserReachable (authRegister env store body salt now).2

/-- A stand-in for the libraries, for evaluating the routes on examples. -/
def sampleEnv : AuthEnv :=
  ⟨fun password salt => salt ++ password, fun password stored => stored == "salt" ++ password,
    fun _ username _ => username⟩

/-- A users table holding one account. -/
def sampleUsers : UserStore := ⟨[⟨1, "ana", "ana@tienda.com", "saltsecreto", 50⟩], 1⟩

/-- The 25 products the seed inserts, in insertion order, with the ids AUTOINCREMENT
gives them in an empty table. -/
def seededProducts : List Product :=
  [⟨1, "Pintura Acrílica Blanca", "Pintura acrílica de alta calidad color blanco mate", 15.99, "Pinturas", 50, "https://via.placeholder.com/300x300/FFFFFF/000000?text=Pintura+Blanca"⟩,
   ⟨2, "Pintura Acrílica Roja", "Pintura acrílica brillante color rojo intenso", 18.50, "Pinturas", 35, "https://via.placeholder.com/300x300/FF0000/FFFFFF?text=Pintura+Roja"⟩,
   ⟨3, "Pintura Acrílica Azul", "Pintura acrílica color azul cielo, perfecta para interiores", 17.25, "Pinturas", 42, "https://via.placeholder.com/300x300/0000FF/FFFFFF?text=Pintura+Azul"⟩,
   ⟨4, "Pintura Acrílica Verde", "Pintura acrílica color verde bosque, ideal para exteriores", 19.75, "Pinturas", 28, "https://via.placeholder.com/300x300/008000/FFFFFF?text=Pintura+Verde"⟩,
   ⟨5, "Pintura Acrílica Amarilla", "Pintura acrílica color amarillo sol, alta cobertura", 16.80, "Pinturas", 33, "https://via.placeholder.com/300x300/FFFF00/000000?text=Pintura+Amarilla"⟩,
   ⟨6, "Pincel Plano N°2", "Pincel de cerdas naturales, ideal para detalles finos", 5.50, "Pinceles", 75, "https://via.placeholder.com/300x300/8B4513/FFFFFF?text=Pincel+Plano"⟩,
   ⟨7, "Pincel Redondo N°6", "Pincel redondo de pelo sintético, multiuso", 7.25, "Pinceles", 60, "https://via.placeholder.com/300x300/654321/FFFFFF?text=Pincel+Redondo"⟩,
   ⟨8, "Pincel Brocha 3\"", "Brocha ancha para pintar superficies grandes", 12.00, "Pinceles", 25, "https://via.placeholder.com/300x300/A0522D/FFFFFF?text=Brocha+3"⟩,
   ⟨9, "Set de Pinceles", "Set de 5 pinceles de diferentes tamaños", 25.99, "Pinceles", 20, "https://via.placeholder.com/300x300/D2691E/FFFFFF?text=Set+Pinceles"⟩,
   ⟨10, "Rodillo Antigoteo", "Rodillo con sistema antigoteo para paredes", 8.75, "Rodillos", 40, "https://via.placeholder.com/300x300/FF6347/FFFFFF?text=Rodillo+Antigoteo"⟩,
   ⟨11, "Rodillo Texturizado", "Rodillo para crear texturas en paredes", 11.50, "Rodillos", 22, "https://via.placeholder.com/300x300/CD5C5C/FFFFFF?text=Rodillo+Textura"⟩,
   ⟨12, "Rodillo Mini", "Rodillo pequeño para rincones y espacios reducidos", 4.25, "Rodillos", 55, "https://via.placeholder.com/300x300/DC143C/FFFFFF?text=Rodillo+Mini"⟩,
   ⟨13, "Bandeja para Pintura", "Bandeja plástica con rejilla para rodillo", 6.99, "Herramientas", 45, "https://via.placeholder.com/300x300/2F4F4F/FFFFFF?text=Bandeja"⟩,
   ⟨14, "Espátula Metálica", "Espátula de acero inoxidable para raspar", 9.25, "Herramientas", 38, "https://via.placeholder.com/300x300/708090/FFFFFF?text=Espatula"⟩,
   ⟨15, "Cinta de Pintor", "Cinta adhesiva especial para delimitar áreas", 3.50, "Herramientas", 80, "https://via.placeholder.com/300x300/F0E68C/000000?text=Cinta+Pintor"⟩,
   ⟨16, "Lija Grano 120", "Papel de lija grano 120 para preparar superficies", 2.75, "Herramientas", 100, "https://via.placeholder.com/300x300/DEB887/000000?text=Lija+120"⟩,
   ⟨17, "Spray Negro Mate", "Pintura en spray color negro mate", 8.99, "Sprays", 30, "https://via.placeholder.com/300x300/000000/FFFFFF?text=Spray+Negro"⟩,
   ⟨18, "Spray Plateado", "Pintura en spray color plateado metalizado", 10.50, "Sprays", 25, "https://via.placeholder.com/300x300/C0C0C0/000000?text=Spray+Plateado"⟩,
   ⟨19, "Spray Transparente", "Barniz en spray transparente brillante", 12.25, "Sprays", 18, "https://via.placeholder.com/300x300/F8F8FF/000000?text=Spray+Transparente"⟩,
   ⟨20, "Imprimante Universal", "Imprimante base agua para todo tipo de superficies", 22.50, "Imprimantes", 15, "https://via.placeholder.com/300x300/DCDCDC/000000?text=Imprimante+Universal"⟩,
   ⟨21, "Imprimante Anticorrosivo", "Imprimante especial para metal, previene óxido", 28.75, "Imprimantes", 12, "https://via.placeholder.com/300x300/B22222/FFFFFF?text=Imprimante+Anticorrosivo"⟩,
   ⟨22, "Barniz Mate", "Barniz transparente acabado mate", 24.99, "Barnices", 20, "https://via.placeholder.com/300x300/F5F5DC/000000?text=Barniz+Mate"⟩,
   ⟨23, "Barniz Brillante", "Barniz transparente acabado brillante", 26.50, "Barnices", 18, "https://via.placeholder.com/300x300/FFD700/000000?text=Barniz+Brillante"⟩,
   ⟨24, "Overol de Pintor", "Overol desechable para proteger la ropa", 4.99, "Accesorios", 65, "https://via.placeholder.com/300x300/FFFFFF/000000?text=Overol+Pintor"⟩,
   ⟨25, "Guantes de Nitrilo", "Guantes desechables resistentes a químicos", 8.25, "Accesorios", 90, "https://via.placeholder.com/300x300/4169E1/FFFFFF?text=Guantes+Nitrilo"⟩]

/-- String.prototype.trim on the characters of a string. -/
def jsTrim (cs : List Char) : List Char :=
  ((cs.dropWhile isStrWhiteSpace).reverse.dropWhile isStrWhiteSpace).reverse

/-- The case folding of LIKE: an ASCII upper-case letter goes to lower case, every other
character stays. -/
def likeFold (c : Char) : Char :=
  if 65 ≤ c.toNat ∧ c.toNat ≤ 90 then Char.ofNat (c.toNat + 32) else c

/-- Whether `f` holds of some suffix of a string. -/
def anySuffix (f : List Char → Bool) : List Char → Bool
  | [] => f []
  | c :: cs => f (c :: cs) || anySuffix f cs

/-- The operator `value LIKE pattern` of SQLite with no escape character: a percent sign
matches any run of characters, an underscore any one character, and any other character
itself up to the case of ASCII letters. -/
def likeMatch : List Char → List Char → Bool
  | [], s => s.isEmpty
  | a :: p, s =>
    if a = '%' then anySuffix (likeMatch p) s
    else
      match s with
      | [] => false
      | c :: cs => (decide (a = '_') || likeFold a == likeFold c) && likeMatch p cs

/-- The order of the BINARY collation on strings: by code point, a prefix first. -/
def binaryLe : List Char → List Char → Bool
  | [], _ => true
  | _ :: _, [] => false
  | a :: as, b :: bs => decide (a.toNat < b.toNat) || (decide (a.toNat = b.toNat) && binaryLe as bs)

/-- The status code and JSON body of the list-shaped catalog responses. -/
structure ProductsResponse where
  status : Nat
  success : Bool
  error : Option String
  data : List Product
  count : Nat
  deriving DecidableEq, Repr

/-- The 400 response of search for a missing or blank term. -/
def errSearchTerm : ProductsResponse :=
  ⟨400, false, some "Parámetro de búsqueda requerido", [], 0⟩

/-- The CASE expression of the ORDER BY of search. -/
def searchRank (searchTerm : List Char) (p : Product) : Nat :=
  if likeMatch searchTerm p.name.toList then 1
  else if likeMatch searchTerm p.category.toList then 2
  else 3

/-- The ORDER BY of search: the rank, then the name ascending. -/
def searchOrder (searchTerm : List Char) (a b : Product) : Prop :=
  searchRank searchTerm a < searchRank searchTerm b ∨
    (searchRank searchTerm a = searchRank searchTerm b ∧
      binaryLe a.name.toList b.name.toList = true)

instance (searchTerm : List Char) : DecidableRel (searchOrder searchTerm) :=
  fun a b => by unfold searchOrder; exact inferInstance

/-- GET /search with query parameter `q`, a string or absent. -/
def productsSearch (allProducts : List Product) (q : Option String) : ProductsResponse :=
  match truthy q with
  | none => errSearchTerm
  | some q =>
    if (jsTrim q.toList).length = 0 then errSearchTerm
    else
      let searchTerm := '%' :: jsTrim q.toList ++ ['%']
      let products :=
        (allProducts.filter fun p =>
          likeMatch searchTerm p.name.toList || likeMatch searchTerm p.description.toList ||
            likeMatch searchTerm p.category.toList).insertionSort (searchOrder searchTerm)
      ⟨200, true, none, products, products.length⟩
/-- The prefix test of the specification: whether `s` starts with `t`, comparing ASCII
letters regardless of case. -/
def startsWithFold : List Char → List Char → Bool
  | [], _ => true
  | _ :: _, [] => false
  | a :: t, c :: s => likeFold a == likeFold c && startsWithFold t s

/-- The substring test of the specification: whether `s` contains `t`, comparing ASCII
letters regardless of case. -/
def containsFold (t s : List Char) : Bool := anySuffix (startsWithFold t) s

/-- A term without the two wildcard characters of LIKE. -/
def wildcardFree (t : List Char) : Prop := ∀ c ∈ t, c ≠ '%' ∧ c ≠ '_'
/-- A number read from a query string: NaN, an infinity, or the decimal
`mant * 10 ^ exp` with its sign. -/
inductive JsParsed where
  | nan
  | infinity (neg : Bool)
  | dec (neg : Bool) (mant : Nat) (exp : Int)
  deriving DecidableEq, Repr

/-- The value of a parsed decimal; 0 stands in for NaN and the infinities. -/
def JsParsed.toRat : JsParsed → ℚ
  | .dec neg mant exp => (if neg then -1 else 1) * (mant : ℚ) * (10 : ℚ) ^ exp
  | _ => 0

/-- A decimal digit character. -/
def isDecDigit (c : Char) : Bool := decide (48 ≤ c.toNat) && decide (c.toNat ≤ 57)

/-- The value of a run of decimal digits. -/
def digitsValue (cs : List Char) : Nat := cs.foldl (fun acc c => acc * 10 + (c.toNat - 48)) 0

/-- The ExponentPart at the head of `cs`, if there is one: its value and what follows. -/
def scanExponent : List Char → Int × List Char
  | [] => (0, [])
  | c :: rest =>
    if c = 'e' ∨ c = 'E' then
      let signed := dropSign rest
      let ds := signed.2.takeWhile isDecDigit
      if ds.isEmpty then (0, c :: rest)
      else ((if signed.1 then -(digitsValue ds : Int) else digitsValue ds),
        signed.2.dropWhile isDecDigit)
    else (0, c :: rest)

/-- The longest StrUnsignedDecimalLiteral at the head of `cs`: the number with the given
sign and what follows it, or `none` when no prefix is one. -/
def scanUnsigned (neg : Bool) (cs : List Char) : Option (JsParsed × List Char) :=
  if "Infinity".toList.isPrefixOf cs then some (.infinity neg, cs.drop 8)
  else
    let intDigits := cs.takeWhile isDecDigit
    let rest := cs.dropWhile isDecDigit
    match rest with
    | '.' :: afterDot =>
      let fracDigits := afterDot.takeWhile isDecDigit
      if intDigits.isEmpty && fracDigits.isEmpty then none
      else
        let ex := scanExponent (afterDot.dropWhile isDecDigit)
        some (.dec neg (digitsValue (intDigits ++ fracDigits)) (ex.1 - fracDigits.length), ex.2)
    | _ =>
      if intDigits.isEmpty then none
      else
        let ex := scanExponent rest
        some (.dec neg (digitsValue intDigits) ex.1, ex.2)

/-- The longest StrDecimalLiteral at the head of `cs`. -/
def scanDecimal (cs : List Char) : Option (JsParsed × List Char) :=
  let signed := dropSign cs
  scanUnsigned signed.1 signed.2

/-- Whether `cs` is a non-empty run of digits of the given radix (2, 8 or 16). -/
def isRadixDigits (radix : Nat) (cs : List Char) : Bool :=
  !cs.isEmpty && cs.all fun c =>
    match digitValue 16 c with
    | some d => decide (d < radix)
    | none => false

/-- The value of a run of digits of the given radix. -/
def radixValue (radix : Nat) (cs : List Char) : Nat :=
  cs.foldl (fun acc c => acc * radix + (digitValue 16 c).getD 0) 0

/-- ToNumber applied to a string: the whole trimmed string must be a numeric literal. -/
def jsToNumber (s : String) : JsParsed :=
  let cs := jsTrim s.toList
  if cs.isEmpty then .dec false 0 0
  else
    match scanDecimal cs with
    | some (v, []) => v
    | _ =>
      match cs with
      | '0' :: x :: ds =>
        if (x = 'x' ∨ x = 'X') ∧ isRadixDigits 16 ds = true then .dec false (radixValue 16 ds) 0
        else if (x = 'o' ∨ x = 'O') ∧ isRadixDigits 8 ds = true then .dec false (radixValue 8 ds) 0
        else if (x = 'b' ∨ x = 'B') ∧ isRadixDigits 2 ds = true then .dec false (radixValue 2 ds) 0
        else .nan
      | _ => .nan

/-- The call isNaN(s) on a string. -/
def jsIsNaN (s : String) : Bool :=
  match jsToNumber s with
  | .nan => true
  | _ => false

/-- The call parseFloat(s) on a string: the longest decimal literal after leading white
space. -/
def jsParseFloat (s : String) : JsParsed :=
  match scanDecimal (s.toList.dropWhile isStrWhiteSpace) with
  | some (v, _) => v
  | none => .nan

/-- An IEEE 754 binary64 number, the Number of JavaScript and the REAL of the storage
engine: NaN, an infinity, or the finite value `mant * 2 ^ exp` with its sign, where
`mant < 2 ^ 53` and `exp` is from -1074 to 971. -/
inductive JsDouble where
  | nan
  | infinity (neg : Bool)
  | finite (neg : Bool) (mant : Nat) (exp : Int)
  deriving DecidableEq, Repr

/-- The integer nearest to `num / den`, the even one of two equally near. -/
def roundHalfEven (num den : Nat) : Nat :=
  let q := num / den
  let r := num % den
  if 2 * r < den then q else if den < 2 * r then q + 1 else if q % 2 = 0 then q else q + 1

/-- The number of binary digits of `n`; `fuel` bounds the number of digits. -/
def bitLength : Nat → Nat → Nat
  | 0, _ => 0
  | fuel + 1, n => if n = 0 then 0 else bitLength fuel (n / 2) + 1

/-- The exponent `k` with `2 ^ k ≤ n / d < 2 ^ (k + 1)`, for positive `n` and `d`. -/
def floorLog2 (n d : Nat) : Int :=
  let k : Int := (bitLength n n : Int) - (bitLength d d : Int)
  if (if 0 ≤ k then d * 2 ^ k.toNat ≤ n else d ≤ n * 2 ^ (-k).toNat) then k else k - 1

/-- The binary64 number nearest to `n / d` with the given sign, ties to the even
mantissa: 53 binary digits are kept, the exponent is not below -1074, and what rounds
past the largest finite number is an infinity. -/
def roundFrac (neg : Bool) (n d : Nat) : JsDouble :=
  if n = 0 then .finite neg 0 (-1074)
  else
    let e := max (floorLog2 n d - 52) (-1074)
    let m :=
      if 0 ≤ e then roundHalfEven n (d * 2 ^ e.toNat) else roundHalfEven (n * 2 ^ (-e).toNat) d
    let m' := if m = 2 ^ 53 then 2 ^ 52 else m
    let e' := if m = 2 ^ 53 then e + 1 else e
    if 971 < e' then .infinity neg else .finite neg m' e'

/-- The binary64 number nearest to a rational: the Number a decimal literal denotes and
the REAL a decimal value is stored as. -/
def toDouble (q : ℚ) : JsDouble := roundFrac (decide (q < 0)) q.num.natAbs q.den

/-- The binary64 number nearest to `m * 2 ^ e`. -/
def roundDyadic (neg : Bool) (m : Nat) (e : Int) : JsDouble :=
  if 0 ≤ e then roundFrac neg (m * 2 ^ e.toNat) 1 else roundFrac neg m (2 ^ (-e).toNat)

/-- The Number of an integer. -/
def JsDouble.ofInt (q : Int) : JsDouble := roundFrac (decide (q < 0)) q.natAbs 1

/-- The operator `+` on two Numbers: the exact sum, rounded; a zero leaves the other
operand as it is. -/
def JsDouble.add : JsDouble → JsDouble → JsDouble
  | .finite na ma ea, .finite nb mb eb =>
    if ma = 0 ∧ mb = 0 then .finite (na && nb) 0 (-1074)
    else if ma = 0 then .finite nb mb eb
    else if mb = 0 then .finite na ma ea
    else
      let e := min ea eb
      let s : Int := (if na then -1 else 1) * ((ma * 2 ^ (ea - e).toNat : Nat) : Int) +
        (if nb then -1 else 1) * ((mb * 2 ^ (eb - e).toNat : Nat) : Int)
      if s = 0 then .finite false 0 (-1074) else roundDyadic (decide (s < 0)) s.natAbs e
  | .finite _ _ _, .infinity n => .infinity n
  | .infinity n, .finite _ _ _ => .infinity n
  | .infinity n, .infinity m => if n = m then .infinity n else .nan
  | _, _ => .nan

/-- The operator `*` on two Numbers: the exact product, rounded. -/
def JsDouble.mul : JsDouble → JsDouble → JsDouble
  | .finite na ma ea, .finite nb mb eb => roundDyadic (na != nb) (ma * mb) (ea + eb)
  | .finite na ma _, .infinity n => if ma = 0 then .nan else .infinity (n != na)
  | .infinity n, .finite na ma _ => if ma = 0 then .nan else .infinity (n != na)
  | .infinity n, .infinity m => .infinity (n != m)
  | _, _ => .nan

/-- The comparison `x <= y` of two Numbers, false when one of them is NaN. -/
def JsDouble.le : JsDouble → JsDouble → Bool
  | .finite na ma ea, .finite nb mb eb =>
    let e := min ea eb
    decide ((if na then -1 else 1) * ((ma * 2 ^ (ea - e).toNat : Nat) : Int) ≤
      (if nb then -1 else 1) * ((mb * 2 ^ (eb - e).toNat : Nat) : Int))
  | .nan, _ => false
  | _, .nan => false
  | .infinity true, _ => true
  | _, .infinity false => true
  | _, _ => false

/-- The value of a finite Number; 0 stands in for NaN and the infinities. -/
def JsDouble.toRat : JsDouble → ℚ
  | .finite neg mant exp => (if neg then -1 else 1) * (mant : ℚ) * (2 : ℚ) ^ exp
  | _ => 0

/-- What JSON.stringify prints for a Number: the number, with zero unsigned, or null for
NaN and the infinities. -/
def jsonNumber : JsDouble → Option JsDouble
  | .finite neg mant exp => some (.finite (neg && decide (mant ≠ 0)) mant exp)
  | _ => none

/-- The Number a parsed decimal literal denotes. -/
def JsParsed.toDouble : JsParsed → JsDouble
  | .nan => .nan
  | .infinity neg => .infinity neg
  | .dec neg mant exp =>
    if 0 ≤ exp then roundFrac neg (mant * 10 ^ exp.toNat) 1
    else roundFrac neg mant (10 ^ (-exp).toNat)

/-- The comparison `price >= ?` of the stored REAL with the bound Number; NaN is bound as
NULL, for which the comparison does not hold. -/
def sqlGe (price : ℚ) (bound : JsParsed) : Bool := (JsParsed.toDouble bound).le (toDouble price)

/-- The comparison `price <= ?` of the stored REAL with the bound Number. -/
def sqlLe (price : ℚ) (bound : JsParsed) : Bool := (toDouble price).le (JsParsed.toDouble bound)

/-- The ORDER BY of filter: the stored price ascending, then the name ascending. -/
def filterOrder (a b : Product) : Prop :=
  ((toDouble a.price).le (toDouble b.price) = true ∧
      (toDouble b.price).le (toDouble a.price) = false) ∨
    ((toDouble a.price).le (toDouble b.price) = true ∧
      (toDouble b.price).le (toDouble a.price) = true ∧
      binaryLe a.name.toList b.name.toList = true)

instance : DecidableRel filterOrder :=
  fun a b => by unfold filterOrder; exact inferInstance

/-- The WHERE conditions filter collects from its three query parameters. -/
def whereConditions (category minPrice maxPrice : Option String) : List (Product → Bool) :=
  (match truthy category with
   | some category =>
     if jsTrim category.toList ≠ [] then
       [fun p => decide (p.category.toList = jsTrim category.toList)]
     else []
   | none => []) ++
  (match truthy minPrice with
   | some minPrice =>
     if jsIsNaN minPrice = false then [fun p => sqlGe p.price (jsParseFloat minPrice)] else []
   | none => []) ++
  (match truthy maxPrice with
   | some maxPrice =>
     if jsIsNaN maxPrice = false then [fun p => sqlLe p.price (jsParseFloat maxPrice)] else []
   | none => [])

/-- The object `filters` of the filter response, as it is printed: the raw category or
null, and for each price bound parseFloat of the raw value or null. -/
structure FilterEcho where
  category : Option String
  minPrice : Option JsDouble
  maxPrice : Option JsDouble
  deriving DecidableEq, Repr

/-- The status code and JSON body of the filter response. -/
structure FilterResponse where
  status : Nat
  success : Bool
  data : List Product
  count : Nat
  filters : FilterEcho
  message : List MsgPart
  deriving DecidableEq, Repr

/-- The expression `value ? parseFloat(value) : null` as it is printed. -/
def echoNumber (value : Option String) : Option JsDouble :=
  match truthy value with
  | some value => jsonNumber (JsParsed.toDouble (jsParseFloat value))
  | none => none

/-- GET /filter with query parameters `category`, `minPrice` and `maxPrice`, each a
string or absent. -/
def productsFilter (allProducts : List Product) (category minPrice maxPrice : Option String) :
    FilterResponse :=
  let products :=
    (allProducts.filter fun p =>
      (whereConditions category minPrice maxPrice).all fun c => c p).insertionSort filterOrder
  ⟨200, true, products, products.length,
    ⟨truthy category, echoNumber minPrice, echoNumber maxPrice⟩,
    [.text "Se encontraron ", .int products.length,
      .text " productos con los filtros aplicados"]⟩

/-- The status code and JSON body of GET /:id. -/
structure ProductResponse where
  status : Nat
  success : Bool
  error : Option String
  data : Option Product
  deriving DecidableEq, Repr

/-- The 400 response of GET /:id. -/
def errProductIdParam : ProductResponse := ⟨400, false, some "ID de producto inválido", none⟩

/-- GET /:id. The path segment `id` reaches the query as text; `idMatches` is the
comparison `id = ?` of the storage engine between the integer key and that text. -/
def productById (idMatches : String → Int → Bool) (allProducts : List Product) (id : String) :
    ProductResponse :=
  if id = "" ∨ jsIsNaN id = true then errProductIdParam
  else
    match allProducts.find? fun p => idMatches id p.id with
    | none => ⟨404, false, some "Producto no encontrado", none⟩
    | some product => ⟨200, true, none, some product⟩

/-- A well-formed number parameter of filter: a non-empty string that ToNumber (behind
isNaN) and parseFloat read as the same finite decimal. -/
def wellFormedNumber (s : String) : Prop :=
  s ≠ "" ∧ ∃ neg mant exp, jsToNumber s = .dec neg mant exp ∧
    jsParseFloat s = .dec neg mant exp

/-- The payload jwt.verify yields for a token it accepts. -/
structure TokenUser where
  id : Int
  username : String
  email : String
  deriving DecidableEq, Repr

/-- The 401 response of the middleware for a request without a token. -/
def errTokenRequired : Response :=
  ⟨401, false, some "Token requerido",
    [.text "Se requiere autenticación para acceder a este recurso"], none⟩

/-- The 403 response of the middleware for a token jwt.verify rejects. -/
def errTokenInvalid : Response :=
  ⟨403, false, some "Token inválido", [.text "El token de autenticación no es válido"], none⟩

/-- The method `split` of a JavaScript string with a one-character separator: the pieces
between the separators, of which there is always at least one. -/
def jsSplit (sep : Char) : List Char → List (List Char)
  | [] => [[]]
  | c :: cs =>
    if c = sep then [] :: jsSplit sep cs
    else
      match jsSplit sep cs with
      | [] => [[c]]
      | w :: ws => (c :: w) :: ws

/-- The expression `authHeader && authHeader.split(' ')[1]`: an absent or empty header is
the value itself, otherwise the second piece of the header, if there is one. -/
def bearerToken (authHeader : Option String) : Option String :=
  match authHeader with
  | none => none
  | some h =>
    if h = "" then some ""
    else ((jsSplit ' ' h.toList).get? 1).map String.mk

/-- The middleware authenticateToken: the response it sends itself, or the user it
stores in the request before calling the next handler; `verify` is jwt.verify with the
server's secret. -/
def authenticateToken (verify : String → Option TokenUser) (authHeader : Option String) :
    Except Response TokenUser :=
  match truthy (bearerToken authHeader) with
  | none => .error errTokenRequired
  | some token =>
    match verify token with
    | none => .error errTokenInvalid
    | some user => .ok user

/-- A request to one of the cart routes, before the caller is known. -/
inductive CartRequest where
  | get
  | add (body : AddBody) (now : Nat)
  | update (cart_item_id : Int) (quantity : JsVal)
  | remove (cart_item_id : Int)
  | clear
  | summary
  | validate

/-- What a cart route sends: a message response, or the data of one of the three read
routes with status 200. -/
inductive CartReply where
  | message (response : Response)
  | cart (data : CartData)
  | summary (data : SummaryData)
  | validation (data : ValidateData)

/-- The HTTP status of a reply. -/
def CartReply.status : CartReply → Nat
  | .message response => response.status
  | .cart _ => 200
  | .summary _ => 200
  | .validation _ => 200

/-- The handlers of the cart router, run with the user id of the request. -/
def cartHandler (db : Db) (userId : Int) : CartRequest → CartReply × Db
  | .get => (.cart (cartGet db userId), db)
  | .add body now =>
    (.message (cartAdd db userId body now).1, (cartAdd db userId body now).2)
  | .update cart_item_id quantity =>
    (.message (cartUpdate db userId cart_item_id quantity).1,
      (cartUpdate db userId cart_item_id quantity).2)
  | .remove cart_item_id =>
    (.message (cartRemove db userId cart_item_id).1, (cartRemove db userId cart_item_id).2)
  | .clear => (.message (cartClear db userId).1, (cartClear db userId).2)
  | .summary => (.summary (cartSummary db userId), db)
  | .validate => (.validation (cartValidate db userId), db)

/-- The cart router behind `router.use(authenticateToken)`: the middleware answers
itself or hands the request to the handler with `req.user.id`. -/
def cartRoute (verify : String → Option TokenUser) (db : Db) (authHeader : Option String)
    (request : CartRequest) : CartReply × Db :=
  match authenticateToken verify authHeader with
  | .error response => (.message response, db)
  | .ok user => cartHandler db user.id request

/-- What user v sees and holds is the same in both states: the rows of v in cart_items
and the results of the three read routes for v. -/
def SameCartFor (v : Int) (db db' : Db) : Prop :=
  (db'.cart_items.filter fun ci => decide (ci.user_id = v)) =
      (db.cart_items.filter fun ci => decide (ci.user_id = v)) ∧
    cartGet db' v = cartGet db v ∧ cartSummary db' v = cartSummary db v ∧
    cartValidate db' v = cartValidate db v

/-- An item of the client cart: the fields of the product it was added with, and the
quantity. The expression `item.id` of the source is `item.product.id` here. -/
structure ClientItem where
  product : Product
  quantity : Int
  deriving DecidableEq, Repr

/-- The state of the client cart. -/
structure CartState where
  items : List ClientItem
  deriving DecidableEq, Repr

/-- The actions of the client cart reducer; the quantity of ADD_TO_CART and the payload
of LOAD_CART and SYNC_CART may be absent, and `other` is any other action type. -/
inductive CartAction where
  | ADD_TO_CART (product : Product) (quantity : Option Int)
  | REMOVE_FROM_CART (payload : Int)
  | UPDATE_QUANTITY (id : Int) (quantity : Int)
  | CLEAR_CART
  | LOAD_CART (payload : Option (List ClientItem))
  | SYNC_CART (payload : Option (List ClientItem))
  | other

/-- The state the client cart starts from. -/
def initialState : CartState := ⟨[]⟩

/-- The reducer of the client cart. -/
def cartReducer (state : CartState) : CartAction → CartState
  | .ADD_TO_CART product quantity =>
    let quantity := quantity.getD 1
    let existingItem := state.items.find? fun item => decide (item.product.id = product.id)
    match existingItem with
    | some _ =>
      { state with
        items := state.items.map fun item =>
          if item.product.id = product.id then { item with quantity := item.quantity + quantity }
          else item }
    | none => { state with items := state.items ++ [⟨product, quantity⟩] }
  | .REMOVE_FROM_CART payload =>
    { state with items := state.items.filter fun item => !decide (item.product.id = payload) }
  | .UPDATE_QUANTITY id quantity =>
    { state with
      items :=
        (state.items.map fun item =>
          if item.product.id = id then { item with quantity := max 0 quantity } else item).filter
          fun item => decide (item.quantity > 0) }
  | .CLEAR_CART => { state with items := [] }
  | .LOAD_CART payload => { state with items := payload.getD [] }
  | .SYNC_CART payload => { state with items := payload.getD [] }
  | .other => state

/-- The total number of units in the client cart; the quantities are integers, which
the addition of Numbers adds exactly below 2 ^ 53. -/
def getTotalItems (cartState : CartState) : Int :=
  cartState.items.foldl (fun total item => total + item.quantity) 0

/-- The total price of the client cart: the sum is taken in the arithmetic of Numbers,
from the Number 0, of the products of the price an item holds and its quantity. -/
def getTotalPrice (cartState : CartState) : JsDouble :=
  cartState.items.foldl
    (fun total item =>
      total.add ((toDouble item.product.price).mul (JsDouble.ofInt item.quantity)))
    (JsDouble.ofInt 0)

/-- The states of the client cart that the four editing actions produce from the empty
cart. -/
inductive MirrorReachable : CartState → Prop where
  | init : MirrorReachable initialState
  | add {state : CartState} (product : Product) (quantity : Option Int) :
      MirrorReachable state → MirrorReachable (cartReducer state (.ADD_TO_CART product quantity))
  | remove {state : CartState} (payload : Int) :
      MirrorReachable state → MirrorReachable (cartReducer state (.REMOVE_FROM_CART payload))
  | update {state : CartState} (id quantity : Int) :
      MirrorReachable state → MirrorReachable (cartReducer state (.UPDATE_QUANTITY id quantity))
  | clear {state : CartState} :
      MirrorReachable state → MirrorReachable (cartReducer state .CLEAR_CART)

/-- The states the four editing actions produce from the empty cart when every
ADD_TO_CART carries a quantity of at least 1 (or none). -/
inductive MirrorReachablePos : CartState → Prop where
  | init : MirrorReachablePos initialState
  | add {state : CartState} (product : Product) (quantity : Option Int) :
      1 ≤ quantity.getD 1 → MirrorReachablePos state →
      MirrorReachablePos (cartReducer state (.ADD_TO_CART product quantity))
  | remove {state : CartState} (payload : Int) :
      MirrorReachablePos state →
      MirrorReachablePos (cartReducer state (.REMOVE_FROM_CART payload))
  | update {state : CartState} (id quantity : Int) :
      MirrorReachablePos state →
      MirrorReachablePos (cartReducer state (.UPDATE_QUANTITY id quantity))
  | clear {state : CartState} :
      MirrorReachablePos state → MirrorReachablePos (cartReducer state .CLEAR_CART)

/-- The seeded product of id 1. -/
def product1 : Product :=
  ⟨1, "Pintura Acrílica Blanca", "Pintura acrílica de alta calidad color blanco mate", 15.99,
    "Pinturas", 50, ""⟩

/-- The seeded product of id 5. -/
def product5 : Product :=
  ⟨5, "Pintura Acrílica Amarilla", "Pintura acrílica color amarillo sol, alta cobertura",
    16.80, "Pinturas", 33, ""⟩

/-- The seeded product of id 6. -/
def product6 : Product :=
  ⟨6, "Pintura Látex Interior", "Pintura látex para interiores, lavable", 22.50, "Pinturas",
    20, ""⟩

/-- A client cart holding two units of product 5 and one of product 6. -/
def sampleCart : CartState := ⟨[⟨product5, 2⟩, ⟨product6, 1⟩]⟩

/-- The method `includes` of a JavaScript string: whether `sub` occurs in `s`, code unit
by code unit. -/
def jsIncludes (s sub : String) : Bool :=
  anySuffix (fun t => sub.toList.isPrefixOf t) s.toList

/-- A response as the client reads it: the status and the fields `success`, `error`,
`message` and `data.user` of its JSON body. -/
structure HttpReply where
  status : Nat
  success : Bool
  error : Option String
  message : Option String
  user : Option String
  deriving DecidableEq, Repr

/-- The property `ok` of a fetch response. -/
def HttpReply.ok (response : HttpReply) : Bool :=
  decide (200 ≤ response.status) && decide (response.status ≤ 299)

/-- The text of a message response of the server. -/
def MsgPart.render : MsgPart → String
  | .text s => s
  | .int n => String.mk (JsVal.ofInt n).toChars

/-- A message response of the server as it reaches the client. -/
def Response.toHttp (response : Response) : HttpReply :=
  ⟨response.status, response.success, response.error,
    some (String.join (response.message.map MsgPart.render)), none⟩

/-- The token the client API service holds: in memory and under key `authToken` of
localStorage. -/
structure ApiService where
  token : Option String
  authToken : Option String
  deriving DecidableEq, Repr

/-- The method setToken of the API service. -/
def ApiService.setToken (_service : ApiService) (token : Option String) : ApiService :=
  match truthy token with
  | some t => ⟨token, some t⟩
  | none => ⟨token, none⟩

/-- The body of the `try` of ApiService.request on the response fetch resolves with: the
service afterwards and the data returned or the message of the error thrown. -/
def ApiService.requestTry (service : ApiService) (response : HttpReply) :
    ApiService × Except String HttpReply :=
  if !response.ok ∧ response.status = 401 then
    (service.setToken none, .error "Token requerido o inválido")
  else if !response.ok ∧ response.status = 403 then (service, .error "Acceso denegado")
  else if !response.ok ∧ response.status = 404 then (service, .error "Recurso no encontrado")
  else if !response.ok ∧ response.status ≥ 500 then (service, .error "Error del servidor")
  else
    match truthy response.error with
    | some error =>
      if response.ok ∧ response.success = false then (service, .error error)
      else if jsIncludes error "token" || jsIncludes error "Unauthorized" then
        (service.setToken none, .error "Token requerido o inválido")
      else (service, .ok response)
    | none => (service, .ok response)

/-- The method request of the API service on the response fetch resolves with: the `try`
and the `catch`, which clears the token on three kinds of message and throws the error
again. -/
def ApiService.request (service : ApiService) (response : HttpReply) :
    ApiService × Except String HttpReply :=
  match service.requestTry response with
  | (service, .ok data) => (service, .ok data)
  | (service, .error message) =>
    if jsIncludes message "Token requerido" || jsIncludes message "Unauthorized" ||
        jsIncludes message "token" then
      (service.setToken none, .error message)
    else (service, .error message)

/-- The two keys the client auth service keeps in localStorage. -/
structure AuthService where
  auth_token : Option String
  auth_user : Option String
  deriving DecidableEq, Repr

/-- The method logout of the auth service, which removes both keys. -/
def AuthService.logout (_service : AuthService) : AuthService := ⟨none, none⟩

/-- The method handleResponse of the auth service: the data, or the message of the error
thrown for a response that is not ok. -/
def handleResponse (response : HttpReply) : Except String HttpReply :=
  if !response.ok then
    match truthy response.message, truthy response.error with
    | some message, _ => .error message
    | none, some error => .error error
    | none, none => .error ("HTTP Error: " ++ toString response.status)
  else .ok response

/-- The result object of getProfile. -/
structure ProfileResult where
  success : Bool
  user : Option String
  error : Option String
  deriving DecidableEq, Repr

/-- The method getProfile of the auth service on the response fetch resolves with. -/
def AuthService.getProfile (service : AuthService) (response : HttpReply) :
    AuthService × ProfileResult :=
  match handleResponse response with
  | .ok data =>
    match data.success, data.user with
    | true, some user => ({ service with auth_user := some user }, ⟨true, some user, none⟩)
    | _, _ =>
      (service, ⟨false, none, some ((truthy data.message).getD "Error obteniendo perfil")⟩)
  | .error message =>
    let service :=
      if jsIncludes message "Token" || jsIncludes message "401" || jsIncludes message "403"
      then service.logout
      else service
    (service, ⟨false, none, some ((truthy (some message)).getD "Error de conexión")⟩)

/-- The users table after two successful registrations: the first account takes the
string "luz@tienda.com" as its username, the second as its email. -/
def crossStore : UserStore :=
  (authRegister sampleEnv
    (authRegister sampleEnv ⟨[], 0⟩
      ⟨some "luz@tienda.com", some "otra@tienda.com", some "secreto"⟩ "salt" 10).2
    ⟨some "luz", some "luz@tienda.com", some "secreto"⟩ "salt" 20).2

/-- The state after the stock of product 3 was reduced to 5 while user 7 still holds 8
units of it. -/
def staleDb : Db := ⟨[{ lowStockProduct with stock := 5 }], [lowStockRow], 1⟩

-- The add route past its validation

theorem cartAdd_of_valid {db : Db} {u : Int} {b : AddBody} {t : Nat} {pid qty : Int}
    {product : Product} (h1 : b.product_id = some pid) (h2 : 0 < pid)
    (h3 : parseInt (quantityOrDefault b.quantity) = some qty) (h4 : 0 < qty)
    (h5 : (db.products.find? fun p => decide (p.id = pid)) = some product)
    (h6 : qty ≤ product.stock) :
    cartAdd db u b t =
      match db.cart_items.find? fun ci =>
          decide (ci.user_id = u) && decide (ci.product_id = pid) with
      | some existingItem =>
        if existingItem.quantity + qty > product.stock then
          (errStockMerge (product.stock - existingItem.quantity), db)
        else
          (⟨200, true, none,
              [.text "Cantidad actualizada - ", .int (existingItem.quantity + qty),
               .text " unidades de ", .text product.name], none⟩,
           { db with
             cart_items := setQuantity db.cart_items existingItem.id
               (existingItem.quantity + qty) })
      | none =>
        (⟨201, true, none, [.text product.name, .text " agregado al carrito"],
            some (nextCartItemId db)⟩,
         { db with
           cart_items := db.cart_items ++ [⟨nextCartItemId db, u, pid, qty, t⟩]
           cart_seq := nextCartItemId db }) := by
  have h2' : ¬ (pid = 0 ∨ pid ≤ 0) := by omega
  have h4' : ¬ qty ≤ 0 := by omega
  have h6' : ¬ product.stock < qty := by omega
  simp only [cartAdd, h1, h3, h5, if_neg h2', if_neg h4', if_neg h6']

theorem cartAdd_success {db : Db} {u : Int} {b : AddBody} {t : Nat}
    (h : (cartAdd db u b t).1.success = true) :
    ∃ pid qty product, b.product_id = some pid ∧ 0 < pid ∧
      parseInt (quantityOrDefault b.quantity) = some qty ∧ 0 < qty ∧
      (db.products.find? fun p => decide (p.id = pid)) = some product ∧
      qty ≤ product.stock := by
  cases hpid : b.product_id with
  | none => simp [cartAdd, hpid, errProductId] at h
  | some pid =>
    by_cases hp : pid = 0 ∨ pid ≤ 0
    · simp [cartAdd, hpid, hp, errProductId] at h
    · cases hqty : parseInt (quantityOrDefault b.quantity) with
      | none => simp [cartAdd, hpid, hp, hqty, errQuantity] at h
      | some qty =>
        by_cases hq : qty ≤ 0
        · simp [cartAdd, hpid, hp, hqty, hq, errQuantity] at h
        · cases hprod : db.products.find? fun p => decide (p.id = pid) with
          | none => simp [cartAdd, hpid, hp, hqty, hq, hprod, errProductNotFound] at h
          | some product =>
            by_cases hs : product.stock < qty
            · simp [cartAdd, hpid, hp, hqty, hq, hprod, hs, errStock] at h
            · exact ⟨pid, qty, product, rfl, by omega, rfl, by omega, hprod, by omega⟩

theorem filter_setQuantity (items : List CartItem) (id q u P : Int) :
    (setQuantity items id q).filter
        (fun ci => decide (ci.user_id = u) && decide (ci.product_id = P)) =
      setQuantity
        (items.filter fun ci => decide (ci.user_id = u) && decide (ci.product_id = P)) id q := by
  induction items with
  | nil => rfl
  | cons a l ih =>
    simp only [setQuantity, List.map_cons, List.filter_cons] at ih ⊢
    by_cases ha : a.id = id <;> by_cases hm : (a.user_id = u ∧ a.product_id = P) <;>
      simp [ha, hm, ih]

theorem find?_none_of_no_row {items : List CartItem} {u P : Int}
    (h : ∀ ci ∈ items, ¬ (ci.user_id = u ∧ ci.product_id = P)) :
    (items.find? fun ci => decide (ci.user_id = u) && decide (ci.product_id = P)) = none := by
  rw [List.find?_eq_none]
  intro ci hci
  simpa using h ci hci

theorem filter_nil_of_no_row {items : List CartItem} {u P : Int}
    (h : ∀ ci ∈ items, ¬ (ci.user_id = u ∧ ci.product_id = P)) :
    (items.filter fun ci => decide (ci.user_id = u) && decide (ci.product_id = P)) = [] := by
  rw [List.filter_eq_nil_iff]
  intro ci hci
  simpa using h ci hci

/-- C1: when user u has no row for product P and two add requests for P, whose
quantities parse as q1 and q2, both succeed, cart_items afterwards holds exactly one row
for (u, P), and its quantity is q1 + q2. -/
theorem add_twice_merges (db : Db) (u P : Int) (b1 b2 : AddBody) (t1 t2 : Nat) (q1 q2 : Int)
    (hP1 : b1.product_id = some P) (hP2 : b2.product_id = some P)
    (hq1 : parseInt (quantityOrDefault b1.quantity) = some q1)
    (hq2 : parseInt (quantityOrDefault b2.quantity) = some q2)
    (hnone : ∀ ci ∈ db.cart_items, ¬ (ci.user_id = u ∧ ci.product_id = P))
    (hs1 : (cartAdd db u b1 t1).1.success = true)
    (hs2 : (cartAdd (cartAdd db u b1 t1).2 u b2 t2).1.success = true) :
    ∃ row, (cartAdd (cartAdd db u b1 t1).2 u b2 t2).2.cart_items.filter
        (fun ci => decide (ci.user_id = u) && decide (ci.product_id = P)) = [row] ∧
      row.quantity = q1 + q2 := by
  obtain ⟨pid, qty, product, e1, hpid, e3, hqty, hprod, hstock⟩ := cartAdd_success hs1
  obtain rfl : P = pid := by rw [hP1] at e1; exact Option.some.inj e1
  obtain rfl : q1 = qty := by rw [hq1] at e3; exact Option.some.inj e3
  have hfirst := cartAdd_of_valid (u := u) (t := t1) hP1 hpid hq1 hqty hprod hstock
  rw [find?_none_of_no_row hnone] at hfirst
  simp only at hfirst
  rw [hfirst] at hs2 ⊢
  obtain ⟨pid2, qty2, product2, e1, hpid2, e3, hqty2, hprod2, hstock2⟩ := cartAdd_success hs2
  obtain rfl : P = pid2 := by rw [hP2] at e1; exact Option.some.inj e1
  obtain rfl : q2 = qty2 := by rw [hq2] at e3; exact Option.some.inj e3
  have hsecond := cartAdd_of_valid (u := u) (t := t2) hP2 hpid2 hq2 hqty2 hprod2 hstock2
  simp only [List.find?_append, find?_none_of_no_row hnone, Option.none_or] at hsecond
  simp only [List.find?_cons, decide_True, Bool.and_self, List.find?_nil] at hsecond
  rw [hsecond] at hs2 ⊢
  by_cases hm : q1 + q2 > product2.stock
  · simp [hm, errStockMerge] at hs2
  · refine ⟨⟨nextCartItemId db, u, P, q1 + q2, t1⟩, ?_, rfl⟩
    simp only [if_neg hm, filter_setQuantity, List.filter_append, filter_nil_of_no_row hnone,
      List.nil_append]
    simp [setQuantity]

/-- Witness of C1: adding product 5 with quantity 2 and then with quantity 3. -/
theorem add_twice_merges_witness :
    ∃ row, (cartAdd (cartAdd emptyCartDb 7 ⟨some 5, JsVal.ofInt 2⟩ 100).2 7
        ⟨some 5, JsVal.ofInt 3⟩ 160).2.cart_items.filter
        (fun ci => decide (ci.user_id = 7) && decide (ci.product_id = 5)) = [row] ∧
      row.quantity = 2 + 3 :=
  add_twice_merges emptyCartDb 7 5 ⟨some 5, JsVal.ofInt 2⟩ ⟨some 5, JsVal.ofInt 3⟩ 100 160 2 3
    rfl rfl (by decide) (by decide) (by decide) (by decide) (by decide)

/-- C2: when the caller already has a row of quantity e for a product of stock s, an add
whose quantity parses as q with e + q > s is answered 400 and leaves the stored state as
it was: the row keeps quantity e and no row is created. -/
theorem add_over_stock_rejected (db : Db) (u P : Int) (b : AddBody) (t : Nat)
    (product : Product) (e : CartItem) (q : Int)
    (hP : b.product_id = some P)
    (hprod : (db.products.find? fun p => decide (p.id = P)) = some product)
    (hrow : (db.cart_items.find? fun ci =>
      decide (ci.user_id = u) && decide (ci.product_id = P)) = some e)
    (hq : parseInt (quantityOrDefault b.quantity) = some q)
    (hover : e.quantity + q > product.stock) :
    (cartAdd db u b t).1.status = 400 ∧ (cartAdd db u b t).1.success = false ∧
      (cartAdd db u b t).2 = db := by
  by_cases hp : P = 0 ∨ P ≤ 0
  · simp [cartAdd, hP, hp, errProductId]
  · by_cases hq0 : q ≤ 0
    · simp [cartAdd, hP, hp, hq, hq0, errQuantity]
    · by_cases hs : product.stock < q
      · simp [cartAdd, hP, hp, hq, hq0, hprod, hs, errStock]
      · rw [cartAdd_of_valid hP (by omega) hq (by omega) hprod (by omega), hrow]
        simp [hover, errStockMerge]

/-- Witness of C2: stock 10, a row of quantity 8, and an add of 5. -/
theorem add_over_stock_rejected_witness :
    (cartAdd lowStockDb 7 ⟨some 3, JsVal.ofInt 5⟩ 200).1.status = 400 ∧
      (cartAdd lowStockDb 7 ⟨some 3, JsVal.ofInt 5⟩ 200).1.success = false ∧
      (cartAdd lowStockDb 7 ⟨some 3, JsVal.ofInt 5⟩ 200).2 = lowStockDb :=
  add_over_stock_rejected lowStockDb 7 3 ⟨some 3, JsVal.ofInt 5⟩ 200 lowStockProduct
    lowStockRow 5 rfl rfl rfl (by decide) (by decide)

-- Invariants of the reachable states

theorem mem_setQuantity {items : List CartItem} {id q : Int} {cj : CartItem} :
    cj ∈ setQuantity items id q ↔
      ∃ c ∈ items, cj = if c.id = id then { c with quantity := q } else c := by
  simp only [setQuantity, List.mem_map]
  constructor
  · rintro ⟨c, hc, rfl⟩; exact ⟨c, hc, rfl⟩
  · rintro ⟨c, hc, rfl⟩; exact ⟨c, hc, rfl⟩

theorem map_id_setQuantity (items : List CartItem) (id q : Int) :
    (setQuantity items id q).map (fun ci => ci.id) = items.map fun ci => ci.id := by
  simp only [setQuantity, List.map_map]
  apply List.map_congr_left
  intro c _
  by_cases h : c.id = id <;> simp [h]

theorem le_foldl_max (items : List CartItem) (m : Int) :
    m ≤ items.foldl (fun m ci => max m ci.id) m ∧
      ∀ ci ∈ items, ci.id ≤ items.foldl (fun m ci => max m ci.id) m := by
  induction items generalizing m with
  | nil => simp
  | cons a l ih =>
    simp only [List.foldl_cons, List.mem_cons, forall_eq_or_imp]
    have h1 := (ih (max m a.id)).1
    exact ⟨le_trans (le_max_left _ _) h1, le_trans (le_max_right _ _) h1, (ih _).2⟩

theorem nextCartItemId_fresh (db : Db) : ∀ ci ∈ db.cart_items, ci.id < nextCartItemId db := by
  intro ci hci
  have := (le_foldl_max db.cart_items db.cart_seq).2 ci hci
  unfold nextCartItemId
  omega

theorem eq_of_id_eq {items : List CartItem} (hn : (items.map fun ci => ci.id).Nodup)
    {a b : CartItem} (ha : a ∈ items) (hb : b ∈ items) (h : a.id = b.id) : a = b :=
  List.inj_on_of_nodup_map hn ha hb h

theorem joinProducts_find {db : Db} {u id : Int} {r : CartItem × Product}
    (h : ((joinProducts db).find? fun r =>
      decide (r.1.id = id) && decide (r.1.user_id = u)) = some r) :
    r.1 ∈ db.cart_items ∧ r.2 ∈ db.products ∧ r.1.product_id = r.2.id ∧ r.1.id = id ∧
      r.1.user_id = u := by
  have hm := List.mem_of_find?_eq_some h
  have hp := List.find?_some h
  simp only [joinProducts, List.mem_flatMap, List.mem_map, List.mem_filter,
    decide_eq_true_eq] at hm
  obtain ⟨ci, hci, p, ⟨hp1, hp2⟩, rfl⟩ := hm
  simp only [Bool.and_eq_true, decide_eq_true_eq] at hp
  exact ⟨hci, hp1, hp2, hp.1, hp.2⟩

theorem cartAdd_state (db : Db) (u : Int) (b : AddBody) (t : Nat) :
    (cartAdd db u b t).2 = db ∨
    (∃ e qty, e ∈ db.cart_items ∧ 0 < qty ∧ (cartAdd db u b t).2 =
      { db with cart_items := setQuantity db.cart_items e.id (e.quantity + qty) }) ∨
    (∃ pid qty, 0 < qty ∧ (cartAdd db u b t).2 =
      { db with
        cart_items := db.cart_items ++ [⟨nextCartItemId db, u, pid, qty, t⟩]
        cart_seq := nextCartItemId db }) := by
  cases hpid : b.product_id with
  | none => left; simp [cartAdd, hpid]
  | some pid =>
    by_cases hp : pid = 0 ∨ pid ≤ 0
    · left; simp [cartAdd, hpid, hp]
    · cases hqty : parseInt (quantityOrDefault b.quantity) with
      | none => left; simp [cartAdd, hpid, hp, hqty]
      | some qty =>
        by_cases hq : qty ≤ 0
        · left; simp [cartAdd, hpid, hp, hqty, hq]
        · cases hprod : db.products.find? fun p => decide (p.id = pid) with
          | none => left; simp [cartAdd, hpid, hp, hqty, hq, hprod]
          | some product =>
            by_cases hs : product.stock < qty
            · left; simp [cartAdd, hpid, hp, hqty, hq, hprod, hs]
            · rw [cartAdd_of_valid hpid (by omega) hqty (by omega) hprod (by omega)]
              cases hex : db.cart_items.find? fun ci =>
                  decide (ci.user_id = u) && decide (ci.product_id = pid) with
              | none => right; right; exact ⟨pid, qty, by omega, rfl⟩
              | some e =>
                by_cases hm : e.quantity + qty > product.stock
                · left; simp [hm]
                · right; left
                  exact ⟨e, qty, List.mem_of_find?_eq_some hex, by omega, by simp [hm]⟩

theorem cartUpdate_of_valid {db : Db} {u id : Int} {quantity : JsVal} {qty : Int}
    {r : CartItem × Product} (h1 : parseInt quantity = some qty) (h2 : 0 < qty)
    (h3 : ((joinProducts db).find? fun r =>
      decide (r.1.id = id) && decide (r.1.user_id = u)) = some r)
    (h4 : qty ≤ r.2.stock) :
    cartUpdate db u id quantity =
      (⟨200, true, none,
          [.text "Cantidad actualizada - ", .int qty, .text " unidades de ", .text r.2.name],
          none⟩,
       { db with cart_items := setQuantity db.cart_items id qty }) := by
  have h2' : ¬ qty ≤ 0 := by omega
  have h4' : ¬ qty > r.2.stock := by omega
  simp only [cartUpdate, h1, h3, if_neg h2', if_neg h4']

theorem cartUpdate_success {db : Db} {u id : Int} {quantity : JsVal}
    (h : (cartUpdate db u id quantity).1.success = true) :
    ∃ qty r, parseInt quantity = some qty ∧ 0 < qty ∧
      ((joinProducts db).find? fun r =>
        decide (r.1.id = id) && decide (r.1.user_id = u)) = some r ∧ qty ≤ r.2.stock := by
  cases hqty : parseInt quantity with
  | none => simp [cartUpdate, hqty, errQuantity] at h
  | some qty =>
    by_cases hq : qty ≤ 0
    · simp [cartUpdate, hqty, hq, errQuantity] at h
    · cases hr : (joinProducts db).find? fun r =>
          decide (r.1.id = id) && decide (r.1.user_id = u) with
      | none => simp [cartUpdate, hqty, hq, hr, errItemNotFound] at h
      | some r =>
        by_cases hs : qty > r.2.stock
        · simp [cartUpdate, hqty, hq, hr, hs, errStock] at h
        · exact ⟨qty, r, rfl, by omega, rfl, by omega⟩

theorem cartUpdate_state (db : Db) (u id : Int) (quantity : JsVal) :
    (cartUpdate db u id quantity).2 = db ∨
    ∃ qty, 0 < qty ∧ (cartUpdate db u id quantity).2 =
      { db with cart_items := setQuantity db.cart_items id qty } := by
  by_cases h : (cartUpdate db u id quantity).1.success = true
  · obtain ⟨qty, r, h1, h2, h3, h4⟩ := cartUpdate_success h
    right
    exact ⟨qty, h2, by rw [cartUpdate_of_valid h1 h2 h3 h4]⟩
  · left
    cases hqty : parseInt quantity with
    | none => simp [cartUpdate, hqty]
    | some qty =>
      by_cases hq : qty ≤ 0
      · simp [cartUpdate, hqty, hq]
      · cases hr : (joinProducts db).find? fun r =>
            decide (r.1.id = id) && decide (r.1.user_id = u) with
        | none => simp [cartUpdate, hqty, hq, hr]
        | some r =>
          by_cases hs : qty > r.2.stock
          · simp [cartUpdate, hqty, hq, hr, hs]
          · exact absurd (by rw [cartUpdate_of_valid hqty (by omega) hr (by omega)]) h

theorem cartRemove_state (db : Db) (u id : Int) :
    (cartRemove db u id).2 = db ∨ (cartRemove db u id).2 =
      { db with cart_items := db.cart_items.filter fun ci => !decide (ci.id = id) } := by
  unfold cartRemove
  split
  · left; rfl
  · right; rfl

theorem cartClear_state (db : Db) (u : Int) :
    (cartClear db u).2 = db ∨ (cartClear db u).2 =
      { db with cart_items := db.cart_items.filter fun ci => !decide (ci.user_id = u) } := by
  unfold cartClear
  simp only
  split
  · left; rfl
  · right; rfl

theorem cartInv_setQuantity {db : Db} (h : CartInv db) (id q : Int) (hq : 1 ≤ q) :
    CartInv { db with cart_items := setQuantity db.cart_items id q } := by
  refine ⟨?_, ?_⟩
  · intro cj hcj
    obtain ⟨c, hc, rfl⟩ := mem_setQuantity.1 hcj
    by_cases hid : c.id = id
    · simpa [hid] using hq
    · simpa [hid] using h.1 c hc
  · simpa only [map_id_setQuantity] using h.2

theorem cartInv_filter {db : Db} (h : CartInv db) (p : CartItem → Bool) :
    CartInv { db with cart_items := db.cart_items.filter p } := by
  refine ⟨fun ci hci => h.1 ci (List.mem_of_mem_filter hci), ?_⟩
  exact List.Nodup.sublist (List.Sublist.map _ (List.filter_sublist _)) h.2

theorem cartInv_of_reachable {db : Db} (hr : Reachable db) : CartInv db := by
  induction hr with
  | init products seq => exact ⟨by simp, by simp⟩
  | @add db u b t _ ih =>
    rcases cartAdd_state db u b t with h | ⟨e, qty, he, hq, h⟩ | ⟨pid, qty, hq, h⟩
    · rw [h]; exact ih
    · rw [h]
      exact cartInv_setQuantity ih _ _ (by have := ih.1 e he; omega)
    · rw [h]
      refine ⟨?_, ?_⟩
      · intro ci hci
        simp only [List.mem_append, List.mem_singleton] at hci
        rcases hci with hci | rfl
        · exact ih.1 ci hci
        · exact hq
      · simp only [List.map_append, List.map_cons, List.map_nil]
        refine List.Nodup.append ih.2 (List.nodup_singleton _) ?_
        simp only [List.disjoint_singleton, List.mem_map, not_exists, not_and]
        intro ci hci heq
        have := nextCartItemId_fresh db ci hci
        omega
  | @update db u id quantity _ ih =>
    rcases cartUpdate_state db u id quantity with h | ⟨qty, hq, h⟩
    · rw [h]; exact ih
    · rw [h]; exact cartInv_setQuantity ih _ _ hq
  | @remove db u id _ ih =>
    rcases cartRemove_state db u id with h | h
    · rw [h]; exact ih
    · rw [h]; exact cartInv_filter ih _
  | @clear db u _ ih =>
    rcases cartClear_state db u with h | h
    · rw [h]; exact ih
    · rw [h]; exact cartInv_filter ih _

theorem setQuantity_others {items : List CartItem} (hn : (items.map fun ci => ci.id).Nodup)
    {e : CartItem} (he : e ∈ items) (q : Int) :
    ({ e with quantity := q } : CartItem) ∈ setQuantity items e.id q ∧
      ∀ cj ∈ setQuantity items e.id q, cj ≠ { e with quantity := q } → cj ∈ items := by
  refine ⟨mem_setQuantity.2 ⟨e, he, by simp⟩, ?_⟩
  intro cj hcj hne
  obtain ⟨c, hc, rfl⟩ := mem_setQuantity.1 hcj
  by_cases hid : c.id = e.id
  · obtain rfl := eq_of_id_eq hn hc he hid
    simp at hne
  · simpa [hid] using hc

/-- C3: in every reachable state, a successful add leaves a row of the caller for the
requested product, and a successful update leaves the row of the given id, whose
quantity is at least 1 and at most the stock of the product the operation read; every
other row of cart_items is a row that was there before. -/
theorem add_update_quantity_bounds (db : Db) (hr : Reachable db) :
    (∀ (u : Int) (b : AddBody) (t : Nat), (cartAdd db u b t).1.success = true →
      ∃ pid product ci, b.product_id = some pid ∧
        (db.products.find? fun p => decide (p.id = pid)) = some product ∧
        ci ∈ (cartAdd db u b t).2.cart_items ∧ ci.user_id = u ∧ ci.product_id = pid ∧
        1 ≤ ci.quantity ∧ ci.quantity ≤ product.stock ∧
        ∀ cj ∈ (cartAdd db u b t).2.cart_items, cj ≠ ci → cj ∈ db.cart_items) ∧
    (∀ (u id : Int) (quantity : JsVal), (cartUpdate db u id quantity).1.success = true →
      ∃ r ci, ((joinProducts db).find? fun r =>
          decide (r.1.id = id) && decide (r.1.user_id = u)) = some r ∧
        ci ∈ (cartUpdate db u id quantity).2.cart_items ∧ ci.id = id ∧ ci.user_id = u ∧
        ci.product_id = r.2.id ∧ 1 ≤ ci.quantity ∧ ci.quantity ≤ r.2.stock ∧
        ∀ cj ∈ (cartUpdate db u id quantity).2.cart_items, cj ≠ ci → cj ∈ db.cart_items) := by
  have hinv := cartInv_of_reachable hr
  constructor
  · intro u b t hs
    obtain ⟨pid, qty, product, hpid, hp, hqty, hq, hprod, hstock⟩ := cartAdd_success hs
    rw [cartAdd_of_valid hpid hp hqty hq hprod hstock] at hs ⊢
    cases hex : db.cart_items.find? fun ci =>
        decide (ci.user_id = u) && decide (ci.product_id = pid) with
    | none =>
      refine ⟨pid, product, ⟨nextCartItemId db, u, pid, qty, t⟩, hpid, hprod, by simp, rfl, rfl,
        by simpa using hq, hstock, ?_⟩
      intro cj hcj hne
      simp only [List.mem_append, List.mem_singleton] at hcj
      rcases hcj with hcj | rfl
      · exact hcj
      · exact absurd rfl hne
    | some e =>
      rw [hex] at hs
      have hmem := List.mem_of_find?_eq_some hex
      have hpred := List.find?_some hex
      simp only [Bool.and_eq_true, decide_eq_true_eq] at hpred
      by_cases hm : e.quantity + qty > product.stock
      · simp [hm, errStockMerge] at hs
      · have hq1 := hinv.1 e hmem
        obtain ⟨h1, h2⟩ := setQuantity_others hinv.2 hmem (e.quantity + qty)
        refine ⟨pid, product, { e with quantity := e.quantity + qty }, hpid, hprod, ?_, hpred.1,
          hpred.2, ?_, ?_, ?_⟩
        · simpa [hm] using h1
        · show 1 ≤ e.quantity + qty
          omega
        · show e.quantity + qty ≤ product.stock
          omega
        · simpa [hm] using h2
  · intro u id quantity hs
    obtain ⟨qty, r, hqty, hq, hfind, hstock⟩ := cartUpdate_success hs
    obtain ⟨hmem, -, hprod, hid, hu⟩ := joinProducts_find hfind
    subst hid
    rw [cartUpdate_of_valid hqty hq hfind hstock]
    obtain ⟨h1, h2⟩ := setQuantity_others hinv.2 hmem qty
    exact ⟨r, { r.1 with quantity := qty }, hfind, h1, rfl, hu, hprod, hq, hstock, h2⟩

/-- Witness of C3: a second add of product 5 in the state a first add produced. -/
theorem add_update_quantity_bounds_witness :
    ∃ pid product ci, (⟨some 5, JsVal.ofInt 3⟩ : AddBody).product_id = some pid ∧
      ((cartAdd emptyCartDb 7 ⟨some 5, JsVal.ofInt 2⟩ 100).2.products.find?
        fun p => decide (p.id = pid)) = some product ∧
      ci ∈ (cartAdd (cartAdd emptyCartDb 7 ⟨some 5, JsVal.ofInt 2⟩ 100).2 7
        ⟨some 5, JsVal.ofInt 3⟩ 160).2.cart_items ∧
      ci.user_id = 7 ∧ ci.product_id = pid ∧ 1 ≤ ci.quantity ∧ ci.quantity ≤ product.stock ∧
      ∀ cj ∈ (cartAdd (cartAdd emptyCartDb 7 ⟨some 5, JsVal.ofInt 2⟩ 100).2 7
          ⟨some 5, JsVal.ofInt 3⟩ 160).2.cart_items,
        cj ≠ ci → cj ∈ (cartAdd emptyCartDb 7 ⟨some 5, JsVal.ofInt 2⟩ 100).2.cart_items :=
  (add_update_quantity_bounds (cartAdd emptyCartDb 7 ⟨some 5, JsVal.ofInt 2⟩ 100).2
    (Reachable.add 7 ⟨some 5, JsVal.ofInt 2⟩ 100 (Reachable.init _ _))).1 7
    ⟨some 5, JsVal.ofInt 3⟩ 160 (by decide)

-- parseInt reads back an integer column value

theorem digitChar_facts (d : Nat) (h : d < 10) :
    digitValue 10 (digitChar d) = some d ∧ isStrWhiteSpace (digitChar d) = false ∧
      digitChar d ≠ '-' ∧ digitChar d ≠ '+' ∧ digitChar d ≠ 'x' ∧ digitChar d ≠ 'X' := by
  interval_cases d <;> decide

theorem natDigitsAux_lt (fuel n : Nat) (acc : List Nat) (h : ∀ d ∈ acc, d < 10) :
    ∀ d ∈ natDigitsAux fuel n acc, d < 10 := by
  induction fuel generalizing n acc with
  | zero => simpa [natDigitsAux] using h
  | succ k ih =>
    unfold natDigitsAux
    split
    · exact h
    · apply ih
      intro d hd
      simp only [List.mem_cons] at hd
      rcases hd with rfl | hd
      · omega
      · exact h d hd

theorem natDigitsAux_val (fuel n : Nat) (acc : List Nat) (h : n ≤ fuel) :
    (natDigitsAux fuel n acc).foldl (fun a d => a * 10 + d) 0 =
      acc.foldl (fun a d => a * 10 + d) n := by
  induction fuel generalizing n acc with
  | zero =>
    obtain rfl : n = 0 := by omega
    rfl
  | succ k ih =>
    unfold natDigitsAux
    split
    · next h0 => rw [h0]
    · next h0 =>
      rw [ih (n / 10) _ (by omega)]
      simp only [List.foldl_cons]
      congr 1
      omega

theorem natDigitsAux_length (fuel n : Nat) (acc : List Nat) (m : Nat) (h : n < 10 ^ m) :
    acc.length ≤ (natDigitsAux fuel n acc).length ∧
      (natDigitsAux fuel n acc).length ≤ m + acc.length := by
  induction fuel generalizing n acc m with
  | zero => simp [natDigitsAux]
  | succ k ih =>
    unfold natDigitsAux
    split
    · simp
    · next h0 =>
      cases m with
      | zero => simp at h; omega
      | succ m =>
        have hlt : n / 10 < 10 ^ m := by
          rw [Nat.div_lt_iff_lt_mul (by norm_num)]
          rw [pow_succ] at h
          exact h
        have := ih (n / 10) (n % 10 :: acc) m hlt
        simp only [List.length_cons] at this
        omega

theorem natDigits_ne_nil (n : Nat) (h : 0 < n) : natDigits n ≠ [] := by
  unfold natDigits
  cases n with
  | zero => omega
  | succ k =>
    unfold natDigitsAux
    rw [if_neg (by omega)]
    intro hnil
    have := (natDigitsAux_length k ((k + 1) / 10) [(k + 1) % 10] (k + 1)
      (lt_of_le_of_lt (Nat.div_le_self _ _) (Nat.lt_pow_self (by norm_num) _))).1
    rw [hnil] at this
    simp at this

theorem readDigits_digits (ds : List Nat) (h : ∀ d ∈ ds, d < 10) (acc : Nat) (seen : Bool) :
    readDigits 10 (ds.map digitChar) acc seen =
      if ds = [] ∧ seen = false then none else some (ds.foldl (fun a d => a * 10 + d) acc) := by
  induction ds generalizing acc seen with
  | nil => cases seen <;> simp [readDigits]
  | cons d ds ih =>
    have hd := (digitChar_facts d (h d (List.mem_cons_self _ _))).1
    simp only [List.map_cons, readDigits, hd]
    rw [ih (fun x hx => h x (List.mem_cons_of_mem _ hx))]
    simp

theorem parseIntChars_digits (d : Nat) (ds : List Nat) (h : ∀ x ∈ d :: ds, x < 10) :
    parseIntChars ((d :: ds).map digitChar) =
      some (((d :: ds).foldl (fun a d => a * 10 + d) 0 : Nat) : Int) ∧
    parseIntChars ('-' :: (d :: ds).map digitChar) =
      some (-(((d :: ds).foldl (fun a d => a * 10 + d) 0 : Nat) : Int)) := by
  obtain ⟨-, hw, hm, hp, hx, hX⟩ := digitChar_facts d (h d (List.mem_cons_self _ _))
  have hsign : dropSign ((d :: ds).map digitChar) = (false, (d :: ds).map digitChar) := by
    simp only [List.map_cons]
    unfold dropSign
    split
    · next heq => exact absurd (List.cons.inj heq).1 hm
    · next heq => exact absurd (List.cons.inj heq).1 hp
    · rfl
  have hhex : dropHexMark ((d :: ds).map digitChar) = (10, (d :: ds).map digitChar) := by
    cases ds with
    | nil =>
      simp only [List.map_cons, List.map_nil]
      unfold dropHexMark
      split
      · next heq => simp at heq
      · next heq => simp at heq
      · rfl
    | cons e es =>
      obtain ⟨-, -, -, -, hx, hX⟩ :=
        digitChar_facts e (h e (List.mem_cons_of_mem _ (List.mem_cons_self _ _)))
      simp only [List.map_cons]
      unfold dropHexMark
      split
      · next heq => exact absurd (List.cons.inj (List.cons.inj heq).2).1 hx
      · next heq => exact absurd (List.cons.inj (List.cons.inj heq).2).1 hX
      · rfl
  have hread := readDigits_digits (d :: ds) h 0 false
  constructor
  · unfold parseIntChars
    have hdrop : List.dropWhile isStrWhiteSpace ((d :: ds).map digitChar) =
        (d :: ds).map digitChar := by
      simp [List.dropWhile, hw]
    simp only [hdrop, hsign, hhex, hread]
    simp
  · unfold parseIntChars
    have hdrop : List.dropWhile isStrWhiteSpace ('-' :: (d :: ds).map digitChar) =
        '-' :: (d :: ds).map digitChar := by
      rw [List.dropWhile_cons]
      have : isStrWhiteSpace '-' = false := by decide
      simp [this]
    rw [hdrop]
    have hs2 : dropSign ('-' :: (d :: ds).map digitChar) = (true, (d :: ds).map digitChar) := rfl
    simp only [hs2, hhex, hread]
    simp

/-- parseInt of the number an integer column value arrives as is that integer, as long
as the number prints in plain decimal notation (fewer than 22 digits). -/
theorem parseInt_ofInt (q : Int) (h : q.natAbs < 10 ^ 21) : parseInt (JsVal.ofInt q) = some q := by
  by_cases h0 : q = 0
  · subst h0; decide
  · have hpos : 0 < q.natAbs := Int.natAbs_pos.2 h0
    have hne := natDigits_ne_nil _ hpos
    have hlt : ∀ d ∈ natDigits q.natAbs, d < 10 := natDigitsAux_lt _ _ _ (by simp)
    have hval : (natDigits q.natAbs).foldl (fun a d => a * 10 + d) 0 = q.natAbs := by
      unfold natDigits
      rw [natDigitsAux_val _ _ _ (le_refl _)]
      rfl
    have hlen : (natDigits q.natAbs).length ≤ 21 := by
      have := (natDigitsAux_length q.natAbs q.natAbs [] 21 h).2
      simpa [natDigits] using this
    obtain ⟨hP, hN⟩ : parseIntChars ((natDigits q.natAbs).map digitChar) =
          some ((q.natAbs : Nat) : Int) ∧
        parseIntChars ('-' :: (natDigits q.natAbs).map digitChar) =
          some (-((q.natAbs : Nat) : Int)) := by
      cases hds : natDigits q.natAbs with
      | nil => exact absurd hds hne
      | cons d ds =>
        rw [hds] at hlt hval
        have := parseIntChars_digits d ds hlt
        rw [hval] at this
        exact this
    unfold parseInt JsVal.ofInt
    cases hds : natDigits q.natAbs with
    | nil => exact absurd hds hne
    | cons d ds =>
      rw [hds] at hlen hP hN
      simp only [List.length_cons] at hlen
      have hk : ((ds.length + 1 : Nat) : Int) ≤ ((d :: ds).length : Int) ∧
          (((d :: ds).length : Nat) : Int) ≤ 21 := by
        simp only [List.length_cons]
        constructor
        · exact le_refl _
        · exact_mod_cast hlen
      simp only [JsVal.toChars, JsNum.toChars, if_pos hk]
      simp only [List.length_cons, sub_self, Int.toNat_zero, zeros, List.replicate_zero,
        List.append_nil]
      by_cases hneg : q < 0
      · simp only [hneg, decide_True, if_true, List.singleton_append]
        rw [hN]
        congr 1
        omega
      · simp only [hneg, decide_False, List.nil_append]
        simp only [Bool.false_eq_true, if_false, List.nil_append]
        rw [hP]
        congr 1
        omega

theorem foldl_total_items (l : List CartRow) (a : Int)
    (h : ∀ item ∈ l, item.quantity.natAbs < 10 ^ 21) :
    l.foldl (fun sum item => jsAdd sum (parseInt (JsVal.ofInt item.quantity))) (some a) =
      some (a + (l.map fun item => item.quantity).sum) := by
  induction l generalizing a with
  | nil => simp
  | cons x l ih =>
    simp only [List.foldl_cons, List.map_cons, List.sum_cons]
    rw [parseInt_ofInt _ (h x (List.mem_cons_self _ _))]
    have hadd : jsAdd (some a) (some x.quantity) = some (a + x.quantity) := rfl
    rw [hadd, ih _ (fun item hi => h item (List.mem_cons_of_mem _ hi))]
    congr 1
    ring

theorem foldl_total (l : List CartRow) (a : ℚ) :
    l.foldl (fun sum item => sum + item.subtotal) a =
      a + (l.map fun item => item.subtotal).sum := by
  induction l generalizing a with
  | nil => simp
  | cons x l ih =>
    simp only [List.foldl_cons, List.map_cons, List.sum_cons]
    rw [ih]
    ring

theorem cartRows_perm (db : Db) (u : Int) :
    (cartRows db u).Perm
      (((joinProducts db).filter fun r => decide (r.1.user_id = u)).map cartRow) :=
  List.perm_insertionSort _ _

theorem mem_cartRows {db : Db} {u : Int} {item : CartRow} (h : item ∈ cartRows db u) :
    ∃ r ∈ joinProducts db, r.1.user_id = u ∧ r.1 ∈ db.cart_items ∧ item = cartRow r := by
  have := (cartRows_perm db u).mem_iff.1 h
  simp only [List.mem_map, List.mem_filter, decide_eq_true_eq] at this
  obtain ⟨r, ⟨hr, hu⟩, rfl⟩ := this
  refine ⟨r, hr, hu, ?_, rfl⟩
  simp only [joinProducts, List.mem_flatMap, List.mem_map, List.mem_filter] at hr
  obtain ⟨ci, hci, p, _, rfl⟩ := hr
  exact hci

theorem toFixed2_spec (x : ℚ) : (∃ n : ℤ, toFixed2 x = n / 100) ∧ |toFixed2 x - x| ≤ 1 / 200 := by
  unfold toFixed2
  split
  · refine ⟨⟨-⌊-x * 100 + 1 / 2⌋, by push_cast; ring⟩, ?_⟩
    have h1 := Int.floor_le (-x * 100 + 1 / 2)
    have h2 := Int.lt_floor_add_one (-x * 100 + 1 / 2)
    rw [abs_le]
    constructor <;> linarith
  · refine ⟨⟨⌊x * 100 + 1 / 2⌋, rfl⟩, ?_⟩
    have h1 := Int.floor_le (x * 100 + 1 / 2)
    have h2 := Int.lt_floor_add_one (x * 100 + 1 / 2)
    rw [abs_le]
    constructor <;> linarith

/-- C4: GET / returns the caller's cart rows joined with their products; total_items is
the sum of the item quantities and total_amount is the sum of price * quantity over the
items rounded to a multiple of 1/100 at distance at most 1/200; for the items
(15.99, 2) and (8.75, 1) these are 3 and 40.73, and for a user without rows both are 0.
Quantities are values of an INTEGER column (64 bits), so they are below 10 ^ 21 in
magnitude and print in plain decimal notation. -/
theorem get_cart_summary (db : Db) (u : Int)
    (hq : ∀ ci ∈ db.cart_items, ci.quantity.natAbs < 10 ^ 21) :
    (cartGet db u).items.Perm
      (((joinProducts db).filter fun r => decide (r.1.user_id = u)).map cartRow) ∧
    (cartGet db u).summary.total_items =
      some ((cartGet db u).items.map fun item => item.quantity).sum ∧
    (cartGet db u).summary.total_amount =
      toFixed2 ((cartGet db u).items.map fun item => item.price * (item.quantity : ℚ)).sum ∧
    (∃ n : ℤ, (cartGet db u).summary.total_amount = n / 100) ∧
    |(cartGet db u).summary.total_amount -
      ((cartGet db u).items.map fun item => item.price * (item.quantity : ℚ)).sum| ≤ 1 / 200 ∧
    ((∀ ci ∈ db.cart_items, ci.user_id ≠ u) → (cartGet db u).summary = ⟨some 0, 0⟩) ∧
    (cartGet sampleDb 7).summary = ⟨some 3, 40.73⟩ := by
  have hsub : ((cartRows db u).map fun item => item.subtotal) =
      (cartRows db u).map fun item => item.price * (item.quantity : ℚ) := by
    apply List.map_congr_left
    intro item hitem
    obtain ⟨r, -, -, -, rfl⟩ := mem_cartRows hitem
    rfl
  have hamount : (cartGet db u).summary.total_amount =
      toFixed2 ((cartGet db u).items.map fun item => item.price * (item.quantity : ℚ)).sum := by
    simp only [cartGet, foldl_total, zero_add, hsub]
  refine ⟨cartRows_perm db u, ?_, hamount, ?_, ?_, ?_, ?_⟩
  · simp only [cartGet]
    rw [foldl_total_items _ 0, zero_add]
    intro item hitem
    obtain ⟨r, -, -, hmem, rfl⟩ := mem_cartRows hitem
    exact hq _ hmem
  · rw [hamount]; exact (toFixed2_spec _).1
  · rw [hamount]; exact (toFixed2_spec _).2
  · intro hnone
    have hnil : cartRows db u = [] := by
      apply List.eq_nil_of_length_eq_zero
      rw [(cartRows_perm db u).length_eq, List.length_map, List.length_eq_zero,
        List.filter_eq_nil_iff]
      intro r hr
      simp only [joinProducts, List.mem_flatMap, List.mem_map, List.mem_filter] at hr
      obtain ⟨ci, hci, p, _, rfl⟩ := hr
      simpa using hnone ci hci
    simp [cartGet, hnil, toFixed2]
    norm_num
  · have h1 : (cartGet sampleDb 7).summary.total_items = some 3 := by decide
    have h2 : (cartGet sampleDb 7).summary.total_amount = 40.73 := by
      norm_num [cartGet, cartRows, sampleDb, sampleProducts, joinProducts, cartRow, toFixed2]
    rw [← h1, ← h2]

/-- Witness of C4: the cart of user 7 in the sample state. -/
theorem get_cart_summary_witness :
    (cartGet sampleDb 7).summary.total_items =
        some ((cartGet sampleDb 7).items.map fun item => item.quantity).sum ∧
      (cartGet sampleDb 7).summary.total_amount =
        toFixed2 ((cartGet sampleDb 7).items.map
          fun item => item.price * (item.quantity : ℚ)).sum :=
  ⟨(get_cart_summary sampleDb 7 (by decide)).2.1, (get_cart_summary sampleDb 7 (by decide)).2.2.1⟩

theorem filter_product_of_nodup {products : List Product}
    (hn : (products.map fun p => p.id).Nodup) {p : Product} (hp : p ∈ products) :
    (products.filter fun q => decide (p.id = q.id)) = [p] := by
  induction products with
  | nil => cases hp
  | cons a l ih =>
    rw [List.map_cons, List.nodup_cons] at hn
    rcases List.mem_cons.1 hp with h | h
    · subst h
      have : (l.filter fun q => decide (p.id = q.id)) = [] := by
        rw [List.filter_eq_nil_iff]
        intro q hq
        simp only [decide_eq_true_eq]
        intro hpq
        exact hn.1 (List.mem_map.2 ⟨q, hq, hpq.symm⟩)
      simp [List.filter_cons, this]
    · have hne : ¬ p.id = a.id := by
        intro hpa
        exact hn.1 (List.mem_map.2 ⟨p, h, hpa⟩)
      simp [List.filter_cons, hne, ih hn.2 h]

theorem joinProducts_fst (db : Db) (hn : (db.products.map fun p => p.id).Nodup)
    (hfk : ∀ ci ∈ db.cart_items, ∃ p ∈ db.products, ci.product_id = p.id) :
    (joinProducts db).map (fun r => r.1) = db.cart_items := by
  unfold joinProducts
  have h : ∀ items : List CartItem,
      (∀ ci ∈ items, ∃ p ∈ db.products, ci.product_id = p.id) →
      (items.flatMap fun ci =>
        (db.products.filter fun p => decide (ci.product_id = p.id)).map fun p => (ci, p)).map
          (fun r => r.1) = items := by
    intro items
    induction items with
    | nil => intro _; rfl
    | cons a l ih =>
      intro hfk
      obtain ⟨p, hp, hid⟩ := hfk a (List.mem_cons_self _ _)
      have := filter_product_of_nodup hn hp
      rw [← hid] at this
      simp only [List.flatMap_cons, List.map_append, this, List.map_cons, List.map_nil,
        List.singleton_append]
      rw [ih fun ci hci => hfk ci (List.mem_cons_of_mem _ hci)]
  exact h db.cart_items hfk

/-- C5: POST /validate lists, for the caller, one item for each of the caller's cart rows
and the product it refers to, with the row's quantity and the product's current stock;
with distinct product ids and every row referring to a product, these are the caller's
rows in table order. An item's status is insufficient_stock exactly when its quantity
exceeds that stock and valid otherwise; invalid_items is the sub-list, in order, of the
items that are not valid, invalid_count is its length, total_items is the number of items,
and is_valid holds exactly when every row's quantity is at most its product's stock. With
8 units in the cart and the stock reduced to 5 the one item is flagged and is_valid is
false; with 8 units and a stock of 10 it is valid. -/
theorem validate_cart_flags (db : Db) (u : Int) :
    (∀ item, item ∈ (cartValidate db u).items ↔
      ∃ ci ∈ db.cart_items, ∃ p ∈ db.products, ci.user_id = u ∧ ci.product_id = p.id ∧
        item = ⟨ci.id, ci.quantity, p.id, p.name, p.price, p.stock,
          if ci.quantity > p.stock then "insufficient_stock" else "valid"⟩) ∧
    ((db.products.map fun p => p.id).Nodup →
      (∀ ci ∈ db.cart_items, ∃ p ∈ db.products, ci.product_id = p.id) →
      (cartValidate db u).items.map (fun item => (item.cart_item_id, item.quantity)) =
        (db.cart_items.filter fun ci => decide (ci.user_id = u)).map
          fun ci => (ci.id, ci.quantity)) ∧
    (∀ item ∈ (cartValidate db u).items,
      (item.status = "insufficient_stock" ↔ item.quantity > item.stock) ∧
      (item.status = "valid" ↔ ¬ item.quantity > item.stock)) ∧
    (cartValidate db u).invalid_items =
      (cartValidate db u).items.filter (fun item => decide (item.status ≠ "valid")) ∧
    (cartValidate db u).invalid_count = (cartValidate db u).invalid_items.length ∧
    (cartValidate db u).total_items = (cartValidate db u).items.length ∧
    ((cartValidate db u).is_valid = true ↔
      ∀ item ∈ (cartValidate db u).items, item.quantity ≤ item.stock) ∧
    ((cartValidate db u).is_valid = true ↔
      ∀ ci ∈ db.cart_items, ∀ p ∈ db.products, ci.user_id = u → ci.product_id = p.id →
        ci.quantity ≤ p.stock) ∧
    cartValidate staleDb 7 =
      ⟨false, [⟨1, 8, 3, "Pintura Acrílica Azul", 17.25, 5, "insufficient_stock"⟩],
        [⟨1, 8, 3, "Pintura Acrílica Azul", 17.25, 5, "insufficient_stock"⟩], 1, 1⟩ ∧
    cartValidate lowStockDb 7 =
      ⟨true, [⟨1, 8, 3, "Pintura Acrílica Azul", 17.25, 10, "valid"⟩], [], 1, 0⟩ := by
  have hmem : ∀ item, item ∈ (cartValidate db u).items ↔
      ∃ ci ∈ db.cart_items, ∃ p ∈ db.products, ci.user_id = u ∧ ci.product_id = p.id ∧
        item = ⟨ci.id, ci.quantity, p.id, p.name, p.price, p.stock,
          if ci.quantity > p.stock then "insufficient_stock" else "valid"⟩ := by
    intro item
    simp only [cartValidate, joinProducts, List.mem_map, List.mem_filter, List.mem_flatMap,
      decide_eq_true_eq, validateRow]
    constructor
    · rintro ⟨r, ⟨⟨ci, hci, p, ⟨hp, hid⟩, rfl⟩, hu⟩, rfl⟩
      exact ⟨ci, hci, p, hp, hu, hid, rfl⟩
    · rintro ⟨ci, hci, p, hp, hu, hid, rfl⟩
      exact ⟨(ci, p), ⟨⟨ci, hci, p, ⟨hp, hid⟩, rfl⟩, hu⟩, rfl⟩
  have hstatus : ∀ item ∈ (cartValidate db u).items,
      (item.status = "insufficient_stock" ↔ item.quantity > item.stock) ∧
      (item.status = "valid" ↔ ¬ item.quantity > item.stock) := by
    intro item hitem
    simp only [cartValidate, List.mem_map] at hitem
    obtain ⟨r, -, rfl⟩ := hitem
    by_cases h : r.1.quantity > r.2.stock
    · simp [validateRow, h]
    · simp [validateRow, h]
  have hvalid : (cartValidate db u).is_valid = true ↔
      ∀ item ∈ (cartValidate db u).items, item.quantity ≤ item.stock := by
    have hv : (cartValidate db u).is_valid = true ↔
        (cartValidate db u).items.filter (fun item => item.status != "valid") = [] := by
      simp only [cartValidate, beq_iff_eq, List.length_eq_zero]
    rw [hv, List.filter_eq_nil_iff]
    constructor
    · intro h item hitem
      have h1 := h item hitem
      have h2 := (hstatus item hitem).2
      simp only [bne_iff_ne, ne_eq, not_not] at h1
      have := h2.1 h1
      omega
    · intro h item hitem
      have h1 := h item hitem
      have h2 := (hstatus item hitem).2
      simp only [bne_iff_ne, ne_eq, not_not]
      exact h2.2 (by omega)
  refine ⟨hmem, ?_, hstatus, ?_, rfl, rfl, hvalid, ?_, ?_, ?_⟩
  · intro hn hfk
    have h1 : (cartValidate db u).items.map (fun item => (item.cart_item_id, item.quantity)) =
        (((joinProducts db).map fun r => r.1).filter fun ci => decide (ci.user_id = u)).map
          fun ci => (ci.id, ci.quantity) := by
      simp only [cartValidate, List.map_map, List.filter_map]
      rfl
    rw [h1, joinProducts_fst db hn hfk]
  · simp only [cartValidate]
    apply List.filter_congr
    intro item _
    by_cases h : item.status = "valid" <;> simp [h]
  · rw [hvalid]
    constructor
    · intro h ci hci p hp hu hid
      exact h _ ((hmem _).2 ⟨ci, hci, p, hp, hu, hid, rfl⟩)
    · intro h item hitem
      obtain ⟨ci, hci, p, hp, hu, hid, rfl⟩ := (hmem item).1 hitem
      exact h ci hci p hp hu hid
  · rfl
  · rfl

theorem joinProducts_find_none_of_foreign {db : Db} {u v id : Int}
    (hn : (db.cart_items.map fun ci => ci.id).Nodup) (huv : u ≠ v)
    (hrow : ∃ ci ∈ db.cart_items, ci.id = id ∧ ci.user_id = v) :
    ((joinProducts db).find? fun r =>
      decide (r.1.id = id) && decide (r.1.user_id = u)) = none := by
  rw [List.find?_eq_none]
  intro r hr
  simp only [Bool.and_eq_true, decide_eq_true_eq, not_and]
  intro hid hu
  simp only [joinProducts, List.mem_flatMap, List.mem_map, List.mem_filter] at hr
  obtain ⟨c, hc, p, _, rfl⟩ := hr
  obtain ⟨ci, hci, hci1, hci2⟩ := hrow
  have := eq_of_id_eq hn hc hci (by simpa [hci1] using hid)
  subst this
  exact huv (hu.symm.trans hci2)

/-- C6 as amended: with ids a primary key, distinct users u and v and an item id that
belongs to v, a remove by u answers 404 item not found and changes nothing; an update by
u changes nothing either and answers 404 item not found when its quantity parses as a
positive integer, and the 400 invalid quantity error otherwise. -/
theorem foreign_item_not_found (db : Db) (u v id : Int) (quantity : JsVal)
    (hn : (db.cart_items.map fun ci => ci.id).Nodup) (huv : u ≠ v)
    (hrow : ∃ ci ∈ db.cart_items, ci.id = id ∧ ci.user_id = v) :
    cartRemove db u id = (errItemNotFound, db) ∧
    (cartUpdate db u id quantity).2 = db ∧
    ((∃ q, parseInt quantity = some q ∧ 0 < q) →
      (cartUpdate db u id quantity).1 = errItemNotFound) ∧
    ((¬ ∃ q, parseInt quantity = some q ∧ 0 < q) →
      (cartUpdate db u id quantity).1 = errQuantity) := by
  have hfind := joinProducts_find_none_of_foreign hn huv hrow
  refine ⟨by simp only [cartRemove, hfind], ?_, ?_, ?_⟩
  · cases hq : parseInt quantity with
    | none => simp [cartUpdate, hq]
    | some q =>
      by_cases h0 : q ≤ 0
      · simp [cartUpdate, hq, h0]
      · simp [cartUpdate, hq, h0, hfind]
  · rintro ⟨q, hq, hpos⟩
    have h0 : ¬ q ≤ 0 := by omega
    simp only [cartUpdate, hq, if_neg h0, hfind]
  · intro hno
    cases hq : parseInt quantity with
    | none => simp [cartUpdate, hq]
    | some q =>
      have h0 : q ≤ 0 := by
        by_contra hc
        exact hno ⟨q, hq, by omega⟩
      simp [cartUpdate, hq, h0]

/-- C6 fails as stated for update: user 8 updating item 1 of user 7 with quantity 0 is
answered with the 400 invalid quantity error, not with item not found. -/
theorem foreign_update_invalid_quantity_counterexample :
    (8 : Int) ≠ 7 ∧ (∃ ci ∈ sampleDb.cart_items, ci.id = 1 ∧ ci.user_id = 7) ∧
      (cartUpdate sampleDb 8 1 (JsVal.ofInt 0)).1 = errQuantity ∧
      (cartUpdate sampleDb 8 1 (JsVal.ofInt 0)).1.status = 400 ∧
      (cartUpdate sampleDb 8 1 (JsVal.ofInt 0)).1 ≠ errItemNotFound := by
  decide

/-- C7: DELETE /clear for a user without rows answers 404 empty cart and changes nothing;
otherwise it succeeds, removes exactly the rows of that user, reports the number of rows
the user had, and a second clear then answers 404 empty cart. -/
theorem clear_cart_spec (db : Db) (u : Int) :
    ((db.cart_items.filter fun ci => decide (ci.user_id = u)) = [] →
      cartClear db u = (errEmptyCart, db)) ∧
    ((db.cart_items.filter fun ci => decide (ci.user_id = u)) ≠ [] →
      (cartClear db u).1.success = true ∧ (cartClear db u).1.status = 200 ∧
      (cartClear db u).1.message =
        [.text "Carrito vaciado - ",
         .int ((db.cart_items.filter fun ci => decide (ci.user_id = u)).length : Nat),
         .text " productos eliminados"] ∧
      (cartClear db u).2.cart_items =
        (db.cart_items.filter fun ci => !decide (ci.user_id = u)) ∧
      (∀ ci ∈ (cartClear db u).2.cart_items, ci.user_id ≠ u) ∧
      (cartClear db u).2.products = db.products ∧
      cartClear (cartClear db u).2 u = (errEmptyCart, (cartClear db u).2)) := by
  have hlen : db.cart_items.length -
      (db.cart_items.filter fun ci => !decide (ci.user_id = u)).length =
        (db.cart_items.filter fun ci => decide (ci.user_id = u)).length := by
    have : ∀ l : List CartItem,
        (l.filter fun ci => decide (ci.user_id = u)).length +
          (l.filter fun ci => !decide (ci.user_id = u)).length = l.length := by
      intro l
      induction l with
      | nil => rfl
      | cons a l ih =>
        by_cases ha : a.user_id = u <;> simp [List.filter_cons, ha] <;> omega
    have := this db.cart_items
    omega
  constructor
  · intro h
    simp [cartClear, h]
  · intro h
    have hne : (db.cart_items.filter fun ci => decide (ci.user_id = u)).length ≠ 0 := by
      simpa [List.length_eq_zero] using h
    have hclear : cartClear db u =
        (⟨200, true, none,
          [.text "Carrito vaciado - ",
           .int ((db.cart_items.filter fun ci => decide (ci.user_id = u)).length : Nat),
           .text " productos eliminados"], none⟩,
         { db with cart_items := db.cart_items.filter fun ci => !decide (ci.user_id = u) }) := by
      simp only [cartClear, if_neg hne]
      rw [← hlen]
    rw [hclear]
    refine ⟨rfl, rfl, rfl, rfl, ?_, rfl, ?_⟩
    · intro ci hci
      simpa using (List.mem_filter.1 hci).2
    · have hnil : (List.filter (fun ci => decide (ci.user_id = u))
          (List.filter (fun ci => !decide (ci.user_id = u)) db.cart_items)) = [] := by
        rw [List.filter_eq_nil_iff]
        intro ci hci
        simpa using (List.mem_filter.1 hci).2
      simp [cartClear, hnil]

/-- Witness of C6: user 8 removing and updating item 1 of user 7. -/
theorem foreign_item_not_found_witness :
    cartRemove sampleDb 8 1 = (errItemNotFound, sampleDb) ∧
      (cartUpdate sampleDb 8 1 (JsVal.ofInt 3)).2 = sampleDb ∧
      (cartUpdate sampleDb 8 1 (JsVal.ofInt 3)).1 = errItemNotFound :=
  have h := foreign_item_not_found sampleDb 8 7 1 (JsVal.ofInt 3) (by decide) (by decide)
    ⟨⟨1, 7, 1, 2, 100⟩, by decide, rfl, rfl⟩
  ⟨h.1, h.2.1, h.2.2.1 ⟨3, by decide, by decide⟩⟩

theorem joinProducts_setQuantity (db : Db) (id q : Int) :
    joinProducts { db with cart_items := setQuantity db.cart_items id q } =
      (joinProducts db).map fun r =>
        (if r.1.id = id then { r.1 with quantity := q } else r.1, r.2) := by
  simp only [joinProducts, setQuantity]
  induction db.cart_items with
  | nil => rfl
  | cons a l ih =>
    simp only [List.map_cons, List.flatMap_cons, List.map_append, ih, List.map_map]
    congr 1
    have hpid : (if a.id = id then ({ a with quantity := q } : CartItem) else a).product_id =
        a.product_id := by
      split <;> rfl
    simp only [hpid]
    apply List.map_congr_left
    intro p _
    rfl

theorem find?_joinProducts_setQuantity (db : Db) (id q cid u : Int) :
    ((joinProducts { db with cart_items := setQuantity db.cart_items id q }).find? fun r =>
        decide (r.1.id = cid) && decide (r.1.user_id = u)) =
      (((joinProducts db).find? fun r =>
        decide (r.1.id = cid) && decide (r.1.user_id = u)).map fun r =>
          (if r.1.id = id then { r.1 with quantity := q } else r.1, r.2)) := by
  rw [joinProducts_setQuantity, List.find?_map]
  congr 2
  funext r
  by_cases h : r.1.id = id <;> simp [h]

theorem setQuantity_idem (items : List CartItem) (id q : Int) :
    setQuantity (setQuantity items id q) id q = setQuantity items id q := by
  simp only [setQuantity, List.map_map]
  apply List.map_congr_left
  intro c _
  by_cases h : c.id = id <;> simp [h]

/-- C8: when the quantity of an update parses as q > 0, the item of the given id is a row
of the caller and q is at most its product's stock, the update succeeds and every row of
that id, the caller's among them, has quantity exactly q afterwards, whatever it was
before; and repeating the update on the state it produced gives the same response and
leaves that state as it is. -/
theorem update_replaces (db : Db) (u id : Int) (quantity : JsVal) (q : Int)
    (r : CartItem × Product) (hq : parseInt quantity = some q) (hpos : 0 < q)
    (hfind : ((joinProducts db).find? fun r =>
      decide (r.1.id = id) && decide (r.1.user_id = u)) = some r)
    (hstock : q ≤ r.2.stock) :
    (cartUpdate db u id quantity).1.success = true ∧
    (cartUpdate db u id quantity).2.cart_items = setQuantity db.cart_items id q ∧
    (∀ cj ∈ (cartUpdate db u id quantity).2.cart_items, cj.id = id → cj.quantity = q) ∧
    (∃ cj ∈ (cartUpdate db u id quantity).2.cart_items,
      cj.id = id ∧ cj.user_id = u ∧ cj.product_id = r.1.product_id ∧ cj.quantity = q) ∧
    (∀ cj ∈ (cartUpdate db u id quantity).2.cart_items, cj.id ≠ id → cj ∈ db.cart_items) ∧
    cartUpdate (cartUpdate db u id quantity).2 u id quantity = cartUpdate db u id quantity := by
  obtain ⟨hmem, -, -, hid, hu⟩ := joinProducts_find hfind
  have hfirst := cartUpdate_of_valid hq hpos hfind hstock
  have hfind2 := find?_joinProducts_setQuantity db id q id u
  rw [hfind, Option.map_some'] at hfind2
  have hsecond := @cartUpdate_of_valid _ u id quantity q _ hq hpos hfind2 hstock
  rw [hfirst]
  refine ⟨rfl, rfl, ?_, ?_, ?_, ?_⟩
  · intro cj hcj hcid
    obtain ⟨c, hc, rfl⟩ := mem_setQuantity.1 hcj
    by_cases h : c.id = id
    · simp [h]
    · simp [h] at hcid
  · refine ⟨{ r.1 with quantity := q }, mem_setQuantity.2 ⟨r.1, hmem, by simp [hid]⟩,
      hid, hu, rfl, rfl⟩
  · intro cj hcj hcid
    obtain ⟨c, hc, rfl⟩ := mem_setQuantity.1 hcj
    by_cases h : c.id = id
    · simp [h] at hcid
    · simpa [h] using hc
  · rw [hsecond]
    simp only [setQuantity_idem]

/-- Witness of C8: user 7 setting item 1 to quantity 5. -/
theorem update_replaces_witness :
    (cartUpdate sampleDb 7 1 (JsVal.ofInt 5)).1.success = true ∧
      (cartUpdate sampleDb 7 1 (JsVal.ofInt 5)).2.cart_items =
        setQuantity sampleDb.cart_items 1 5 ∧
      cartUpdate (cartUpdate sampleDb 7 1 (JsVal.ofInt 5)).2 7 1 (JsVal.ofInt 5) =
        cartUpdate sampleDb 7 1 (JsVal.ofInt 5) :=
  have h := update_replaces sampleDb 7 1 (JsVal.ofInt 5) 5
    (⟨1, 7, 1, 2, 100⟩, ⟨1, "Pintura Acrílica Blanca",
      "Pintura acrílica de alta calidad color blanco mate", 15.99, "Pinturas", 50, ""⟩)
    (by decide) (by decide) rfl (by decide)
  ⟨h.1, h.2.1, h.2.2.2.2.2⟩

theorem parseIntChars_minus (rest : List Char) :
    parseIntChars ('-' :: rest) = none ∨ ∃ m : Nat, parseIntChars ('-' :: rest) = some (-(m : Int)) := by
  have hdrop : List.dropWhile isStrWhiteSpace ('-' :: rest) = '-' :: rest := by
    rw [List.dropWhile_cons]
    have : isStrWhiteSpace '-' = false := by decide
    simp [this]
  have hs : dropSign ('-' :: rest) = (true, rest) := rfl
  unfold parseIntChars
  simp only [hdrop, hs]
  cases readDigits (dropHexMark rest).1 (dropHexMark rest).2 0 false with
  | none => left; rfl
  | some m => right; exact ⟨m, rfl⟩

theorem parseInt_nonpositive_number (neg : Bool) (ds : List Nat) (n : Int)
    (h : neg = true ∨ ds = []) :
    parseInt (.num (.finite neg ds n)) = none ∨
      ∃ q, parseInt (.num (.finite neg ds n)) = some q ∧ q ≤ 0 := by
  cases ds with
  | nil => right; exact ⟨0, rfl, le_refl _⟩
  | cons d ds =>
    rcases h with h | h
    · subst h
      have hc : ∃ rest, (JsVal.num (.finite true (d :: ds) n)).toChars = '-' :: rest := by
        simp only [JsVal.toChars, JsNum.toChars, if_true, List.singleton_append]
        exact ⟨_, rfl⟩
      obtain ⟨rest, hrest⟩ := hc
      unfold parseInt
      rw [hrest]
      rcases parseIntChars_minus rest with h | ⟨m, h⟩
      · left; exact h
      · right; exact ⟨_, h, by omega⟩
    · simp at h

theorem readDigits_none_of_no_digit (cs : List Char)
    (h : ∀ c rest, cs = c :: rest → ¬ (48 ≤ c.toNat ∧ c.toNat ≤ 57)) :
    readDigits 10 cs 0 false = none := by
  cases cs with
  | nil => rfl
  | cons c rest =>
    have h1 := h c rest rfl
    simp [readDigits, digitValue, h1]

theorem parseInt_str_nan (s : String)
    (h : ∀ c rest, (dropSign (s.toList.dropWhile isStrWhiteSpace)).2 = c :: rest →
      ¬ (48 ≤ c.toNat ∧ c.toNat ≤ 57)) :
    parseInt (.str s) = none := by
  have hmark : dropHexMark (dropSign (s.toList.dropWhile isStrWhiteSpace)).2 =
      (10, (dropSign (s.toList.dropWhile isStrWhiteSpace)).2) := by
    generalize (dropSign (s.toList.dropWhile isStrWhiteSpace)).2 = cs at h
    cases cs with
    | nil => rfl
    | cons c rest =>
      have hc := h c rest rfl
      have hne : c ≠ '0' := by
        intro h0
        subst h0
        exact hc (by decide)
      unfold dropHexMark
      split
      · rename_i heq; cases heq; exact absurd rfl hne
      · rename_i heq; cases heq; exact absurd rfl hne
      · rfl
  have : parseIntChars s.toList = none := by
    unfold parseIntChars
    simp only [hmark]
    rw [readDigits_none_of_no_digit _ h]
  exact this

/-- C9 as amended: an add whose product id is missing or at most 0 is answered with the
incomplete data error whatever its quantity; an add whose product id passed that check
and whose quantity parses as NaN or as an integer at most 0 is answered with the invalid
quantity error; both leave the stored state as it was. Every JSON number at most 0 is
such a quantity, and so is every string that after white space and a sign does not start
with a digit (code points 48 to 57), as are null, true and the texts abc and -5. An add
succeeds only if its quantity parses as a positive integer, and an absent quantity is
handled as the number 1. -/
theorem add_invalid_quantity_rejected (db : Db) (u : Int) (b : AddBody) (t : Nat) :
    ((¬ ∃ pid, b.product_id = some pid ∧ 0 < pid) → cartAdd db u b t = (errProductId, db)) ∧
    ((∃ pid, b.product_id = some pid ∧ 0 < pid) →
      (parseInt (quantityOrDefault b.quantity) = none ∨
        ∃ q, parseInt (quantityOrDefault b.quantity) = some q ∧ q ≤ 0) →
      cartAdd db u b t = (errQuantity, db)) ∧
    errProductId.status = 400 ∧ errProductId.error = some "Datos incompletos" ∧
    errQuantity.status = 400 ∧ errQuantity.error = some "Cantidad inválida" ∧
    (∀ (neg : Bool) (ds : List Nat) (n : Int), neg = true ∨ ds = [] →
      parseInt (quantityOrDefault (.num (.finite neg ds n))) = none ∨
        ∃ q, parseInt (quantityOrDefault (.num (.finite neg ds n))) = some q ∧ q ≤ 0) ∧
    (∀ s : String,
      (∀ c rest, (dropSign (s.toList.dropWhile isStrWhiteSpace)).2 = c :: rest →
        ¬ (48 ≤ c.toNat ∧ c.toNat ≤ 57)) →
      parseInt (quantityOrDefault (.str s)) = none) ∧
    parseInt (quantityOrDefault .null) = none ∧
    parseInt (quantityOrDefault (.bool true)) = none ∧
    parseInt (quantityOrDefault (.str "abc")) = none ∧
    parseInt (quantityOrDefault (.str "")) = none ∧
    parseInt (quantityOrDefault (.str "-5")) = some (-5) ∧
    parseInt (quantityOrDefault (JsVal.ofInt 0)) = some 0 ∧
    (cartAdd sampleDb 7 ⟨some 1, .str "abc"⟩ 200).1 = errQuantity ∧
    (cartAdd sampleDb 7 ⟨some 1, JsVal.ofInt 0⟩ 200).1 = errQuantity ∧
    (cartAdd sampleDb 7 ⟨some 0, JsVal.ofInt 2⟩ 200).1 = errProductId ∧
    (cartAdd sampleDb 7 ⟨none, JsVal.ofInt 2⟩ 200).1 = errProductId ∧
    ((cartAdd db u b t).1.success = true →
      ∃ q, parseInt (quantityOrDefault b.quantity) = some q ∧ 0 < q) ∧
    cartAdd db u ⟨b.product_id, .undefined⟩ t = cartAdd db u ⟨b.product_id, JsVal.ofInt 1⟩ t := by
  refine ⟨?_, ?_, rfl, rfl, rfl, rfl, ?_, ?_, by decide, by decide, by decide, by decide,
    by decide, by decide, by decide, by decide, by decide, by decide, ?_, rfl⟩
  · intro hno
    cases hpid : b.product_id with
    | none => simp [cartAdd, hpid]
    | some pid =>
      have hp : pid = 0 ∨ pid ≤ 0 := by
        by_contra hc
        exact hno ⟨pid, hpid, by omega⟩
      simp [cartAdd, hpid, hp]
  · rintro ⟨pid, hpid, hpos⟩ hbad
    have hp : ¬ (pid = 0 ∨ pid ≤ 0) := by omega
    cases hq : parseInt (quantityOrDefault b.quantity) with
    | none => simp [cartAdd, hpid, hp, hq]
    | some q =>
      have hle : q ≤ 0 := by
        rcases hbad with h | ⟨q', h, hle⟩
        · rw [h] at hq; cases hq
        · rw [h] at hq; cases hq; exact hle
      simp [cartAdd, hpid, hp, hq, hle]
  · intro neg ds n h
    exact parseInt_nonpositive_number neg ds n h
  · intro s h
    exact parseInt_str_nan s h
  · intro hs
    obtain ⟨pid, qty, product, -, -, hq, hpos, -, -⟩ := cartAdd_success hs
    exact ⟨qty, hq, hpos⟩

/-- C9 fails as stated: an add with quantity 0 and no product id is answered with the
incomplete data error, not with the invalid quantity error. -/
theorem add_invalid_quantity_counterexample :
    parseInt (quantityOrDefault (JsVal.ofInt 0)) = some 0 ∧
      (cartAdd sampleDb 7 ⟨none, JsVal.ofInt 0⟩ 200).1.error = some "Datos incompletos" ∧
      (cartAdd sampleDb 7 ⟨none, JsVal.ofInt 0⟩ 200).1 ≠ errQuantity := by
  decide

/-- C10, the code at the failing inputs: an update with the text 3abc succeeds and stores
3, an update with the number 2.7 succeeds and raises the row from 1 to 2, and an add with the text 3abc
succeeds and raises the row from 2 to 5. -/
theorem quantity_is_coerced :
    ((cartUpdate sampleDb 7 1 (.str "3abc")).1.success = true ∧
      (cartUpdate sampleDb 7 1 (.str "3abc")).2.cart_items =
        [⟨1, 7, 1, 3, 100⟩, ⟨2, 7, 10, 1, 160⟩]) ∧
    ((cartUpdate sampleDb 7 2 num2_7).1.success = true ∧
      (cartUpdate sampleDb 7 2 num2_7).2.cart_items =
        [⟨1, 7, 1, 2, 100⟩, ⟨2, 7, 10, 2, 160⟩]) ∧
    ((cartAdd sampleDb 7 ⟨some 1, .str "3abc"⟩ 200).1.success = true ∧
      (cartAdd sampleDb 7 ⟨some 1, .str "3abc"⟩ 200).2.cart_items =
        [⟨1, 7, 1, 5, 100⟩, ⟨2, 7, 10, 1, 160⟩]) := by
  decide

-- The stock invariant

theorem cartAdd_unchanged_or_valid (db : Db) (u : Int) (b : AddBody) (t : Nat) :
    ((cartAdd db u b t).2 = db ∧ (cartAdd db u b t).1.success = false) ∨
    ∃ pid qty product, b.product_id = some pid ∧ 0 < pid ∧
      parseInt (quantityOrDefault b.quantity) = some qty ∧ 0 < qty ∧
      (db.products.find? fun p => decide (p.id = pid)) = some product ∧
      qty ≤ product.stock := by
  cases hpid : b.product_id with
  | none => left; simp [cartAdd, hpid, errProductId]
  | some pid =>
    by_cases hp : pid = 0 ∨ pid ≤ 0
    · left; simp [cartAdd, hpid, hp, errProductId]
    · cases hqty : parseInt (quantityOrDefault b.quantity) with
      | none => left; simp [cartAdd, hpid, hp, hqty, errQuantity]
      | some qty =>
        by_cases hq : qty ≤ 0
        · left; simp [cartAdd, hpid, hp, hqty, hq, errQuantity]
        · cases hprod : db.products.find? fun p => decide (p.id = pid) with
          | none => left; simp [cartAdd, hpid, hp, hqty, hq, hprod, errProductNotFound]
          | some product =>
            by_cases hs : product.stock < qty
            · left; simp [cartAdd, hpid, hp, hqty, hq, hprod, hs, errStock]
            · right
              exact ⟨pid, qty, product, rfl, by omega, rfl, by omega, hprod, by omega⟩

theorem cartUpdate_unchanged_or_valid (db : Db) (u id : Int) (quantity : JsVal) :
    ((cartUpdate db u id quantity).2 = db ∧ (cartUpdate db u id quantity).1.success = false) ∨
    ∃ qty r, parseInt quantity = some qty ∧ 0 < qty ∧
      ((joinProducts db).find? fun r =>
        decide (r.1.id = id) && decide (r.1.user_id = u)) = some r ∧ qty ≤ r.2.stock := by
  cases hqty : parseInt quantity with
  | none => left; simp [cartUpdate, hqty, errQuantity]
  | some qty =>
    by_cases hq : qty ≤ 0
    · left; simp [cartUpdate, hqty, hq, errQuantity]
    · cases hr : (joinProducts db).find? fun r =>
          decide (r.1.id = id) && decide (r.1.user_id = u) with
      | none => left; simp [cartUpdate, hqty, hq, hr, errItemNotFound]
      | some r =>
        by_cases hs : qty > r.2.stock
        · left; simp [cartUpdate, hqty, hq, hr, hs, errStock]
        · right; exact ⟨qty, r, rfl, by omega, rfl, by omega⟩

theorem joinProducts_find_product {db : Db} {u id : Int} {r : CartItem × Product}
    (hn : (db.cart_items.map fun ci => ci.id).Nodup)
    (h : ((joinProducts db).find? fun r =>
      decide (r.1.id = id) && decide (r.1.user_id = u)) = some r) :
    (db.products.find? fun p => decide (p.id = r.1.product_id)) = some r.2 := by
  unfold joinProducts at h
  generalize db.cart_items = l at hn h
  induction l with
  | nil => simp at h
  | cons a l ih =>
    simp only [List.flatMap_cons, List.find?_append] at h
    simp only [List.map_cons, List.nodup_cons] at hn
    have hfilter : ∀ c : CartItem, (db.products.filter fun p => decide (c.product_id = p.id)) =
        db.products.filter fun p => decide (p.id = c.product_id) := by
      intro c
      apply List.filter_congr
      intro p _
      simp [eq_comm]
    by_cases ha : a.id = id ∧ a.user_id = u
    · have hA : (List.find? (fun r => decide (r.1.id = id) && decide (r.1.user_id = u))
          (List.map (fun p => (a, p))
            (List.filter (fun p => decide (a.product_id = p.id)) db.products))) =
          (db.products.find? fun p => decide (p.id = a.product_id)).map fun p => (a, p) := by
        rw [List.find?_map]
        congr 1
        have : ((fun r : CartItem × Product =>
            decide (r.1.id = id) && decide (r.1.user_id = u)) ∘ fun p => (a, p)) =
            fun _ => true := by
          funext p
          simp [ha.1, ha.2]
        rw [this, hfilter]
        induction db.products with
        | nil => rfl
        | cons p ps ihp =>
          by_cases hp : p.id = a.product_id
          · simp [List.filter_cons, hp]
          · simp [List.filter_cons, hp, ihp]
      rw [hA] at h
      cases hf : db.products.find? fun p => decide (p.id = a.product_id) with
      | some p =>
        rw [hf] at h
        have h' : some (a, p) = some r := h
        cases h'
        exact hf
      | none =>
        rw [hf] at h
        simp only [Option.map_none', Option.none_or] at h
        exfalso
        have hm := List.mem_of_find?_eq_some h
        have hp := List.find?_some h
        simp only [List.mem_flatMap, List.mem_map, List.mem_filter] at hm
        obtain ⟨c, hc, p, _, rfl⟩ := hm
        simp only [Bool.and_eq_true, decide_eq_true_eq] at hp
        exact hn.1 (List.mem_map.2 ⟨c, hc, by simpa [ha.1] using hp.1⟩)
    · have hA : (List.find? (fun r => decide (r.1.id = id) && decide (r.1.user_id = u))
          (List.map (fun p => (a, p))
            (List.filter (fun p => decide (a.product_id = p.id)) db.products))) = none := by
        rw [List.find?_eq_none]
        intro r hr
        simp only [List.mem_map] at hr
        obtain ⟨p, _, rfl⟩ := hr
        simpa using ha
      rw [hA, Option.none_or] at h
      exact ih hn.2 h

theorem product_of_setQuantity_row {items : List CartItem}
    (hn : (items.map fun ci => ci.id).Nodup) {e cj : CartItem} (he : e ∈ items) {q : Int}
    (hcj : cj ∈ setQuantity items e.id q) :
    cj ∈ items ∨ (cj.product_id = e.product_id ∧ cj.quantity = q) := by
  obtain ⟨c, hc, rfl⟩ := mem_setQuantity.1 hcj
  by_cases hid : c.id = e.id
  · obtain rfl := eq_of_id_eq hn hc he hid
    right
    simp
  · left
    simpa [hid] using hc

theorem stockInv_of_reachable {db : Db} (hr : Reachable db) : StockInv db := by
  induction hr with
  | init products seq => intro ci hci; simp at hci
  | @add db u b t hr ih =>
    have hinv := cartInv_of_reachable hr
    rcases cartAdd_unchanged_or_valid db u b t with h | ⟨pid, qty, product, h1, h2, h3, h4, h5, h6⟩
    · rw [h.1]; exact ih
    · rw [cartAdd_of_valid h1 h2 h3 h4 h5 h6]
      cases hex : db.cart_items.find? fun ci =>
          decide (ci.user_id = u) && decide (ci.product_id = pid) with
      | none =>
        intro ci hci
        simp only [List.mem_append, List.mem_singleton] at hci
        rcases hci with hci | rfl
        · exact ih ci hci
        · exact ⟨product, h5, h6⟩
      | some e =>
        have hmem := List.mem_of_find?_eq_some hex
        have hpred := List.find?_some hex
        simp only [Bool.and_eq_true, decide_eq_true_eq] at hpred
        by_cases hm : e.quantity + qty > product.stock
        · simp only [hm, if_true]; exact ih
        · simp only [hm, if_false]
          intro ci hci
          rcases product_of_setQuantity_row hinv.2 hmem hci with hold | ⟨hp, hq⟩
          · exact ih ci hold
          · refine ⟨product, ?_, by omega⟩
            show List.find? (fun p => decide (p.id = ci.product_id)) db.products = some product
            rw [hp, hpred.2]; exact h5
  | @update db u id quantity hr ih =>
    have hinv := cartInv_of_reachable hr
    rcases cartUpdate_unchanged_or_valid db u id quantity with h | ⟨qty, r, hq, hpos, hfind, hstock⟩
    · rw [h.1]; exact ih
    · obtain ⟨hmem, -, -, hid, -⟩ := joinProducts_find hfind
      have hprod := joinProducts_find_product hinv.2 hfind
      rw [cartUpdate_of_valid hq hpos hfind hstock]
      subst hid
      intro ci hci
      rcases product_of_setQuantity_row hinv.2 hmem hci with hold | ⟨hp, hq'⟩
      · exact ih ci hold
      · refine ⟨r.2, ?_, by omega⟩
        show List.find? (fun p => decide (p.id = ci.product_id)) db.products = some r.2
        rw [hp]; exact hprod
  | @remove db u id _ ih =>
    rcases cartRemove_state db u id with h | h
    · rw [h]; exact ih
    · rw [h]
      intro ci hci
      exact ih ci (List.mem_of_mem_filter hci)
  | @clear db u _ ih =>
    rcases cartClear_state db u with h | h
    · rw [h]; exact ih
    · rw [h]
      intro ci hci
      exact ih ci (List.mem_of_mem_filter hci)
theorem cartAdd_merge_rejected {db : Db} {u : Int} {b : AddBody} {t : Nat} {k : Int}
    (h : (cartAdd db u b t).1 = errStockMerge k) :
    ∃ pid qty product e, b.product_id = some pid ∧ 0 < pid ∧
      parseInt (quantityOrDefault b.quantity) = some qty ∧ 0 < qty ∧
      (db.products.find? fun p => decide (p.id = pid)) = some product ∧
      qty ≤ product.stock ∧
      (db.cart_items.find? fun ci =>
        decide (ci.user_id = u) && decide (ci.product_id = pid)) = some e ∧
      e.quantity + qty > product.stock ∧ k = product.stock - e.quantity := by
  cases hpid : b.product_id with
  | none => simp [cartAdd, hpid, errProductId, errStockMerge] at h
  | some pid =>
    by_cases hp : pid = 0 ∨ pid ≤ 0
    · simp [cartAdd, hpid, hp, errProductId, errStockMerge] at h
    · cases hqty : parseInt (quantityOrDefault b.quantity) with
      | none => simp [cartAdd, hpid, hp, hqty, errQuantity, errStockMerge] at h
      | some qty =>
        by_cases hq : qty ≤ 0
        · simp [cartAdd, hpid, hp, hqty, hq, errQuantity, errStockMerge] at h
        · cases hprod : db.products.find? fun p => decide (p.id = pid) with
          | none => simp [cartAdd, hpid, hp, hqty, hq, hprod, errProductNotFound, errStockMerge] at h
          | some product =>
            by_cases hs : product.stock < qty
            · simp [cartAdd, hpid, hp, hqty, hq, hprod, hs, errStock, errStockMerge] at h
            · rw [cartAdd_of_valid hpid (by omega) hqty (by omega) hprod (by omega)] at h
              cases hex : db.cart_items.find? fun ci =>
                  decide (ci.user_id = u) && decide (ci.product_id = pid) with
              | none => simp [hex, errStockMerge] at h
              | some e =>
                rw [hex] at h
                by_cases hm : e.quantity + qty > product.stock
                · simp only [hm, if_true, errStockMerge, Response.mk.injEq, List.cons.injEq,
                    MsgPart.int.injEq, true_and, and_true] at h
                  exact ⟨pid, qty, product, e, rfl, by omega, rfl, by omega, hprod, by omega,
                    hex, hm, h.symm⟩
                · simp [hm, errStockMerge] at h

/-- C11 fails as stated: with the stock of product 3 reduced to 5 while user 7 holds 8
units, an add of one unit is rejected for the merged total and the number reported is
5 - 8 = -3, which is below 0. -/
theorem merge_headroom_negative_counterexample :
    cartAdd staleDb 7 ⟨some 3, JsVal.ofInt 1⟩ 200 = (errStockMerge (-3), staleDb) ∧
    (errStockMerge (-3)).message =
      [.text "Solo puedes agregar ", .int (-3), .text " unidades más"] ∧
    ¬ (0 : Int) ≤ -3 :=
  ⟨rfl, rfl, by decide⟩

/-- C11 as amended: when an add is rejected because the merged total exceeds the stock,
the number in the rejection message is the stock minus the quantity already in the
caller's row and the state is unchanged. When that quantity is at least 1 and at most the
stock, the number is at least 0, an add of exactly that many units (when positive)
succeeds and brings the row to the stock, and an add of one unit more is rejected and
changes nothing. When the stock is below the quantity in the row, the number is below
0. -/
theorem merge_rejection_reports_headroom (db : Db) (u : Int)
    (b : AddBody) (t : Nat) (k : Int) (hrej : (cartAdd db u b t).1 = errStockMerge k) :
    ∃ pid product e, b.product_id = some pid ∧
      (db.products.find? fun p => decide (p.id = pid)) = some product ∧
      (db.cart_items.find? fun ci =>
        decide (ci.user_id = u) && decide (ci.product_id = pid)) = some e ∧
      k = product.stock - e.quantity ∧ (cartAdd db u b t).2 = db ∧
      (product.stock < e.quantity → k < 0) ∧
      (1 ≤ e.quantity → e.quantity ≤ product.stock →
        0 ≤ k ∧
        (∀ (b' : AddBody) (t' : Nat), b'.product_id = some pid →
          parseInt (quantityOrDefault b'.quantity) = some k → 0 < k →
          (cartAdd db u b' t').1.success = true ∧
          (cartAdd db u b' t').2.cart_items = setQuantity db.cart_items e.id product.stock) ∧
        (∀ (b' : AddBody) (t' : Nat), b'.product_id = some pid →
          parseInt (quantityOrDefault b'.quantity) = some (k + 1) →
          (cartAdd db u b' t').1.success = false ∧ (cartAdd db u b' t').1.status = 400 ∧
          (cartAdd db u b' t').2 = db)) := by
  obtain ⟨pid, qty, product, e, h1, h2, h3, h4, h5, h6, h7, h8, rfl⟩ := cartAdd_merge_rejected hrej
  refine ⟨pid, product, e, h1, h5, h7, rfl, ?_, by intro h; omega, ?_⟩
  · rw [cartAdd_of_valid h1 h2 h3 h4 h5 h6, h7]
    simp [h8]
  · intro hq1 hle
    refine ⟨by omega, ?_, ?_⟩
    · intro b' t' hb hq hpos
      rw [cartAdd_of_valid hb h2 hq hpos h5 (by omega), h7]
      have hm : ¬ e.quantity + (product.stock - e.quantity) > product.stock := by omega
      simp only [hm, if_false]
      refine ⟨trivial, ?_⟩
      show setQuantity db.cart_items e.id (e.quantity + (product.stock - e.quantity)) = _
      congr 1
      omega
    · intro b' t' hb hq
      by_cases hs : product.stock < product.stock - e.quantity + 1
      · simp [cartAdd, hb, h2, hq, h5, hs, errStock, show ¬ (pid = 0 ∨ pid ≤ 0) by omega,
          show ¬ (product.stock - e.quantity + 1 ≤ 0) by omega]
      · rw [cartAdd_of_valid hb h2 hq (by omega) h5 (by omega), h7]
        have hm : e.quantity + (product.stock - e.quantity + 1) > product.stock := by omega
        simp [hm, errStockMerge]

/-- Witness of C11: with 8 of 10 units in the cart, an add of 5 is rejected with 2. -/
theorem merge_rejection_reports_headroom_witness :
    (cartAdd lowStockDb 7 ⟨some 3, JsVal.ofInt 5⟩ 200).1 = errStockMerge 2 ∧
    ∃ pid product e, (⟨some 3, JsVal.ofInt 5⟩ : AddBody).product_id = some pid ∧
      (lowStockDb.products.find? fun p => decide (p.id = pid)) = some product ∧
      (lowStockDb.cart_items.find? fun ci =>
        decide (ci.user_id = 7) && decide (ci.product_id = pid)) = some e ∧
      (2 : Int) = product.stock - e.quantity ∧
      (cartAdd lowStockDb 7 ⟨some 3, JsVal.ofInt 5⟩ 200).2 = lowStockDb ∧
      (product.stock < e.quantity → (2 : Int) < 0) ∧
      (1 ≤ e.quantity → e.quantity ≤ product.stock →
        (0 : Int) ≤ 2 ∧
        (∀ (b' : AddBody) (t' : Nat), b'.product_id = some pid →
          parseInt (quantityOrDefault b'.quantity) = some 2 → (0 : Int) < 2 →
          (cartAdd lowStockDb 7 b' t').1.success = true ∧
          (cartAdd lowStockDb 7 b' t').2.cart_items =
            setQuantity lowStockDb.cart_items e.id product.stock) ∧
        (∀ (b' : AddBody) (t' : Nat), b'.product_id = some pid →
          parseInt (quantityOrDefault b'.quantity) = some (2 + 1) →
          (cartAdd lowStockDb 7 b' t').1.success = false ∧
          (cartAdd lowStockDb 7 b' t').1.status = 400 ∧
          (cartAdd lowStockDb 7 b' t').2 = lowStockDb)) :=
  ⟨by decide, merge_rejection_reports_headroom lowStockDb 7 ⟨some 3, JsVal.ofInt 5⟩ 200 2
    (by decide)⟩

-- The summary route

theorem orZero_some {α : Type} [Zero α] [DecidableEq α] (x : α) : orZero (some x) = x := by
  show (if x = 0 then 0 else x) = x
  split
  · next h => exact h.symm
  · rfl

theorem sqlSum_orZero_int (xs : List Int) : orZero (sqlSum xs) = xs.sum := by
  cases xs with
  | nil => rfl
  | cons x xs =>
    simp only [sqlSum, orZero]
    split <;> simp_all

theorem sqlSum_orZero_rat (xs : List ℚ) : orZero (sqlSum xs) = xs.sum := by
  cases xs with
  | nil => rfl
  | cons x xs =>
    simp only [sqlSum, orZero]
    split <;> simp_all

/-- C12: GET /summary agrees with GET / on every state whose quantities are values of
an INTEGER column (below 10 ^ 21 in magnitude): its total_amount is the total_amount of
GET /, its total_quantity is the total_items of GET / (the sum of the quantities), its
total_items is the number of cart rows GET / lists, and all three are 0 for a user
without rows. -/
theorem summary_matches_get_cart (db : Db) (u : Int)
    (hq : ∀ ci ∈ db.cart_items, ci.quantity.natAbs < 10 ^ 21) :
    (cartSummary db u).total_amount = (cartGet db u).summary.total_amount ∧
    some (cartSummary db u).total_quantity = (cartGet db u).summary.total_items ∧
    (cartSummary db u).total_quantity = ((cartGet db u).items.map fun item => item.quantity).sum ∧
    (cartSummary db u).total_items = ((cartGet db u).items.length : Int) ∧
    ((∀ ci ∈ db.cart_items, ci.user_id ≠ u) → cartSummary db u = ⟨0, 0, 0⟩) := by
  have hperm := cartRows_perm db u
  have hqty : ((cartRows db u).map fun item => item.quantity).sum =
      (((joinProducts db).filter fun r => decide (r.1.user_id = u)).map
        fun r => r.1.quantity).sum := by
    rw [(hperm.map _).sum_eq, List.map_map]
    rfl
  have hamt : ((cartRows db u).map fun item => item.subtotal).sum =
      (((joinProducts db).filter fun r => decide (r.1.user_id = u)).map
        fun r => r.2.price * (r.1.quantity : ℚ)).sum := by
    rw [(hperm.map _).sum_eq, List.map_map]
    rfl
  have hbound : ∀ item ∈ cartRows db u, item.quantity.natAbs < 10 ^ 21 := by
    intro item hitem
    obtain ⟨r, -, -, hmem, rfl⟩ := mem_cartRows hitem
    exact hq _ hmem
  have h2 : (cartSummary db u).total_quantity =
      ((cartGet db u).items.map fun item => item.quantity).sum := by
    simp only [cartSummary, cartGet, sqlSum_orZero_int, hqty]
  refine ⟨?_, ?_, h2, ?_, ?_⟩
  · simp only [cartSummary, cartGet, foldl_total, zero_add, sqlSum_orZero_rat, hamt]
  · rw [h2]
    simp only [cartGet]
    rw [foldl_total_items _ 0 hbound, zero_add]
  · simp only [cartSummary, cartGet, hperm.length_eq, List.length_map, orZero_some]
  · intro hnone
    have hnil : ((joinProducts db).filter fun r => decide (r.1.user_id = u)) = [] := by
      rw [List.filter_eq_nil_iff]
      intro r hr
      simp only [joinProducts, List.mem_flatMap, List.mem_map, List.mem_filter] at hr
      obtain ⟨ci, hci, p, _, rfl⟩ := hr
      simpa using hnone ci hci
    simp only [cartSummary, hnil, List.map_nil, sqlSum, orZero, List.length_nil]
    simp [toFixed2]
    norm_num

/-- Witness of C12: the summary of user 7 in the sample state. -/
theorem summary_matches_get_cart_witness :
    (cartSummary sampleDb 7).total_amount = (cartGet sampleDb 7).summary.total_amount ∧
      some (cartSummary sampleDb 7).total_quantity = (cartGet sampleDb 7).summary.total_items :=
  ⟨(summary_matches_get_cart sampleDb 7 (by decide)).1,
    (summary_matches_get_cart sampleDb 7 (by decide)).2.1⟩

-- The catalog under the cart routes

theorem apply_products (db : Db) (op : CartOp) : (op.apply db).products = db.products := by
  cases op with
  | get u => rfl
  | summary u => rfl
  | validate u => rfl
  | add u b t =>
    rcases cartAdd_state db u b t with h | ⟨e, qty, _, _, h⟩ | ⟨pid, qty, _, h⟩ <;>
      simp only [CartOp.apply, h]
  | update u id quantity =>
    rcases cartUpdate_state db u id quantity with h | ⟨qty, _, h⟩ <;>
      simp only [CartOp.apply, h]
  | remove u id =>
    rcases cartRemove_state db u id with h | h <;> simp only [CartOp.apply, h]
  | clear u =>
    rcases cartClear_state db u with h | h <;> simp only [CartOp.apply, h]

/-- C13: after any sequence of get, add, update, remove, clear, summary and validate
requests, accepted or rejected, the products table is the one before the sequence, so
every product keeps its stock and price and stock >= 0 and price >= 0 are preserved. -/
theorem cart_ops_keep_catalog (db : Db) (ops : List CartOp) :
    (runOps db ops).products = db.products ∧
    ((∀ p ∈ db.products, 0 ≤ p.stock ∧ 0 ≤ p.price) →
      ∀ p ∈ (runOps db ops).products, 0 ≤ p.stock ∧ 0 ≤ p.price) := by
  have h : (runOps db ops).products = db.products := by
    unfold runOps
    induction ops generalizing db with
    | nil => rfl
    | cons op ops ih =>
      rw [List.foldl_cons, ih, apply_products]
  exact ⟨h, fun hp => by rw [h]; exact hp⟩

-- The auth routes

theorem truthy_some {s : String} (h : s ≠ "") : truthy (some s) = some s := by
  simp [truthy, h]

theorem truthy_eq_some {o : Option String} {s : String} (h : truthy o = some s) :
    o = some s ∧ s ≠ "" := by
  cases o with
  | none => simp [truthy] at h
  | some x =>
    by_cases hx : x = ""
    · simp [truthy, hx] at h
    · simp only [truthy, if_neg hx, Option.some.injEq] at h
      subst h
      exact ⟨rfl, hx⟩

theorem findUser_eq_none {users : List User} {username email : String} :
    findUser users username email = none ↔
      ∀ usr ∈ users, usr.username ≠ username ∧ usr.email ≠ email := by
  unfold findUser
  cases hu : users.find? fun usr => decide (usr.username = username) with
  | some usr =>
    have hm := List.mem_of_find?_eq_some hu
    have hp := List.find?_some hu
    simp only [decide_eq_true_eq] at hp
    constructor
    · intro h; cases h
    · intro h; exact absurd hp (h usr hm).1
  | none =>
    rw [List.find?_eq_none] at hu
    simp only [List.find?_eq_none]
    constructor
    · intro h usr husr
      exact ⟨by simpa using hu usr husr, by simpa using h usr husr⟩
    · intro h usr husr
      simpa using (h usr husr).2

theorem findUser_some {users : List User} {username email : String} {user : User}
    (h : findUser users username email = some user) :
    user ∈ users ∧ (user.username = username ∨ user.email = email) := by
  unfold findUser at h
  cases hu : users.find? fun usr => decide (usr.username = username) with
  | some usr =>
    rw [hu] at h
    cases h
    exact ⟨List.mem_of_find?_eq_some hu, Or.inl (by simpa using List.find?_some hu)⟩
  | none =>
    rw [hu] at h
    exact ⟨List.mem_of_find?_eq_some h, Or.inr (by simpa using List.find?_some h)⟩

theorem authRegister_of_present (env : AuthEnv) (store : UserStore) (username email
    password salt : String) (now : Nat) (hu : username ≠ "") (he : email ≠ "")
    (hp : password ≠ "") :
    authRegister env store ⟨some username, some email, some password⟩ salt now =
      if jsLength password < 6 then (errShortPassword, store)
      else
        match findUser store.users username email with
        | some _ => (errUserExists, store)
        | none =>
          (⟨201, true, none, "Usuario registrado exitosamente",
              some ⟨nextUserId store, username, email⟩,
              some (env.sign (nextUserId store) username email)⟩,
           ⟨store.users ++ [⟨nextUserId store, username, email, env.hash password salt, now⟩],
             nextUserId store⟩) := by
  simp only [authRegister, truthy_some hu, truthy_some he, truthy_some hp]

/-- C18: for a registration whose username, email and password are non-empty, a password
of fewer than 6 characters (as JavaScript counts them) is answered 400 password too
short and stores nothing; one of 6 or more characters, with neither the username nor the
email registered, is answered 201 and appends exactly one user with that username and
email and the hash of the password. A password of 5 characters is rejected and one of 6
accepted. -/
theorem register_password_length (env : AuthEnv) (store : UserStore)
    (username email password salt : String) (now : Nat)
    (hu : username ≠ "") (he : email ≠ "") (hp : password ≠ "") :
    (jsLength password < 6 →
      authRegister env store ⟨some username, some email, some password⟩ salt now =
        (errShortPassword, store)) ∧
    (6 ≤ jsLength password →
      (∀ usr ∈ store.users, usr.username ≠ username ∧ usr.email ≠ email) →
      (authRegister env store ⟨some username, some email, some password⟩ salt now).1.status
        = 201 ∧
      (authRegister env store ⟨some username, some email, some password⟩ salt now).1.success
        = true ∧
      (authRegister env store ⟨some username, some email, some password⟩ salt now).1.user
        = some ⟨nextUserId store, username, email⟩ ∧
      (authRegister env store ⟨some username, some email, some password⟩ salt now).2.users
        = store.users ++ [⟨nextUserId store, username, email, env.hash password salt, now⟩]) ∧
    (authRegister env store ⟨some username, some email, some "abcde"⟩ salt now).1.status = 400 ∧
    (authRegister env store ⟨some username, some email, some "abcde"⟩ salt now).2 = store ∧
    ((∀ usr ∈ store.users, usr.username ≠ username ∧ usr.email ≠ email) →
      (authRegister env store ⟨some username, some email, some "abcdef"⟩ salt now).1.status
        = 201) := by
  have h := authRegister_of_present env store username email password salt now hu he hp
  have h5 := authRegister_of_present env store username email "abcde" salt now hu he (by decide)
  have h6 := authRegister_of_present env store username email "abcdef" salt now hu he (by decide)
  have l5 : jsLength "abcde" < 6 := by decide
  have l6 : ¬ jsLength "abcdef" < 6 := by decide
  rw [if_pos l5] at h5
  rw [if_neg l6] at h6
  refine ⟨?_, ?_, ?_, ?_, ?_⟩
  · intro hlt
    rw [h, if_pos hlt]
  · intro hge hfree
    have hlt : ¬ jsLength password < 6 := by omega
    rw [h, if_neg hlt, findUser_eq_none.2 hfree]
    exact ⟨rfl, rfl, rfl, rfl⟩
  · rw [h5]; rfl
  · rw [h5]
  · intro hfree
    rw [h6, findUser_eq_none.2 hfree]

/-- Witness of C18: registering a second account in the sample table. -/
theorem register_password_length_witness :
    (authRegister sampleEnv sampleUsers ⟨some "luis", some "luis@tienda.com", some "abcde"⟩
      "salt" 60).1.status = 400 ∧
    (authRegister sampleEnv sampleUsers ⟨some "luis", some "luis@tienda.com", some "abcdef"⟩
      "salt" 60).1.status = 201 :=
  ⟨(register_password_length sampleEnv sampleUsers "luis" "luis@tienda.com" "clave1" "salt" 60
      (by decide) (by decide) (by decide)).2.2.1,
    (register_password_length sampleEnv sampleUsers "luis" "luis@tienda.com" "clave1" "salt" 60
      (by decide) (by decide) (by decide)).2.2.2.2 (by decide)⟩
theorem authRegister_cases (env : AuthEnv) (store : UserStore) (body : RegisterBody)
    (salt : String) (now : Nat) :
    ((authRegister env store body salt now).2 = store ∧
      (authRegister env store body salt now).1.success = false) ∨
    ∃ username email password, body.username = some username ∧ body.email = some email ∧
      body.password = some password ∧ 6 ≤ jsLength password ∧
      (∀ usr ∈ store.users, usr.username ≠ username ∧ usr.email ≠ email) ∧
      (authRegister env store body salt now).1.success = true ∧
      (authRegister env store body salt now).2 =
        ⟨store.users ++ [⟨nextUserId store, username, email, env.hash password salt, now⟩],
          nextUserId store⟩ := by
  cases hu : truthy body.username with
  | none => left; simp [authRegister, hu, errRegisterIncomplete]
  | some username =>
    cases he : truthy body.email with
    | none => left; simp [authRegister, hu, he, errRegisterIncomplete]
    | some email =>
      cases hp : truthy body.password with
      | none => left; simp [authRegister, hu, he, hp, errRegisterIncomplete]
      | some password =>
        by_cases hlen : jsLength password < 6
        · left; simp [authRegister, hu, he, hp, hlen, errShortPassword]
        · cases hf : findUser store.users username email with
          | some usr => left; simp [authRegister, hu, he, hp, hlen, hf, errUserExists]
          | none =>
            right
            refine ⟨username, email, password, (truthy_eq_some hu).1, (truthy_eq_some he).1,
              (truthy_eq_some hp).1, by omega, findUser_eq_none.1 hf, ?_, ?_⟩ <;>
              simp [authRegister, hu, he, hp, hlen, hf]

theorem users_nodup_of_reachable {store : UserStore} (hr : UserReachable store) :
    (store.users.map fun usr => usr.username).Nodup ∧
      (store.users.map fun usr => usr.email).Nodup := by
  induction hr with
  | init seq => exact ⟨List.nodup_nil, List.nodup_nil⟩
  | @register store env body salt now _ ih =>
    rcases authRegister_cases env store body salt now with h |
      ⟨username, email, password, -, -, -, -, hfree, -, h⟩
    · rw [h.1]; exact ih
    · rw [h]
      simp only [List.map_append, List.map_cons, List.map_nil]
      constructor
      · refine List.Nodup.append ih.1 (List.nodup_singleton _) ?_
        simp only [List.disjoint_singleton, List.mem_map, not_exists, not_and]
        intro usr husr
        exact (hfree usr husr).1
      · refine List.Nodup.append ih.2 (List.nodup_singleton _) ?_
        simp only [List.disjoint_singleton, List.mem_map, not_exists, not_and]
        intro usr husr
        exact (hfree usr husr).2

/-- C19 as amended: in every users table reachable from the empty one by register
requests no two users share a username and no two share an email; a register request
with all three fields present and a password of at least 6 characters whose username or
email equals that of an existing user is answered 409 and leaves the table unchanged, and
so does every register request that is not answered with success. -/
theorem register_keeps_unique (store : UserStore) (hr : UserReachable store) :
    (store.users.map fun usr => usr.username).Nodup ∧
    (store.users.map fun usr => usr.email).Nodup ∧
    (∀ (env : AuthEnv) (body : RegisterBody) (salt : String) (now : Nat)
        (username email password : String),
      truthy body.username = some username → truthy body.email = some email →
      truthy body.password = some password → 6 ≤ jsLength password →
      (∃ usr ∈ store.users, usr.username = username ∨ usr.email = email) →
      authRegister env store body salt now = (errUserExists, store)) ∧
    (∀ (env : AuthEnv) (body : RegisterBody) (salt : String) (now : Nat),
      (authRegister env store body salt now).1.success = false →
      (authRegister env store body salt now).2 = store) := by
  obtain ⟨h1, h2⟩ := users_nodup_of_reachable hr
  refine ⟨h1, h2, ?_, ?_⟩
  · intro env body salt now username email password hu he hp hlen hex
    have hlt : ¬ jsLength password < 6 := by omega
    cases hf : findUser store.users username email with
    | none =>
      obtain ⟨usr, husr, hor⟩ := hex
      have := findUser_eq_none.1 hf usr husr
      rcases hor with h | h
      · exact absurd h this.1
      · exact absurd h this.2
    | some usr => simp only [authRegister, hu, he, hp, if_neg hlt, hf]
  · intro env body salt now hfail
    rcases authRegister_cases env store body salt now with h | ⟨_, _, _, _, _, _, _, _, hs, _⟩
    · exact h.1
    · rw [hs] at hfail; cases hfail

/-- C19 fails as stated: registering the username of an existing account with a password
of 3 characters is answered 400 password too short, not 409. -/
theorem register_duplicate_short_password_counterexample :
    UserReachable sampleUsers ∧ (∃ usr ∈ sampleUsers.users, usr.username = "ana") ∧
      (authRegister sampleEnv sampleUsers ⟨some "ana", some "otra@tienda.com", some "abc"⟩
        "salt" 60).1 = errShortPassword ∧
      (authRegister sampleEnv sampleUsers ⟨some "ana", some "otra@tienda.com", some "abc"⟩
        "salt" 60).1.status ≠ 409 :=
  ⟨UserReachable.register sampleEnv ⟨some "ana", some "ana@tienda.com", some "secreto"⟩ "salt" 50
      (UserReachable.init 0),
    by decide, by decide, by decide⟩

/-- Witness of C19: the sample table and a second registration of its username. -/
theorem register_keeps_unique_witness :
    (sampleUsers.users.map fun usr => usr.username).Nodup ∧
      authRegister sampleEnv sampleUsers ⟨some "ana", some "otra@tienda.com", some "abcdef"⟩
        "salt" 60 = (errUserExists, sampleUsers) :=
  have h := register_keeps_unique sampleUsers
    (UserReachable.register sampleEnv ⟨some "ana", some "ana@tienda.com", some "secreto"⟩
      "salt" 50 (UserReachable.init 0))
  ⟨h.1, h.2.2.1 sampleEnv ⟨some "ana", some "otra@tienda.com", some "abcdef"⟩ "salt" 60
    "ana" "otra@tienda.com" "abcdef" (by decide) (by decide) (by decide) (by decide)
    ⟨⟨1, "ana", "ana@tienda.com", "saltsecreto", 50⟩, by decide, Or.inl rfl⟩⟩

theorem findUser_eq_some_iff {users : List User} {identifier : String} {user : User} :
    findUser users identifier identifier = some user ↔
      ∃ before after, users = before ++ user :: after ∧
        ((user.username = identifier ∧ ∀ b ∈ before, b.username ≠ identifier) ∨
          (user.email = identifier ∧ (∀ usr ∈ users, usr.username ≠ identifier) ∧
            ∀ b ∈ before, b.email ≠ identifier)) := by
  unfold findUser
  cases hu : users.find? fun usr => decide (usr.username = identifier) with
  | some usr =>
    have hu' := hu
    rw [List.find?_eq_some] at hu'
    obtain ⟨hp, before, after, heq, hb⟩ := hu'
    simp only [decide_eq_true_eq] at hp
    constructor
    · intro h
      cases h
      exact ⟨before, after, heq, Or.inl ⟨hp, fun b hbm => by simpa using hb b hbm⟩⟩
    · rintro ⟨before', after', heq', h | h⟩
      · have : users.find? (fun usr => decide (usr.username = identifier)) = some user := by
          rw [List.find?_eq_some]
          exact ⟨by simpa using h.1, before', after', heq', fun b hbm => by simpa using h.2 b hbm⟩
        rw [hu] at this
        exact this
      · exact absurd hp (h.2.1 usr (List.mem_of_find?_eq_some hu))
  | none =>
    have hu' := hu
    rw [List.find?_eq_none] at hu'
    simp only [List.find?_eq_some, decide_eq_true_eq]
    constructor
    · rintro ⟨hp, before, after, heq, hb⟩
      exact ⟨before, after, heq, Or.inr ⟨hp, fun usr husr => by simpa using hu' usr husr,
        fun b hbm => by simpa using hb b hbm⟩⟩
    · rintro ⟨before, after, heq, h | h⟩
      · have hm : user ∈ users := by rw [heq]; simp
        have := hu' user hm
        simp [h.1] at this
      · exact ⟨h.1, before, after, heq, fun b hbm => by simpa using h.2.2 b hbm⟩

/-- C20: login answers 400 exactly when the password is missing or both the email and the
username are missing or empty. Otherwise, with the identifier being the email, or the
username when the email is missing or empty, it answers 404 exactly when no stored user
has the identifier as username or email, and else there is a matched user: the first row
whose username is the identifier, or, when no username is the identifier, the first row
whose email is. For the matched user login answers 401 exactly when the password does not
match the stored hash, and else 200 with the id, username and email of that user. In the
table where the username of user 1 is the email of user 2, that identifier logs in user 1
in either order of the rows. -/
theorem login_classification (env : AuthEnv) (store : UserStore) (body : LoginBody) :
    ((authLogin env store body).status = 400 ↔
      ((truthy body.email = none ∧ truthy body.username = none) ∨
        truthy body.password = none)) ∧
    (∀ identifier password,
      (truthy body.email = some identifier ∨
        (truthy body.email = none ∧ truthy body.username = some identifier)) →
      truthy body.password = some password →
      ((authLogin env store body).status = 404 ↔
        ∀ usr ∈ store.users, usr.username ≠ identifier ∧ usr.email ≠ identifier) ∧
      ((∃ usr ∈ store.users, usr.username = identifier ∨ usr.email = identifier) →
        ∃ user before after, store.users = before ++ user :: after ∧
          ((user.username = identifier ∧ ∀ b ∈ before, b.username ≠ identifier) ∨
            (user.email = identifier ∧ (∀ usr ∈ store.users, usr.username ≠ identifier) ∧
              ∀ b ∈ before, b.email ≠ identifier))) ∧
      (∀ user before after, store.users = before ++ user :: after →
        ((user.username = identifier ∧ ∀ b ∈ before, b.username ≠ identifier) ∨
          (user.email = identifier ∧ (∀ usr ∈ store.users, usr.username ≠ identifier) ∧
            ∀ b ∈ before, b.email ≠ identifier)) →
        ((authLogin env store body).status = 401 ↔
          env.compare password user.password = false) ∧
        (env.compare password user.password = true →
          (authLogin env store body).status = 200 ∧
          (authLogin env store body).success = true ∧
          (authLogin env store body).user = some ⟨user.id, user.username, user.email⟩))) ∧
    (authLogin sampleEnv crossStore ⟨some "luz@tienda.com", none, some "secreto"⟩).user =
      some ⟨1, "luz@tienda.com", "otra@tienda.com"⟩ ∧
    (authLogin sampleEnv ⟨crossStore.users.reverse, 2⟩
      ⟨some "luz@tienda.com", none, some "secreto"⟩).user =
      some ⟨1, "luz@tienda.com", "otra@tienda.com"⟩ ∧
    (authLogin sampleEnv crossStore ⟨none, some "luz", some "secreto"⟩).user =
      some ⟨2, "luz", "luz@tienda.com"⟩ ∧
    (authLogin sampleEnv crossStore ⟨some "", some "luz", some "secreto"⟩).user =
      some ⟨2, "luz", "luz@tienda.com"⟩ ∧
    (authLogin sampleEnv crossStore ⟨some "otra@tienda.com", some "luz", some "secreto"⟩).user =
      some ⟨1, "luz@tienda.com", "otra@tienda.com"⟩ ∧
    (authLogin sampleEnv crossStore ⟨none, some "luz", some "errado"⟩).status = 401 ∧
    (authLogin sampleEnv crossStore ⟨none, some "nadie", some "secreto"⟩).status = 404 ∧
    (authLogin sampleEnv crossStore ⟨none, none, some "secreto"⟩).status = 400 ∧
    (authLogin sampleEnv crossStore ⟨none, some "luz", none⟩).status = 400 := by
  have hid : ∀ identifier, (truthy body.email = some identifier ∨
      (truthy body.email = none ∧ truthy body.username = some identifier)) →
      truthy (loginIdentifier body) = some identifier := by
    intro identifier h
    rcases h with h | ⟨h1, h2⟩
    · have := truthy_eq_some h
      simp only [loginIdentifier, h]
      exact truthy_some this.2
    · simp only [loginIdentifier, h1]
      exact h2
  have hnone : truthy (loginIdentifier body) = none ↔
      (truthy body.email = none ∧ truthy body.username = none) := by
    cases he : truthy body.email with
    | none => simp [loginIdentifier, he]
    | some e =>
      have := hid e (Or.inl he)
      simp [this]
  refine ⟨?_, ?_, by decide, by decide, by decide, by decide, by decide, by decide, by decide,
    by decide, by decide⟩
  · rw [← hnone]
    constructor
    · intro h
      cases hi : truthy (loginIdentifier body) with
      | none => left; rfl
      | some identifier =>
        cases hp : truthy body.password with
        | none => right; rfl
        | some password =>
          exfalso
          simp only [authLogin, hi, hp] at h
          cases hf : findUser store.users identifier identifier with
          | none => simp [hf, errUserNotFound] at h
          | some user =>
            simp only [hf] at h
            by_cases hc : env.compare password user.password = true
            · simp [hc] at h
            · simp [hc, errWrongPassword] at h
    · intro h
      rcases h with h | h
      · simp [authLogin, h, errLoginIncomplete]
      · cases hi : truthy (loginIdentifier body) <;> simp [authLogin, h, hi, errLoginIncomplete]
  · intro identifier password hi hp
    have hi := hid identifier hi
    refine ⟨?_, ?_, ?_⟩
    · rw [← findUser_eq_none]
      cases hf : findUser store.users identifier identifier with
      | none => simp [authLogin, hi, hp, hf, errUserNotFound]
      | some user =>
        by_cases hc : env.compare password user.password = true
        · simp [authLogin, hi, hp, hf, hc]
        · simp [authLogin, hi, hp, hf, hc, errWrongPassword]
    · rintro ⟨usr, husr, hm⟩
      cases hf : findUser store.users identifier identifier with
      | none =>
        have := findUser_eq_none.1 hf usr husr
        rcases hm with hm | hm
        · exact absurd hm this.1
        · exact absurd hm this.2
      | some user =>
        obtain ⟨before, after, h⟩ := findUser_eq_some_iff.1 hf
        exact ⟨user, before, after, h⟩
    · intro user before after heq hm
      have hf : findUser store.users identifier identifier = some user :=
        findUser_eq_some_iff.2 ⟨before, after, heq, hm⟩
      constructor
      · by_cases hc : env.compare password user.password = true
        · simp [authLogin, hi, hp, hf, hc]
        · simp [authLogin, hi, hp, hf, hc, errWrongPassword]
      · intro hc
        simp [authLogin, hi, hp, hf, hc]

-- The operator LIKE and substrings

theorem anySuffix_self {f : List Char → Bool} {s : List Char} (h : f s = true) :
    anySuffix f s = true := by
  cases s with
  | nil => exact h
  | cons c cs => simp [anySuffix, h]

theorem anySuffix_tail {f : List Char → Bool} {c : Char} {cs : List Char}
    (h : anySuffix f cs = true) : anySuffix f (c :: cs) = true := by
  simp [anySuffix, h]

theorem anySuffix_congr {f g : List Char → Bool} (h : ∀ x, f x = g x) (s : List Char) :
    anySuffix f s = anySuffix g s := by
  induction s with
  | nil => exact h []
  | cons c cs ih => simp only [anySuffix, h, ih]

theorem anySuffix_isEmpty (s : List Char) : anySuffix (likeMatch []) s = true := by
  induction s with
  | nil => rfl
  | cons c cs ih => exact anySuffix_tail ih

theorem likeMatch_percent (p s : List Char) :
    likeMatch ('%' :: p) s = anySuffix (likeMatch p) s := by
  simp [likeMatch]

theorem likeMatch_of_startsWith (t s : List Char) (h : startsWithFold t s = true) :
    likeMatch (t ++ ['%']) s = true := by
  induction t generalizing s with
  | nil =>
    rw [List.nil_append, likeMatch_percent]
    exact anySuffix_isEmpty s
  | cons a t ih =>
    cases s with
    | nil => simp [startsWithFold] at h
    | cons c cs =>
      simp only [startsWithFold, Bool.and_eq_true] at h
      by_cases ha : a = '%'
      · subst ha
        rw [List.cons_append, likeMatch_percent]
        exact anySuffix_tail (anySuffix_self (ih cs h.2))
      · simp only [List.cons_append, likeMatch, if_neg ha, Bool.and_eq_true, Bool.or_eq_true]
        exact ⟨Or.inr h.1, ih cs h.2⟩

theorem likeMatch_eq_startsWith (t s : List Char) (hw : wildcardFree t) :
    likeMatch (t ++ ['%']) s = startsWithFold t s := by
  induction t generalizing s with
  | nil =>
    rw [List.nil_append, likeMatch_percent, anySuffix_isEmpty]
    rfl
  | cons a t ih =>
    have ha := hw a (List.mem_cons_self _ _)
    have ht : wildcardFree t := fun c hc => hw c (List.mem_cons_of_mem _ hc)
    cases s with
    | nil => simp [likeMatch, startsWithFold, ha.1]
    | cons c cs =>
      simp only [List.cons_append, likeMatch, if_neg ha.1, startsWithFold, ha.2,
        decide_False, Bool.false_or]
      exact congrArg _ (ih cs ht)

/-- Under the pattern %t%, LIKE accepts every string that contains t, and for a term
without wildcard characters it accepts no other. -/
theorem likeMatch_contains (t s : List Char) :
    (containsFold t s = true → likeMatch ('%' :: t ++ ['%']) s = true) ∧
      (wildcardFree t → likeMatch ('%' :: t ++ ['%']) s = containsFold t s) := by
  rw [List.cons_append, likeMatch_percent]
  constructor
  · intro h
    unfold containsFold at h
    induction s with
    | nil => exact likeMatch_of_startsWith t [] h
    | cons c cs ih =>
      simp only [anySuffix, Bool.or_eq_true] at h ⊢
      rcases h with h | h
      · exact Or.inl (likeMatch_of_startsWith t _ h)
      · exact Or.inr (ih h)
  · intro hw
    exact anySuffix_congr (fun x => likeMatch_eq_startsWith t x hw) s

-- The two sort orders

theorem binaryLe_total (a b : List Char) : binaryLe a b = true ∨ binaryLe b a = true := by
  induction a generalizing b with
  | nil => left; rfl
  | cons x xs ih =>
    cases b with
    | nil => right; rfl
    | cons y ys =>
      simp only [binaryLe, Bool.or_eq_true, Bool.and_eq_true, decide_eq_true_eq]
      rcases Nat.lt_trichotomy x.toNat y.toNat with h | h | h
      · exact Or.inl (Or.inl h)
      · rcases ih ys with h' | h'
        · exact Or.inl (Or.inr ⟨h, h'⟩)
        · exact Or.inr (Or.inr ⟨h.symm, h'⟩)
      · exact Or.inr (Or.inl h)

theorem binaryLe_trans (a b c : List Char) (h1 : binaryLe a b = true)
    (h2 : binaryLe b c = true) : binaryLe a c = true := by
  induction a generalizing b c with
  | nil => rfl
  | cons x xs ih =>
    cases b with
    | nil => simp [binaryLe] at h1
    | cons y ys =>
      cases c with
      | nil => simp [binaryLe] at h2
      | cons z zs =>
        simp only [binaryLe, Bool.or_eq_true, Bool.and_eq_true, decide_eq_true_eq] at h1 h2 ⊢
        rcases h1 with h1 | ⟨h1, h1'⟩ <;> rcases h2 with h2 | ⟨h2, h2'⟩
        · exact Or.inl (by omega)
        · exact Or.inl (by omega)
        · exact Or.inl (by omega)
        · exact Or.inr ⟨by omega, ih ys zs h1' h2'⟩

theorem searchOrder_sorted (searchTerm : List Char) (l : List Product) :
    (l.insertionSort (searchOrder searchTerm)).Sorted (searchOrder searchTerm) := by
  haveI : IsTotal Product (searchOrder searchTerm) := ⟨by
    intro a b
    unfold searchOrder
    rcases Nat.lt_trichotomy (searchRank searchTerm a) (searchRank searchTerm b) with h | h | h
    · exact Or.inl (Or.inl h)
    · rcases binaryLe_total a.name.toList b.name.toList with h' | h'
      · exact Or.inl (Or.inr ⟨h, h'⟩)
      · exact Or.inr (Or.inr ⟨h.symm, h'⟩)
    · exact Or.inr (Or.inl h)⟩
  haveI : IsTrans Product (searchOrder searchTerm) := ⟨by
    intro a b c h1 h2
    unfold searchOrder at h1 h2 ⊢
    rcases h1 with h1 | ⟨h1, h1'⟩ <;> rcases h2 with h2 | ⟨h2, h2'⟩
    · exact Or.inl (by omega)
    · exact Or.inl (by omega)
    · exact Or.inl (by omega)
    · exact Or.inr ⟨by omega, binaryLe_trans _ _ _ h1' h2'⟩⟩
  exact List.sorted_insertionSort _ _

theorem ite_ne_nan {c : Prop} [Decidable c] {a b : JsDouble} (ha : a ≠ .nan)
    (hb : b ≠ .nan) : (if c then a else b) ≠ .nan := by
  split <;> assumption

theorem roundFrac_ne_nan (neg : Bool) (n d : Nat) : roundFrac neg n d ≠ .nan := by
  unfold roundFrac
  apply ite_ne_nan
  · simp
  · exact ite_ne_nan (by simp) (by simp)

theorem toDouble_ne_nan (q : ℚ) : toDouble q ≠ .nan := roundFrac_ne_nan _ _ _

theorem jsDouble_le_finite_iff (na : Bool) (ma : Nat) (ea : Int) (nb : Bool) (mb : Nat)
    (eb : Int) :
    JsDouble.le (.finite na ma ea) (.finite nb mb eb) = true ↔
      (JsDouble.finite na ma ea).toRat ≤ (JsDouble.finite nb mb eb).toRat := by
  have hpos : (0 : ℚ) < (2 : ℚ) ^ (min ea eb) := zpow_pos (by norm_num) _
  have hsplit : ∀ e : Int, min ea eb ≤ e →
      (2 : ℚ) ^ e = ((2 ^ (e - min ea eb).toNat : Nat) : ℚ) * (2 : ℚ) ^ (min ea eb) := by
    intro e he
    have h1 : ((e - min ea eb).toNat : Int) = e - min ea eb := Int.toNat_of_nonneg (by omega)
    have h2 : e = ((e - min ea eb).toNat : Int) + min ea eb := by omega
    conv_lhs => rw [h2]
    rw [zpow_add₀ (by norm_num : (2 : ℚ) ≠ 0), zpow_natCast]
    push_cast
    rfl
  simp only [JsDouble.le, JsDouble.toRat, decide_eq_true_eq]
  rw [hsplit ea (min_le_left _ _), hsplit eb (min_le_right _ _)]
  rw [← mul_assoc, ← mul_assoc, mul_le_mul_right hpos]
  rw [← Int.cast_le (R := ℚ)]
  cases na <;> cases nb <;> simp

theorem jsDouble_le_total {x y : JsDouble} (hx : x ≠ .nan) (hy : y ≠ .nan) :
    x.le y = true ∨ y.le x = true := by
  cases x with
  | nan => exact absurd rfl hx
  | infinity n =>
    cases y with
    | nan => exact absurd rfl hy
    | infinity m => cases n <;> cases m <;> simp [JsDouble.le]
    | finite nb mb eb => cases n <;> simp [JsDouble.le]
  | finite na ma ea =>
    cases y with
    | nan => exact absurd rfl hy
    | infinity m => cases m <;> simp [JsDouble.le]
    | finite nb mb eb =>
      rw [jsDouble_le_finite_iff, jsDouble_le_finite_iff]
      exact le_total _ _

theorem jsDouble_le_trans {x y z : JsDouble} (h1 : x.le y = true) (h2 : y.le z = true) :
    x.le z = true := by
  cases x with
  | nan => simp [JsDouble.le] at h1
  | infinity n =>
    cases y with
    | nan => cases n <;> simp [JsDouble.le] at h1
    | infinity m =>
      cases z with
      | nan => cases m <;> simp [JsDouble.le] at h2
      | infinity k => cases n <;> cases m <;> cases k <;> simp_all [JsDouble.le]
      | finite nc mc ec => cases n <;> cases m <;> simp_all [JsDouble.le]
    | finite nb mb eb =>
      cases z with
      | nan => simp [JsDouble.le] at h2
      | infinity k => cases n <;> cases k <;> simp_all [JsDouble.le]
      | finite nc mc ec => cases n <;> simp_all [JsDouble.le]
  | finite na ma ea =>
    cases y with
    | nan => simp [JsDouble.le] at h1
    | infinity m =>
      cases z with
      | nan => cases m <;> simp [JsDouble.le] at h2
      | infinity k => cases m <;> cases k <;> simp_all [JsDouble.le]
      | finite nc mc ec => cases m <;> simp_all [JsDouble.le]
    | finite nb mb eb =>
      cases z with
      | nan => simp [JsDouble.le] at h2
      | infinity k => cases k <;> simp_all [JsDouble.le]
      | finite nc mc ec =>
        rw [jsDouble_le_finite_iff] at h1 h2 ⊢
        exact le_trans h1 h2

theorem filterOrder_sorted (l : List Product) :
    (l.insertionSort filterOrder).Sorted filterOrder := by
  haveI : IsTotal Product filterOrder := ⟨by
    intro a b
    unfold filterOrder
    have hab := jsDouble_le_total (toDouble_ne_nan a.price) (toDouble_ne_nan b.price)
    cases h1 : (toDouble a.price).le (toDouble b.price) <;>
      cases h2 : (toDouble b.price).le (toDouble a.price)
    · rw [h1, h2] at hab; simp at hab
    · exact Or.inr (Or.inl ⟨rfl, rfl⟩)
    · exact Or.inl (Or.inl ⟨rfl, rfl⟩)
    · rcases binaryLe_total a.name.toList b.name.toList with h | h
      · exact Or.inl (Or.inr ⟨rfl, rfl, h⟩)
      · exact Or.inr (Or.inr ⟨rfl, rfl, h⟩)⟩
  haveI : IsTrans Product filterOrder := ⟨by
    intro a b c h1 h2
    unfold filterOrder at h1 h2 ⊢
    have hab : (toDouble a.price).le (toDouble b.price) = true := by
      rcases h1 with h | h <;> exact h.1
    have hbc : (toDouble b.price).le (toDouble c.price) = true := by
      rcases h2 with h | h <;> exact h.1
    have hac := jsDouble_le_trans hab hbc
    cases hca : (toDouble c.price).le (toDouble a.price) with
    | false => exact Or.inl ⟨hac, rfl⟩
    | true =>
      have hcb := jsDouble_le_trans hca hab
      have hba := jsDouble_le_trans hbc hca
      rcases h1 with h1 | h1
      · rw [hba] at h1; simp at h1
      · rcases h2 with h2 | h2
        · rw [hcb] at h2; simp at h2
        · exact Or.inr ⟨hac, rfl, binaryLe_trans _ _ _ h1.2.2 h2.2.2⟩⟩
  exact List.sorted_insertionSort _ _

theorem productsSearch_of_term (allProducts : List Product) (q : String) (hq : q ≠ "")
    (hb : jsTrim q.toList ≠ []) :
    productsSearch allProducts (some q) =
      ⟨200, true, none,
        (allProducts.filter fun p =>
          likeMatch ('%' :: jsTrim q.toList ++ ['%']) p.name.toList ||
            likeMatch ('%' :: jsTrim q.toList ++ ['%']) p.description.toList ||
            likeMatch ('%' :: jsTrim q.toList ++ ['%']) p.category.toList).insertionSort
          (searchOrder ('%' :: jsTrim q.toList ++ ['%'])),
        ((allProducts.filter fun p =>
          likeMatch ('%' :: jsTrim q.toList ++ ['%']) p.name.toList ||
            likeMatch ('%' :: jsTrim q.toList ++ ['%']) p.description.toList ||
            likeMatch ('%' :: jsTrim q.toList ++ ['%']) p.category.toList).insertionSort
          (searchOrder ('%' :: jsTrim q.toList ++ ['%']))).length⟩ := by
  have hlen : ¬ (jsTrim q.toList).length = 0 := by
    rw [List.length_eq_zero]; exact hb
  simp only [productsSearch, truthy_some hq, if_neg hlen]

theorem searchRank_wildcardFree (t : List Char) (hw : wildcardFree t) (p : Product) :
    (searchRank ('%' :: t ++ ['%']) p = 1 ↔ containsFold t p.name.toList = true) ∧
    (searchRank ('%' :: t ++ ['%']) p = 2 ↔
      containsFold t p.name.toList = false ∧ containsFold t p.category.toList = true) ∧
    (searchRank ('%' :: t ++ ['%']) p = 3 ↔
      containsFold t p.name.toList = false ∧ containsFold t p.category.toList = false) := by
  unfold searchRank
  rw [(likeMatch_contains t p.name.toList).2 hw, (likeMatch_contains t p.category.toList).2 hw]
  cases containsFold t p.name.toList <;> cases containsFold t p.category.toList <;> simp

set_option maxRecDepth 100000 in
/-- C14, the code at the failing input and on the other terms: the term _ returns all 25
seeded products although none of them contains an underscore in its name, description or
category. For a non-blank term whose trimmed form t has no wildcard character, search
returns exactly the products whose name, description or category contains t as a
substring up to the case of ASCII letters, ordered by rank (1 when the name contains t,
2 when only the category does, 3 otherwise) and by name within a rank; for the term
pintura over the seeded catalog these are the products 13, 5, 3, 1, 2, 4, 17, 18. -/
theorem search_wildcard_terms :
    ((productsSearch seededProducts (some "_")).count = 25 ∧
      (productsSearch seededProducts (some "_")).status = 200 ∧
      ∀ p ∈ seededProducts, containsFold ['_'] p.name.toList = false ∧
        containsFold ['_'] p.description.toList = false ∧
        containsFold ['_'] p.category.toList = false) ∧
    (∀ (allProducts : List Product) (q : String), q ≠ "" → jsTrim q.toList ≠ [] →
      wildcardFree (jsTrim q.toList) →
      (productsSearch allProducts (some q)).status = 200 ∧
      (productsSearch allProducts (some q)).data.Perm
        (allProducts.filter fun p =>
          containsFold (jsTrim q.toList) p.name.toList ||
            containsFold (jsTrim q.toList) p.description.toList ||
            containsFold (jsTrim q.toList) p.category.toList) ∧
      (productsSearch allProducts (some q)).data.Sorted
        (searchOrder ('%' :: jsTrim q.toList ++ ['%'])) ∧
      ∀ p : Product,
        (searchRank ('%' :: jsTrim q.toList ++ ['%']) p = 1 ↔
          containsFold (jsTrim q.toList) p.name.toList = true) ∧
        (searchRank ('%' :: jsTrim q.toList ++ ['%']) p = 2 ↔
          containsFold (jsTrim q.toList) p.name.toList = false ∧
            containsFold (jsTrim q.toList) p.category.toList = true) ∧
        (searchRank ('%' :: jsTrim q.toList ++ ['%']) p = 3 ↔
          containsFold (jsTrim q.toList) p.name.toList = false ∧
            containsFold (jsTrim q.toList) p.category.toList = false)) ∧
    (productsSearch seededProducts (some "pintura")).data.map (fun p => p.id) =
      [13, 5, 3, 1, 2, 4, 17, 18] := by
  refine ⟨by decide, ?_, by decide⟩
  intro allProducts q hq hb hw
  rw [productsSearch_of_term allProducts q hq hb]
  refine ⟨rfl, ?_, searchOrder_sorted _ _, searchRank_wildcardFree _ hw⟩
  have hfilter : (allProducts.filter fun p =>
      likeMatch ('%' :: jsTrim q.toList ++ ['%']) p.name.toList ||
        likeMatch ('%' :: jsTrim q.toList ++ ['%']) p.description.toList ||
        likeMatch ('%' :: jsTrim q.toList ++ ['%']) p.category.toList) =
      allProducts.filter fun p =>
        containsFold (jsTrim q.toList) p.name.toList ||
          containsFold (jsTrim q.toList) p.description.toList ||
          containsFold (jsTrim q.toList) p.category.toList := by
    apply List.filter_congr
    intro p _
    rw [(likeMatch_contains _ _).2 hw, (likeMatch_contains _ _).2 hw,
      (likeMatch_contains _ _).2 hw]
  show (List.insertionSort _ _).Perm _
  rw [hfilter]
  exact List.perm_insertionSort _ _

theorem containsFold_of_startsWith (t s : List Char) (h : startsWithFold t s = true) :
    containsFold t s = true :=
  anySuffix_self h

/-- C15 as amended: the first tier of search holds the products whose name matches the
term anywhere: for a non-blank term with trimmed form t, every product whose name
contains t, at the start or elsewhere, is returned with rank 1; in the result no product
of a higher rank comes before one of a lower rank, so the products whose name matches
come ahead of all that match only in category or description; and a product has rank 1
exactly when its name matches the pattern %t%. -/
theorem search_first_tier_is_name_match (allProducts : List Product) (q : String)
    (hq : q ≠ "") (hb : jsTrim q.toList ≠ []) :
    (∀ p ∈ allProducts, containsFold (jsTrim q.toList) p.name.toList = true →
      p ∈ (productsSearch allProducts (some q)).data ∧
        searchRank ('%' :: jsTrim q.toList ++ ['%']) p = 1) ∧
    (∀ p ∈ allProducts, startsWithFold (jsTrim q.toList) p.name.toList = true →
      p ∈ (productsSearch allProducts (some q)).data ∧
        searchRank ('%' :: jsTrim q.toList ++ ['%']) p = 1) ∧
    (productsSearch allProducts (some q)).data.Pairwise
      (fun a b => searchRank ('%' :: jsTrim q.toList ++ ['%']) a ≤
        searchRank ('%' :: jsTrim q.toList ++ ['%']) b) ∧
    (∀ p : Product, searchRank ('%' :: jsTrim q.toList ++ ['%']) p = 1 ↔
      likeMatch ('%' :: jsTrim q.toList ++ ['%']) p.name.toList = true) := by
  have hfirst : ∀ p ∈ allProducts, containsFold (jsTrim q.toList) p.name.toList = true →
      p ∈ (productsSearch allProducts (some q)).data ∧
        searchRank ('%' :: jsTrim q.toList ++ ['%']) p = 1 := by
    intro p hp hc
    have hlike := (likeMatch_contains (jsTrim q.toList) p.name.toList).1 hc
    rw [productsSearch_of_term allProducts q hq hb]
    refine ⟨?_, by unfold searchRank; rw [if_pos hlike]⟩
    show p ∈ List.insertionSort _ _
    rw [(List.perm_insertionSort _ _).mem_iff, List.mem_filter]
    exact ⟨hp, by simp only [hlike, Bool.true_or]⟩
  refine ⟨hfirst, fun p hp hs => hfirst p hp (containsFold_of_startsWith _ _ hs), ?_, ?_⟩
  · rw [productsSearch_of_term allProducts q hq hb]
    have hs := searchOrder_sorted ('%' :: jsTrim q.toList ++ ['%'])
      (allProducts.filter fun p =>
        likeMatch ('%' :: jsTrim q.toList ++ ['%']) p.name.toList ||
          likeMatch ('%' :: jsTrim q.toList ++ ['%']) p.description.toList ||
          likeMatch ('%' :: jsTrim q.toList ++ ['%']) p.category.toList)
    refine List.Pairwise.imp ?_ hs
    intro a b hab
    unfold searchOrder at hab
    rcases hab with h | ⟨h, -⟩ <;> omega
  · intro p
    unfold searchRank
    cases likeMatch ('%' :: jsTrim q.toList ++ ['%']) p.name.toList <;>
      cases likeMatch ('%' :: jsTrim q.toList ++ ['%']) p.category.toList <;> simp

set_option maxRecDepth 100000 in
/-- C15 fails as stated: for the term pintura the name of product 13, Bandeja para
Pintura, does not start with the term, yet the product has rank 1 and is returned first,
ahead of product 5, whose name starts with the term. -/
theorem search_name_contains_counterexample :
    startsWithFold "pintura".toList "Bandeja para Pintura".toList = false ∧
      startsWithFold "pintura".toList "Pintura Acrílica Amarilla".toList = true ∧
      (productsSearch seededProducts (some "pintura")).data.map (fun p => p.name) =
        ["Bandeja para Pintura", "Pintura Acrílica Amarilla", "Pintura Acrílica Azul",
          "Pintura Acrílica Blanca", "Pintura Acrílica Roja", "Pintura Acrílica Verde",
          "Spray Negro Mate", "Spray Plateado"] ∧
      (productsSearch seededProducts (some "pintura")).data.map
          (fun p => searchRank "%pintura%".toList p) = [1, 1, 1, 1, 1, 1, 3, 3] := by
  decide

set_option maxRecDepth 100000 in
/-- Witness of C15: the term pintura over the seeded catalog. -/
theorem search_first_tier_is_name_match_witness :
    (productsSearch seededProducts (some "pintura")).data.Pairwise
      (fun a b => searchRank ('%' :: jsTrim "pintura".toList ++ ['%']) a ≤
        searchRank ('%' :: jsTrim "pintura".toList ++ ['%']) b) :=
  (search_first_tier_is_name_match seededProducts "pintura" (by decide) (by decide)).2.2.1
-- The filter route

theorem ne_empty_of_trim {c : String} (h : jsTrim c.toList ≠ []) : c ≠ "" := by
  intro hc
  subst hc
  exact h (by decide)

theorem option_all_iff {α : Type} (f : α → Bool) (o : Option α) :
    o.all f = true ↔ ∀ x, o = some x → f x = true := by
  cases o with
  | none => simp [Option.all]
  | some y => simp [Option.all]

theorem whereConditions_all (category minPrice maxPrice : Option String) (p : Product)
    (hc : ∀ c, category = some c → jsTrim c.toList ≠ [])
    (hlo : ∀ s, minPrice = some s → wellFormedNumber s)
    (hhi : ∀ s, maxPrice = some s → wellFormedNumber s) :
    ((whereConditions category minPrice maxPrice).all fun c => c p) =
      (category.all (fun c => decide (p.category.toList = jsTrim c.toList)) &&
        minPrice.all (fun s => (JsParsed.toDouble (jsParseFloat s)).le (toDouble p.price)) &&
        maxPrice.all (fun s => (toDouble p.price).le (JsParsed.toDouble (jsParseFloat s)))) := by
  have h1 : (match truthy category with
      | some category =>
        if jsTrim category.toList ≠ [] then
          [fun p : Product => decide (p.category.toList = jsTrim category.toList)]
        else []
      | none => []).all (fun c => c p) =
      category.all (fun c => decide (p.category.toList = jsTrim c.toList)) := by
    cases category with
    | none => rfl
    | some c =>
      have hne := hc c rfl
      have hne' : ¬ jsTrim c.data = [] := hne
      simp [truthy_some (ne_empty_of_trim hne), hne']
  have h2 : (match truthy minPrice with
      | some minPrice =>
        if jsIsNaN minPrice = false then
          [fun p : Product => sqlGe p.price (jsParseFloat minPrice)]
        else []
      | none => []).all (fun c => c p) =
      minPrice.all (fun s => (JsParsed.toDouble (jsParseFloat s)).le (toDouble p.price)) := by
    cases minPrice with
    | none => rfl
    | some s =>
      obtain ⟨hne, neg, mant, exp, hnum, hparse⟩ := hlo s rfl
      have hnan : jsIsNaN s = false := by simp [jsIsNaN, hnum]
      simp [truthy_some hne, hnan, sqlGe]
  have h3 : (match truthy maxPrice with
      | some maxPrice =>
        if jsIsNaN maxPrice = false then
          [fun p : Product => sqlLe p.price (jsParseFloat maxPrice)]
        else []
      | none => []).all (fun c => c p) =
      maxPrice.all (fun s => (toDouble p.price).le (JsParsed.toDouble (jsParseFloat s))) := by
    cases maxPrice with
    | none => rfl
    | some s =>
      obtain ⟨hne, neg, mant, exp, hnum, hparse⟩ := hhi s rfl
      have hnan : jsIsNaN s = false := by simp [jsIsNaN, hnum]
      simp [truthy_some hne, hnan, sqlLe]
  unfold whereConditions
  rw [List.all_append, List.all_append]
  exact congr (congrArg and (congr (congrArg and h1) h2)) h3

set_option maxRecDepth 100000 in
theorem filter_example_1 :
    (productsFilter seededProducts (some "Pinceles") (some "5") (some "10")).data.map
        (fun p => (p.name, p.price)) =
      [("Pincel Plano N°2", 5.50), ("Pincel Redondo N°6", 7.25)] := by
  with_unfolding_all decide

set_option maxRecDepth 100000 in
theorem filter_example_2 :
    (productsFilter seededProducts (some "  Pinceles ") (some " 5") (some "1e1")).data.map
        (fun p => (p.name, p.price)) =
      [("Pincel Plano N°2", 5.50), ("Pincel Redondo N°6", 7.25)] := by
  with_unfolding_all decide

set_option maxRecDepth 100000 in
theorem filter_example_3 :
    (productsFilter seededProducts none (some "15.990000000000000001") (some "16")).data.map
        (fun p => (p.name, p.price)) = [("Pintura Acrílica Blanca", 15.99)] := by
  with_unfolding_all decide

set_option maxRecDepth 100000 in
theorem filter_example_4 :
    (productsFilter seededProducts none (some "15.9900000000001") (some "18.5")).data.map
        (fun p => p.price) = [16.80, 17.25, 18.50] := by
  with_unfolding_all decide

/-- C16: when every supplied parameter is well formed (a category that is not blank, a
minPrice and a maxPrice that isNaN and parseFloat read as the same decimal), filter answers
200 with exactly the products that satisfy the conjunction of the supplied predicates
(category equal to the trimmed value, price at least minPrice, price at most maxPrice),
each as often as in the catalog, sorted by price and then by name; with no parameter it
returns the whole catalog in that order. Prices and bounds are compared as the binary64
numbers the code compares, the stored price and parseFloat of the parameter, and for
finite numbers that comparison is the order of their values. Over the seeded catalog,
category Pinceles with minPrice 5 and maxPrice 10 returns the brushes priced 5.50 and
7.25, in that order, also with blanks around the values, and minPrice
15.990000000000000001, which parseFloat reads as 15.99, keeps the product priced 15.99. -/
theorem filter_conjunctive (allProducts : List Product) (category minPrice maxPrice : Option String)
    (hc : ∀ c, category = some c → jsTrim c.toList ≠ [])
    (hlo : ∀ s, minPrice = some s → wellFormedNumber s)
    (hhi : ∀ s, maxPrice = some s → wellFormedNumber s) :
    (productsFilter allProducts category minPrice maxPrice).status = 200 ∧
    (productsFilter allProducts category minPrice maxPrice).data.Perm
      (allProducts.filter fun p =>
        category.all (fun c => decide (p.category.toList = jsTrim c.toList)) &&
          minPrice.all (fun s => (JsParsed.toDouble (jsParseFloat s)).le (toDouble p.price)) &&
          maxPrice.all (fun s => (toDouble p.price).le (JsParsed.toDouble (jsParseFloat s)))) ∧
    (∀ p, p ∈ (productsFilter allProducts category minPrice maxPrice).data ↔
      p ∈ allProducts ∧ (∀ c, category = some c → p.category.toList = jsTrim c.toList) ∧
        (∀ s, minPrice = some s →
          (JsParsed.toDouble (jsParseFloat s)).le (toDouble p.price) = true) ∧
        (∀ s, maxPrice = some s →
          (toDouble p.price).le (JsParsed.toDouble (jsParseFloat s)) = true)) ∧
    (∀ (na : Bool) (ma : Nat) (ea : Int) (nb : Bool) (mb : Nat) (eb : Int),
      JsDouble.le (.finite na ma ea) (.finite nb mb eb) = true ↔
        (JsDouble.finite na ma ea).toRat ≤ (JsDouble.finite nb mb eb).toRat) ∧
    (productsFilter allProducts category minPrice maxPrice).data.Sorted filterOrder ∧
    (productsFilter allProducts category minPrice maxPrice).count =
      (productsFilter allProducts category minPrice maxPrice).data.length ∧
    (productsFilter allProducts none none none).data.Perm allProducts ∧
    (productsFilter allProducts none none none).data.Sorted filterOrder ∧
    (productsFilter seededProducts (some "Pinceles") (some "5") (some "10")).data.map
      (fun p => (p.name, p.price)) =
      [("Pincel Plano N°2", 5.50), ("Pincel Redondo N°6", 7.25)] ∧
    (productsFilter seededProducts (some "  Pinceles ") (some " 5") (some "1e1")).data.map
      (fun p => (p.name, p.price)) =
      [("Pincel Plano N°2", 5.50), ("Pincel Redondo N°6", 7.25)] ∧
    (productsFilter seededProducts none (some "15.990000000000000001") (some "16")).data.map
      (fun p => (p.name, p.price)) = [("Pintura Acrílica Blanca", 15.99)] ∧
    (productsFilter seededProducts none (some "15.9900000000001") (some "18.5")).data.map
      (fun p => p.price) = [16.80, 17.25, 18.50] := by
  have hfilter : (allProducts.filter fun p =>
      (whereConditions category minPrice maxPrice).all fun c => c p) =
      allProducts.filter fun p =>
        category.all (fun c => decide (p.category.toList = jsTrim c.toList)) &&
          minPrice.all (fun s => (JsParsed.toDouble (jsParseFloat s)).le (toDouble p.price)) &&
          maxPrice.all (fun s => (toDouble p.price).le (JsParsed.toDouble (jsParseFloat s))) := by
    apply List.filter_congr
    intro p _
    exact whereConditions_all category minPrice maxPrice p hc hlo hhi
  have hperm : (productsFilter allProducts category minPrice maxPrice).data.Perm
      (allProducts.filter fun p =>
        category.all (fun c => decide (p.category.toList = jsTrim c.toList)) &&
          minPrice.all (fun s => (JsParsed.toDouble (jsParseFloat s)).le (toDouble p.price)) &&
          maxPrice.all (fun s => (toDouble p.price).le (JsParsed.toDouble (jsParseFloat s)))) := by
    show (List.insertionSort _ _).Perm _
    rw [hfilter]
    exact List.perm_insertionSort _ _
  refine ⟨rfl, hperm, ?_, jsDouble_le_finite_iff, filterOrder_sorted _, rfl, ?_,
    filterOrder_sorted _, filter_example_1, filter_example_2, filter_example_3,
    filter_example_4⟩
  · intro p
    rw [hperm.mem_iff, List.mem_filter]
    simp only [Bool.and_eq_true, option_all_iff, decide_eq_true_eq, and_assoc]
  · show (List.insertionSort _ _).Perm _
    have : (allProducts.filter fun p =>
        (whereConditions none none none).all fun c => c p) = allProducts := by
      rw [List.filter_eq_self]
      intro p _
      rfl
    rw [this]
    exact List.perm_insertionSort _ _

/-- Witness of C16: category Pinceles with prices from 5 to 10 over the seeded catalog. -/
theorem filter_conjunctive_witness :
    (productsFilter seededProducts (some "Pinceles") (some "5") (some "10")).status = 200 ∧
      (productsFilter seededProducts (some "Pinceles") (some "5") (some "10")).data.Sorted
        filterOrder :=
  have h := filter_conjunctive seededProducts (some "Pinceles") (some "5") (some "10")
    (fun c hc => by cases hc; decide)
    (fun s hs => by cases hs; exact ⟨by decide, false, 5, 0, by decide, by decide⟩)
    (fun s hs => by cases hs; exact ⟨by decide, false, 10, 0, by decide, by decide⟩)
  ⟨h.1, h.2.2.2.2.1⟩

theorem whereConditions_drop_min (category maxPrice : Option String) (s : String)
    (h : jsIsNaN s = true) :
    whereConditions category (some s) maxPrice = whereConditions category none maxPrice := by
  unfold whereConditions
  by_cases hs : s = ""
  · simp [truthy, hs]
  · simp [truthy, hs, h]

theorem whereConditions_drop_max (category minPrice : Option String) (s : String)
    (h : jsIsNaN s = true) :
    whereConditions category minPrice (some s) = whereConditions category minPrice none := by
  unfold whereConditions
  by_cases hs : s = ""
  · simp [truthy, hs]
  · simp [truthy, hs, h]

/-- C17 as amended: filter never answers with a client error. A minPrice or maxPrice that
is present but not a number (isNaN) puts no condition on the price: the products, the
count and the message are those of the same request without that parameter. The filters
object of the response still shows parseFloat of the raw value, so the whole response is
that of the request without the parameter when parseFloat gives no finite number (abc),
and differs from it in that one field otherwise (12px shows 12). A product lookup whose
path id is not a number (isNaN) is answered 400 invalid product id. -/
theorem malformed_numbers_handling :
    (∀ (allProducts : List Product) (category minPrice maxPrice : Option String),
      (productsFilter allProducts category minPrice maxPrice).status = 200 ∧
      (productsFilter allProducts category minPrice maxPrice).success = true) ∧
    (∀ (allProducts : List Product) (category maxPrice : Option String) (s : String),
      jsIsNaN s = true →
      (productsFilter allProducts category (some s) maxPrice).data =
        (productsFilter allProducts category none maxPrice).data ∧
      (productsFilter allProducts category (some s) maxPrice).count =
        (productsFilter allProducts category none maxPrice).count ∧
      (productsFilter allProducts category (some s) maxPrice).message =
        (productsFilter allProducts category none maxPrice).message ∧
      (productsFilter allProducts category (some s) maxPrice).filters =
        { (productsFilter allProducts category none maxPrice).filters with
          minPrice := echoNumber (some s) } ∧
      (echoNumber (some s) = none →
        productsFilter allProducts category (some s) maxPrice =
          productsFilter allProducts category none maxPrice)) ∧
    (∀ (allProducts : List Product) (category minPrice : Option String) (s : String),
      jsIsNaN s = true →
      (productsFilter allProducts category minPrice (some s)).data =
        (productsFilter allProducts category minPrice none).data ∧
      (productsFilter allProducts category minPrice (some s)).count =
        (productsFilter allProducts category minPrice none).count ∧
      (productsFilter allProducts category minPrice (some s)).message =
        (productsFilter allProducts category minPrice none).message ∧
      (productsFilter allProducts category minPrice (some s)).filters =
        { (productsFilter allProducts category minPrice none).filters with
          maxPrice := echoNumber (some s) } ∧
      (echoNumber (some s) = none →
        productsFilter allProducts category minPrice (some s) =
          productsFilter allProducts category minPrice none)) ∧
    (jsIsNaN "abc" = true ∧ echoNumber (some "abc") = none) ∧
    (jsIsNaN "12px" = true ∧
      echoNumber (some "12px") = some (.finite false 6755399441055744 (-49)) ∧
      (JsDouble.finite false 6755399441055744 (-49)).toRat = 12 ∧
      (productsFilter seededProducts none (some "12px") none).filters.minPrice ≠
        (productsFilter seededProducts none none none).filters.minPrice) ∧
    (∀ (idMatches : String → Int → Bool) (allProducts : List Product) (id : String),
      jsIsNaN id = true → productById idMatches allProducts id = errProductIdParam) ∧
    errProductIdParam.status = 400 := by
  refine ⟨fun _ _ _ _ => ⟨rfl, rfl⟩, ?_, ?_, ⟨by decide, by decide⟩,
    ⟨by decide, by decide, ?_, by decide⟩, ?_, rfl⟩
  · intro allProducts category maxPrice s h
    have hw := whereConditions_drop_min category maxPrice s h
    refine ⟨?_, ?_, ?_, ?_, ?_⟩
    · simp only [productsFilter, hw]
    · simp only [productsFilter, hw]
    · simp only [productsFilter, hw]
    · simp only [productsFilter]
    · intro he
      simp only [productsFilter, hw, he]
      rfl
  · intro allProducts category minPrice s h
    have hw := whereConditions_drop_max category minPrice s h
    refine ⟨?_, ?_, ?_, ?_, ?_⟩
    · simp only [productsFilter, hw]
    · simp only [productsFilter, hw]
    · simp only [productsFilter, hw]
    · simp only [productsFilter]
    · intro he
      simp only [productsFilter, hw, he]
      rfl
  · norm_num [JsDouble.toRat]
  · intro idMatches allProducts id h
    simp [productById, h]

/-- C17 fails as stated: filter with minPrice abc is answered 200 with all 25 seeded
products, the price condition dropped, and not with a client error. -/
theorem filter_malformed_min_price_counterexample :
    jsIsNaN "abc" = true ∧
      (productsFilter seededProducts none (some "abc") none).status = 200 ∧
      (productsFilter seededProducts none (some "abc") none).count = 25 := by
  refine ⟨by decide, rfl, ?_⟩
  simp only [productsFilter, whereConditions_drop_min none none "abc" (by decide),
    List.length_insertionSort]
  have : (seededProducts.filter fun p =>
      (whereConditions none none none).all fun c => c p) = seededProducts := by
    rw [List.filter_eq_self]
    intro p _
    rfl
  rw [this]
  rfl

theorem jsSplit_no_sep {sep : Char} {cs : List Char} (h : ∀ c ∈ cs, c ≠ sep) :
    jsSplit sep cs = [cs] := by
  induction cs with
  | nil => rfl
  | cons c cs ih =>
    have hc : c ≠ sep := h c (List.mem_cons_self _ _)
    have ih' := ih fun d hd => h d (List.mem_cons_of_mem _ hd)
    simp [jsSplit, hc, ih']

theorem jsSplit_append_sep {sep : Char} {cs : List Char} (h : ∀ c ∈ cs, c ≠ sep)
    (rest : List Char) : jsSplit sep (cs ++ sep :: rest) = cs :: jsSplit sep rest := by
  induction cs with
  | nil => simp [jsSplit]
  | cons c cs ih =>
    have hc : c ≠ sep := h c (List.mem_cons_self _ _)
    have ih' := ih fun d hd => h d (List.mem_cons_of_mem _ hd)
    simp [jsSplit, hc, ih']

theorem bearerToken_no_space {h : String} (hs : ∀ c ∈ h.toList, c ≠ ' ') :
    truthy (bearerToken (some h)) = none := by
  by_cases he : h = ""
  · simp [bearerToken, he, truthy]
  · have hs' : ∀ c ∈ h.data, c ≠ ' ' := hs
    simp [bearerToken, he, jsSplit_no_sep hs', truthy]

theorem bearerToken_scheme_only {h : String} (hs : ∀ c ∈ h.toList, c ≠ ' ') :
    truthy (bearerToken (some (h ++ " "))) = none := by
  have he : h ++ " " ≠ "" := by
    intro hc
    have := congrArg String.length hc
    simp only [String.length_append, String.length_empty] at this
    have h1 : " ".length = 1 := by decide
    omega
  have hl : (h ++ " ").toList = h.toList ++ ' ' :: [] := by simp
  simp only [bearerToken, if_neg he, hl, jsSplit_append_sep hs]
  simp [jsSplit, truthy]

theorem cartRoute_of_error {verify : String → Option TokenUser} {authHeader : Option String}
    {response : Response} (h : authenticateToken verify authHeader = .error response) (db : Db)
    (request : CartRequest) : cartRoute verify db authHeader request = (.message response, db) := by
  simp [cartRoute, h]

/-- C21: for every cart route, a request without a bearer token (no Authorization header,
an empty one, a header that is only a scheme, or a scheme and a space with nothing after
it) gets the 401 response of the middleware, which is not a 500, and the stored state is
as before; a request whose token the verifier rejects gets the 403 response with the state
as before; and only a request whose token is verified reaches the handler, with the user
id of the token. -/
theorem cart_requires_token (verify : String → Option TokenUser) (db : Db)
    (request : CartRequest) :
    (∀ authHeader, truthy (bearerToken authHeader) = none →
      cartRoute verify db authHeader request = (.message errTokenRequired, db)) ∧
    truthy (bearerToken none) = none ∧ truthy (bearerToken (some "")) = none ∧
    (∀ scheme : String, (∀ c ∈ scheme.toList, c ≠ ' ') →
      truthy (bearerToken (some scheme)) = none ∧
      truthy (bearerToken (some (scheme ++ " "))) = none) ∧
    (CartReply.message errTokenRequired).status = 401 ∧
    (∀ authHeader token, truthy (bearerToken authHeader) = some token → verify token = none →
      cartRoute verify db authHeader request = (.message errTokenInvalid, db)) ∧
    (CartReply.message errTokenInvalid).status = 403 ∧
    (∀ authHeader token user, truthy (bearerToken authHeader) = some token →
      verify token = some user →
      cartRoute verify db authHeader request = cartHandler db user.id request) := by
  refine ⟨?_, rfl, rfl, ?_, rfl, ?_, rfl, ?_⟩
  · intro authHeader h
    exact cartRoute_of_error (by simp [authenticateToken, h]) db request
  · intro scheme hs
    exact ⟨bearerToken_no_space hs, bearerToken_scheme_only hs⟩
  · intro authHeader token h hv
    exact cartRoute_of_error (by simp [authenticateToken, h, hv]) db request
  · intro authHeader token user h hv
    simp [cartRoute, authenticateToken, h, hv]

/-- C22: ADD_TO_CART with product p and quantity q, where an absent q counts as 1. If
some item has the id of p, the result is the old list in the old order, where the items
of that id have their quantity raised by q and every other item is as it was, so the
products and the length are the same. If no item has the id of p, the result is the old
list with one item appended, holding the fields of p and the quantity q. -/
theorem add_to_cart_spec (state : CartState) (p : Product) (quantity : Option Int) :
    ((∃ item ∈ state.items, item.product.id = p.id) →
      (cartReducer state (.ADD_TO_CART p quantity)).items =
          state.items.map (fun item =>
            if item.product.id = p.id then
              { item with quantity := item.quantity + quantity.getD 1 }
            else item) ∧
        (cartReducer state (.ADD_TO_CART p quantity)).items.map (fun item => item.product) =
          state.items.map (fun item => item.product) ∧
        (cartReducer state (.ADD_TO_CART p quantity)).items.length = state.items.length) ∧
    ((∀ item ∈ state.items, item.product.id ≠ p.id) →
      (cartReducer state (.ADD_TO_CART p quantity)).items =
        state.items ++ [⟨p, quantity.getD 1⟩]) ∧
    (quantity = none →
      cartReducer state (.ADD_TO_CART p quantity) = cartReducer state (.ADD_TO_CART p (some 1))) := by
  refine ⟨?_, ?_, ?_⟩
  · rintro ⟨item, hi, hid⟩
    cases hf : state.items.find? fun item => decide (item.product.id = p.id) with
    | none =>
      rw [List.find?_eq_none] at hf
      have := hf item hi
      simp [hid] at this
    | some e =>
      have heq : (cartReducer state (.ADD_TO_CART p quantity)).items =
          state.items.map (fun item =>
            if item.product.id = p.id then
              { item with quantity := item.quantity + quantity.getD 1 }
            else item) := by
        simp only [cartReducer, hf]
      refine ⟨heq, ?_, ?_⟩
      · rw [heq, List.map_map]
        apply List.map_congr_left
        intro a _
        by_cases ha : a.product.id = p.id <;> simp [ha]
      · rw [heq, List.length_map]
  · intro h
    have hf : (state.items.find? fun item => decide (item.product.id = p.id)) = none := by
      rw [List.find?_eq_none]
      intro a ha
      simpa using h a ha
    simp only [cartReducer, hf]
  · rintro rfl; rfl

/-- C23: UPDATE_QUANTITY for an id and a quantity q. For q at most 0 the result holds no
item of that id. For q above 0 every item of the old state with that id is in the result
with quantity q, and every item of that id in the result has quantity q. In both cases the
items of other ids in the result are the items of other ids with positive quantity of the
old state, unchanged and in the same order. -/
theorem update_quantity_spec (state : CartState) (id q : Int) :
    (q ≤ 0 → ∀ item ∈ (cartReducer state (.UPDATE_QUANTITY id q)).items,
      item.product.id ≠ id) ∧
    (0 < q →
      (∀ item ∈ state.items, item.product.id = id →
        ({ item with quantity := q } : ClientItem) ∈
          (cartReducer state (.UPDATE_QUANTITY id q)).items) ∧
      (∀ item ∈ (cartReducer state (.UPDATE_QUANTITY id q)).items,
        item.product.id = id → item.quantity = q)) ∧
    ((cartReducer state (.UPDATE_QUANTITY id q)).items.filter fun item =>
        !decide (item.product.id = id)) =
      (state.items.filter fun item =>
        !decide (item.product.id = id) && decide (item.quantity > 0)) := by
  refine ⟨?_, ?_, ?_⟩
  · intro hq item hi hid
    simp only [cartReducer, List.mem_filter, List.mem_map, decide_eq_true_eq] at hi
    obtain ⟨⟨a, _, rfl⟩, hpos⟩ := hi
    by_cases ha : a.product.id = id
    · simp only [ha, if_true] at hpos
      have : max 0 q = 0 := max_eq_left hq
      omega
    · simp only [ha, if_false] at hid
  · intro hq
    have hmax : max 0 q = q := max_eq_right hq.le
    refine ⟨?_, ?_⟩
    · intro item hi hid
      simp only [cartReducer, List.mem_filter, List.mem_map, decide_eq_true_eq]
      exact ⟨⟨item, hi, by simp [hid, hmax]⟩, hq⟩
    · intro item hi hid
      simp only [cartReducer, List.mem_filter, List.mem_map, decide_eq_true_eq] at hi
      obtain ⟨⟨a, _, rfl⟩, _⟩ := hi
      by_cases ha : a.product.id = id
      · simp [ha, hmax]
      · simp only [ha, if_false] at hid
  · simp only [cartReducer]
    induction state.items with
    | nil => rfl
    | cons a l ih =>
      simp only [List.map_cons, List.filter_cons] at ih ⊢
      by_cases ha : a.product.id = id
      · by_cases hq : max 0 q > 0 <;> simp [ha, hq, ih]
      · by_cases hq : a.quantity > 0 <;> simp [ha, hq, ih]

theorem ids_of_add_existing (items : List ClientItem) (pid q : Int) :
    (items.map (fun item =>
      if item.product.id = pid then { item with quantity := item.quantity + q }
      else item)).map (fun item => item.product.id) = items.map fun item => item.product.id := by
  rw [List.map_map]
  apply List.map_congr_left
  intro a _
  by_cases ha : a.product.id = pid <;> simp [ha]

theorem ids_of_update (items : List ClientItem) (pid q : Int) :
    (items.map (fun item =>
      if item.product.id = pid then { item with quantity := q }
      else item)).map (fun item => item.product.id) = items.map fun item => item.product.id := by
  rw [List.map_map]
  apply List.map_congr_left
  intro a _
  by_cases ha : a.product.id = pid <;> simp [ha]

/-- C26: in every state the four editing actions produce from the empty cart, no two
items have the same id. -/
theorem mirror_keyed_by_id (state : CartState) (h : MirrorReachable state) :
    (state.items.map fun item => item.product.id).Nodup := by
  induction h with
  | init => simp [initialState]
  | @add state p q _ ih =>
    cases hf : state.items.find? fun item => decide (item.product.id = p.id) with
    | none =>
      simp only [cartReducer, hf, List.map_append, List.map_cons, List.map_nil]
      rw [List.find?_eq_none] at hf
      refine List.Nodup.append ih (List.nodup_singleton _) ?_
      intro x hx hx'
      rw [List.mem_singleton] at hx'
      obtain ⟨a, ha, rfl⟩ := List.mem_map.1 hx
      have := hf a ha
      simp [hx'] at this
    | some e =>
      simp only [cartReducer, hf]
      rw [ids_of_add_existing]
      exact ih
  | @remove state payload _ ih =>
    simp only [cartReducer]
    exact ih.sublist (List.Sublist.map _ (List.filter_sublist _))
  | @update state id q _ ih =>
    simp only [cartReducer]
    refine List.Nodup.sublist (List.Sublist.map _ (List.filter_sublist _)) ?_
    rw [ids_of_update]
    exact ih
  | clear _ _ => simp [cartReducer]

theorem mirror_keyed_by_id_witness :
    MirrorReachable (cartReducer (cartReducer initialState (.ADD_TO_CART product5 none))
      (.ADD_TO_CART product6 (some 2))) ∧
    ((cartReducer (cartReducer initialState (.ADD_TO_CART product5 none))
      (.ADD_TO_CART product6 (some 2))).items.map fun item => item.product.id).Nodup :=
  ⟨.add product6 (some 2) (.add product5 none .init),
    mirror_keyed_by_id _ (.add product6 (some 2) (.add product5 none .init))⟩

theorem foldl_add_map {α M : Type} [AddCommMonoid M] (f : α → M) (l : List α) (a : M) :
    l.foldl (fun t x => t + f x) a = a + (l.map f).sum := by
  induction l generalizing a with
  | nil => simp
  | cons x l ih => simp [ih, add_assoc]

theorem getTotalItems_eq_sum (state : CartState) :
    getTotalItems state = (state.items.map fun item => item.quantity).sum := by
  unfold getTotalItems
  rw [foldl_add_map (fun item : ClientItem => item.quantity), zero_add]

theorem sum_map_add_existing {M : Type} [AddCommMonoid M] (w : ClientItem → M)
    (pid q : Int) (d : M) :
    ∀ (items : List ClientItem), (items.map fun item => item.product.id).Nodup →
    ∀ e ∈ items, e.product.id = pid →
    w { e with quantity := e.quantity + q } = w e + d →
    ((items.map fun item =>
        if item.product.id = pid then { item with quantity := item.quantity + q }
        else item).map w).sum = (items.map w).sum + d := by
  intro items
  induction items with
  | nil => intro _ e he; cases he
  | cons a l ih =>
    intro hn e he hid hw
    rw [List.map_cons, List.nodup_cons] at hn
    by_cases ha : a.product.id = pid
    · have hae : e = a := by
        rcases List.mem_cons.1 he with h | h
        · exact h
        · exfalso
          apply hn.1
          rw [ha, ← hid]
          exact List.mem_map.2 ⟨e, h, rfl⟩
      subst hae
      have hl : (l.map fun item =>
          if item.product.id = pid then { item with quantity := item.quantity + q }
          else item) = l := by
        conv_rhs => rw [← List.map_id l]
        apply List.map_congr_left
        intro c hc
        have : c.product.id ≠ pid := by
          intro hcp
          apply hn.1
          rw [ha, ← hcp]
          exact List.mem_map.2 ⟨c, hc, rfl⟩
        simp [this]
      simp only [List.map_cons, if_pos ha, hl, List.sum_cons, hw]
      abel
    · have hel : e ∈ l := by
        rcases List.mem_cons.1 he with h | h
        · exact absurd (h ▸ hid) ha
        · exact h
      simp only [List.map_cons, if_neg ha, List.sum_cons, ih hn.2 e hel hid hw, add_assoc]

theorem map_raise_of_foreign (l : List ClientItem) (pid q : Int)
    (h : ∀ c ∈ l, c.product.id ≠ pid) :
    (l.map fun item =>
      if item.product.id = pid then { item with quantity := item.quantity + q } else item) = l := by
  conv_rhs => rw [← List.map_id l]
  apply List.map_congr_left
  intro c hc
  simp [h c hc]

set_option maxRecDepth 100000 in
/-- C24, the claim as stated fails twice over. The sum is taken in binary64 arithmetic:
with one unit of the product priced 15.99 in the cart, adding six more gives the total
15.99 * 7 = 111.93, while the old total plus 15.99 * 6 is 111.92999999999999, and the
total of three units at 16.80 is 50.400000000000006, which is not the Number 50.4. And an
item keeps the price it was added with: with one unit of product 5 at 16.80 in the cart,
adding one unit of the product now priced 20 gives the total of two units at 16.80, not
the old total plus 20. -/
theorem totals_growth_counterexample :
    getTotalPrice (cartReducer ⟨[⟨product1, 1⟩]⟩ (.ADD_TO_CART product1 (some 6))) =
      .finite false 7876373535805932 (-46) ∧
    (getTotalPrice ⟨[⟨product1, 1⟩]⟩).add
        ((toDouble product1.price).mul (JsDouble.ofInt 6)) =
      .finite false 7876373535805931 (-46) ∧
    toDouble 111.93 = .finite false 7876373535805932 (-46) ∧
    JsDouble.le (.finite false 7876373535805932 (-46))
      (.finite false 7876373535805931 (-46)) = false ∧
    getTotalPrice ⟨[⟨product5, 3⟩]⟩ = .finite false 7093169413108532 (-47) ∧
    toDouble 50.4 = .finite false 7093169413108531 (-47) ∧
    getTotalPrice (cartReducer ⟨[⟨product5, 1⟩]⟩
        (.ADD_TO_CART { product5 with price := 20 } (some 1))) =
      getTotalPrice ⟨[⟨product5, 2⟩]⟩ ∧
    getTotalPrice (cartReducer ⟨[⟨product5, 1⟩]⟩
        (.ADD_TO_CART { product5 with price := 20 } (some 1))) ≠
      (getTotalPrice ⟨[⟨product5, 1⟩]⟩).add ((toDouble 20).mul (JsDouble.ofInt 1)) :=
  ⟨by with_unfolding_all rfl, by with_unfolding_all rfl, by with_unfolding_all rfl,
    by with_unfolding_all decide, by with_unfolding_all rfl, by with_unfolding_all rfl,
    by with_unfolding_all rfl, by with_unfolding_all decide⟩

/-- C24, amended: in every state getTotalItems is the sum of the quantities, 0 for the
empty cart, and getTotalPrice is the Number 0 for the empty cart and, for a cart with a
last item, the total of the items before it plus the price the item holds times its
quantity, both operations rounded to binary64. In a state without two items of one id,
ADD_TO_CART of product p with quantity q (1 when absent) raises the item total by exactly
q; when no item has the id of p the new price total is the old one plus the price of p
times q, rounded; when an item has it, the total is summed again with the price that
item holds times its raised quantity in its place. -/
theorem totals_are_sums (state : CartState) (p : Product) (quantity : Option Int) :
    getTotalItems state = (state.items.map fun item => item.quantity).sum ∧
    getTotalItems initialState = 0 ∧ getTotalPrice initialState = JsDouble.ofInt 0 ∧
    (∀ items item, getTotalPrice ⟨items ++ [item]⟩ =
      (getTotalPrice ⟨items⟩).add
        ((toDouble item.product.price).mul (JsDouble.ofInt item.quantity))) ∧
    ((state.items.map fun item => item.product.id).Nodup →
      getTotalItems (cartReducer state (.ADD_TO_CART p quantity)) =
          getTotalItems state + quantity.getD 1 ∧
        ((∀ item ∈ state.items, item.product.id ≠ p.id) →
          getTotalPrice (cartReducer state (.ADD_TO_CART p quantity)) =
            (getTotalPrice state).add
              ((toDouble p.price).mul (JsDouble.ofInt (quantity.getD 1)))) ∧
        (∀ front e back, state.items = front ++ e :: back → e.product.id = p.id →
          getTotalPrice (cartReducer state (.ADD_TO_CART p quantity)) =
            back.foldl
              (fun total item =>
                total.add ((toDouble item.product.price).mul (JsDouble.ofInt item.quantity)))
              ((getTotalPrice ⟨front⟩).add
                ((toDouble e.product.price).mul
                  (JsDouble.ofInt (e.quantity + quantity.getD 1)))))) := by
  refine ⟨getTotalItems_eq_sum state, rfl, rfl, ?_, ?_⟩
  · intro items item
    simp only [getTotalPrice, List.foldl_append, List.foldl_cons, List.foldl_nil]
  intro hn
  have hnew : (∀ item ∈ state.items, item.product.id ≠ p.id) →
      (cartReducer state (.ADD_TO_CART p quantity)).items =
        state.items ++ [⟨p, quantity.getD 1⟩] := by
    intro h
    have hf : (state.items.find? fun item => decide (item.product.id = p.id)) = none := by
      rw [List.find?_eq_none]
      intro a ha
      simpa using h a ha
    simp only [cartReducer, hf]
  have hold : ∀ e ∈ state.items, e.product.id = p.id →
      (cartReducer state (.ADD_TO_CART p quantity)).items =
        state.items.map (fun item =>
          if item.product.id = p.id then
            { item with quantity := item.quantity + quantity.getD 1 }
          else item) := by
    intro e he hid
    cases hf : state.items.find? fun item => decide (item.product.id = p.id) with
    | none =>
      rw [List.find?_eq_none] at hf
      have := hf e he
      simp [hid] at this
    | some _ => simp only [cartReducer, hf]
  refine ⟨?_, ?_, ?_⟩
  · by_cases hex : ∃ e ∈ state.items, e.product.id = p.id
    · obtain ⟨e, he, hid⟩ := hex
      rw [getTotalItems_eq_sum, getTotalItems_eq_sum, hold e he hid]
      exact sum_map_add_existing (fun item => item.quantity) p.id _ _ state.items hn e he hid rfl
    · have h : ∀ item ∈ state.items, item.product.id ≠ p.id := fun item hi hid =>
        hex ⟨item, hi, hid⟩
      rw [getTotalItems_eq_sum, getTotalItems_eq_sum, hnew h]
      simp
  · intro h
    simp only [getTotalPrice, hnew h, List.foldl_append, List.foldl_cons, List.foldl_nil]
  · intro front e back heq hid
    have he : e ∈ state.items := by rw [heq]; simp
    rw [heq, List.map_append, List.map_cons, List.nodup_append] at hn
    obtain ⟨_, hn2, hdis⟩ := hn
    rw [List.nodup_cons] at hn2
    have hfront : ∀ c ∈ front, c.product.id ≠ p.id := by
      intro c hc hcp
      exact hdis (List.mem_map.2 ⟨c, hc, rfl⟩) (by rw [hcp, ← hid]; exact List.mem_cons_self _ _)
    have hback : ∀ c ∈ back, c.product.id ≠ p.id := by
      intro c hc hcp
      exact hn2.1 (by rw [hid, ← hcp]; exact List.mem_map.2 ⟨c, hc, rfl⟩)
    simp only [getTotalPrice, hold e he hid, heq, List.map_append, List.map_cons,
      map_raise_of_foreign front p.id _ hfront, map_raise_of_foreign back p.id _ hback,
      if_pos hid, List.foldl_append, List.foldl_cons]

set_option maxRecDepth 100000 in
/-- Witness of C24: three more units of product 5 in the sample cart. -/
theorem totals_are_sums_witness :
    (sampleCart.items.map fun item => item.product.id).Nodup ∧
    getTotalItems (cartReducer sampleCart (.ADD_TO_CART product5 (some 3))) =
      getTotalItems sampleCart + 3 ∧
    getTotalPrice (cartReducer sampleCart (.ADD_TO_CART product5 (some 3))) =
      [(⟨product6, 1⟩ : ClientItem)].foldl
        (fun total item =>
          total.add ((toDouble item.product.price).mul (JsDouble.ofInt item.quantity)))
        ((getTotalPrice ⟨[]⟩).add
          ((toDouble product5.price).mul (JsDouble.ofInt (2 + 3)))) :=
  have h := (totals_are_sums sampleCart product5 (some 3)).2.2.2.2 (by decide)
  ⟨by decide, h.1, h.2.2 [] ⟨product5, 2⟩ [⟨product6, 1⟩] rfl rfl⟩

/-- C25, the claim as stated fails: from the empty cart, ADD_TO_CART of product 5 with
quantity 0 leaves an item of quantity 0, with quantity -3 an item of quantity -3, and
two units followed by -2 an item of quantity 0; the reducer stores the quantity it is
given. -/
theorem add_nonpositive_quantity_counterexample :
    MirrorReachable (cartReducer initialState (.ADD_TO_CART product5 (some 0))) ∧
    (cartReducer initialState (.ADD_TO_CART product5 (some 0))).items = [⟨product5, 0⟩] ∧
    (cartReducer initialState (.ADD_TO_CART product5 (some (-3)))).items = [⟨product5, -3⟩] ∧
    (cartReducer (cartReducer initialState (.ADD_TO_CART product5 (some 2)))
      (.ADD_TO_CART product5 (some (-2)))).items = [⟨product5, 0⟩] :=
  ⟨.add product5 (some 0) .init, rfl, rfl, rfl⟩

/-- C25, amended: starting from the empty cart, after every sequence of ADD_TO_CART with
a quantity of at least 1 (or none, which counts as 1), REMOVE_FROM_CART, UPDATE_QUANTITY
with an arbitrary integer quantity, and CLEAR_CART, every item in the state has a
quantity of at least 1. -/
theorem mirror_quantities_positive (state : CartState) (h : MirrorReachablePos state) :
    ∀ item ∈ state.items, 1 ≤ item.quantity := by
  induction h with
  | init => intro item hi; cases hi
  | @add state p q hq _ ih =>
    intro item hi
    cases hf : state.items.find? fun item => decide (item.product.id = p.id) with
    | none =>
      simp only [cartReducer, hf, List.mem_append, List.mem_singleton] at hi
      rcases hi with hi | rfl
      · exact ih item hi
      · exact hq
    | some e =>
      simp only [cartReducer, hf, List.mem_map] at hi
      obtain ⟨a, ha, rfl⟩ := hi
      have := ih a ha
      by_cases hid : a.product.id = p.id
      · simp only [hid, if_true]; omega
      · simp only [hid, if_false]; exact this
  | @remove state payload _ ih =>
    intro item hi
    simp only [cartReducer, List.mem_filter] at hi
    exact ih item hi.1
  | @update state id q _ ih =>
    intro item hi
    simp only [cartReducer, List.mem_filter, decide_eq_true_eq] at hi
    omega
  | clear _ _ => intro item hi; simp [cartReducer] at hi

/-- Witness of C25: two units of product 5, three more, then the quantity set to -4 for
product 6 and to 1 for product 5. -/
theorem mirror_quantities_positive_witness :
    MirrorReachablePos
      (cartReducer (cartReducer (cartReducer (cartReducer initialState
        (.ADD_TO_CART product5 (some 2))) (.ADD_TO_CART product5 (some 3)))
        (.UPDATE_QUANTITY 6 (-4))) (.UPDATE_QUANTITY 5 1)) ∧
    ∀ item ∈ (cartReducer (cartReducer (cartReducer (cartReducer initialState
        (.ADD_TO_CART product5 (some 2))) (.ADD_TO_CART product5 (some 3)))
        (.UPDATE_QUANTITY 6 (-4))) (.UPDATE_QUANTITY 5 1)).items, 1 ≤ item.quantity :=
  ⟨.update 5 1 (.update 6 (-4) (.add product5 (some 3) (by decide)
      (.add product5 (some 2) (by decide) .init))),
    mirror_quantities_positive _ (.update 5 1 (.update 6 (-4) (.add product5 (some 3) (by decide)
      (.add product5 (some 2) (by decide) .init))))⟩

/-- C27: the client keeps its token when the server rejects it. The middleware answers a
token that fails verification (an expired one included) with its 403 response. On that
response the method request of the API service throws "Acceso denegado" and leaves the
token in memory and in storage as they were, and getProfile of the auth service reports
the server's message and leaves both of its storage keys as they were; only on the 401
response, which the server sends for a missing token, does the API service discard its
token. -/
theorem rejected_token_not_discarded (service : ApiService) (auth : AuthService) :
    (∀ verify authHeader token, truthy (bearerToken authHeader) = some token →
      verify token = none → authenticateToken verify authHeader = .error errTokenInvalid) ∧
    errTokenInvalid.toHttp =
      ⟨403, false, some "Token inválido", some "El token de autenticación no es válido",
        none⟩ ∧
    service.request errTokenInvalid.toHttp = (service, .error "Acceso denegado") ∧
    auth.getProfile errTokenInvalid.toHttp =
      (auth, ⟨false, none, some "El token de autenticación no es válido"⟩) ∧
    service.request errTokenRequired.toHttp =
      (⟨none, none⟩, .error "Token requerido o inválido") := by
  refine ⟨?_, by decide, rfl, rfl, rfl⟩
  intro verify authHeader token h hv
  simp [authenticateToken, h, hv]

theorem cartRemove_unchanged_or_valid (db : Db) (u id : Int) :
    ((cartRemove db u id).2 = db ∧ (cartRemove db u id).1.success = false) ∨
    ∃ r, ((joinProducts db).find? fun r =>
        decide (r.1.id = id) && decide (r.1.user_id = u)) = some r ∧
      (cartRemove db u id).1.success = true ∧
      (cartRemove db u id).2 =
        { db with cart_items := db.cart_items.filter fun ci => !decide (ci.id = id) } := by
  cases hr : (joinProducts db).find? fun r =>
      decide (r.1.id = id) && decide (r.1.user_id = u) with
  | none => left; simp [cartRemove, hr, errItemNotFound]
  | some r => right; exact ⟨r, rfl, by simp [cartRemove, hr], by simp [cartRemove, hr]⟩

theorem cartClear_unchanged_or_valid (db : Db) (u : Int) :
    ((cartClear db u).2 = db ∧ (cartClear db u).1.success = false) ∨
    ((cartClear db u).1.success = true ∧
      (cartClear db u).2 =
        { db with cart_items := db.cart_items.filter fun ci => !decide (ci.user_id = u) }) := by
  unfold cartClear
  simp only
  split
  · left; exact ⟨rfl, rfl⟩
  · right; exact ⟨rfl, rfl⟩

/-- C28: a request to add, update, remove or clear that is answered with an error (a
response whose `success` is false, as the responses for an invalid product id, an invalid
quantity, an unknown product, insufficient stock, an item not found and an empty cart all
are) leaves the stored state, and so the whole table cart_items, as it was. -/
theorem error_leaves_cart_unchanged (db : Db) (u : Int) :
    (∀ b t, (cartAdd db u b t).1.success = false → (cartAdd db u b t).2 = db) ∧
    (∀ id q, (cartUpdate db u id q).1.success = false → (cartUpdate db u id q).2 = db) ∧
    (∀ id, (cartRemove db u id).1.success = false → (cartRemove db u id).2 = db) ∧
    ((cartClear db u).1.success = false → (cartClear db u).2 = db) ∧
    errProductId.success = false ∧ errQuantity.success = false ∧
    errProductNotFound.success = false ∧ (∀ s, (errStock s).success = false) ∧
    (∀ s, (errStockMerge s).success = false) ∧ errItemNotFound.success = false ∧
    errEmptyCart.success = false := by
  refine ⟨?_, ?_, ?_, ?_, rfl, rfl, rfl, fun _ => rfl, fun _ => rfl, rfl, rfl⟩
  · intro b t h
    rcases cartAdd_unchanged_or_valid db u b t with h1 | ⟨pid, qty, product, h1, h2, h3, h4, h5, h6⟩
    · exact h1.1
    · have hv := @cartAdd_of_valid db u b t pid qty product h1 h2 h3 h4 h5 h6
      rw [hv] at h ⊢
      cases hf : db.cart_items.find? fun ci =>
          decide (ci.user_id = u) && decide (ci.product_id = pid) with
      | none => simp [hf] at h
      | some e =>
        by_cases hm : e.quantity + qty > product.stock
        · simp [hf, hm]
        · simp [hf, hm] at h
  · intro id q h
    rcases cartUpdate_unchanged_or_valid db u id q with h1 | ⟨qty, r, h1, h2, h3, h4⟩
    · exact h1.1
    · rw [cartUpdate_of_valid h1 h2 h3 h4] at h
      simp at h
  · intro id h
    rcases cartRemove_unchanged_or_valid db u id with h1 | ⟨r, _, h2, _⟩
    · exact h1.1
    · rw [h2] at h; cases h
  · intro h
    rcases cartClear_unchanged_or_valid db u with h1 | ⟨h2, _⟩
    · exact h1.1
    · rw [h2] at h; cases h

theorem filter_joinProducts (db : Db) (v : Int) :
    ((joinProducts db).filter fun r => decide (r.1.user_id = v)) =
      joinProducts
        { db with cart_items := db.cart_items.filter fun ci => decide (ci.user_id = v) } := by
  unfold joinProducts
  simp only
  induction db.cart_items with
  | nil => rfl
  | cons a l ih =>
    by_cases ha : a.user_id = v
    · simp [List.filter_cons, List.flatMap_cons, ha, ih, List.filter_map, Function.comp_def]
    · simp [List.filter_cons, List.flatMap_cons, ha, ih, List.filter_map, Function.comp_def]

theorem sameCartFor_of_filter {db db' : Db} {v : Int} (hp : db'.products = db.products)
    (hf : (db'.cart_items.filter fun ci => decide (ci.user_id = v)) =
      (db.cart_items.filter fun ci => decide (ci.user_id = v))) :
    SameCartFor v db db' := by
  have hj : ((joinProducts db').filter fun r => decide (r.1.user_id = v)) =
      ((joinProducts db).filter fun r => decide (r.1.user_id = v)) := by
    rw [filter_joinProducts, filter_joinProducts]
    simp only [joinProducts, hp, hf]
  exact ⟨hf, by simp only [cartGet, cartRows, hj], by simp only [cartSummary, hj],
    by simp only [cartValidate, hj]⟩

theorem filter_user_setQuantity {items : List CartItem} {id q v : Int}
    (h : ∀ c ∈ items, c.id = id → c.user_id ≠ v) :
    ((setQuantity items id q).filter fun ci => decide (ci.user_id = v)) =
      (items.filter fun ci => decide (ci.user_id = v)) := by
  induction items with
  | nil => rfl
  | cons a l ih =>
    have ih' := ih fun c hc => h c (List.mem_cons_of_mem _ hc)
    simp only [setQuantity, List.map_cons, List.filter_cons] at ih' ⊢
    by_cases ha : a.id = id
    · have hv := h a (List.mem_cons_self _ _) ha
      simp [ha, hv, ih']
    · simp [ha, ih']

theorem filter_user_remove {items : List CartItem} {id v : Int}
    (h : ∀ c ∈ items, c.id = id → c.user_id ≠ v) :
    ((items.filter fun ci => !decide (ci.id = id)).filter fun ci => decide (ci.user_id = v)) =
      (items.filter fun ci => decide (ci.user_id = v)) := by
  rw [List.filter_filter]
  apply List.filter_congr
  intro c hc
  by_cases hid : c.id = id
  · simp [hid, h c hc hid]
  · simp [hid]

theorem foreign_of_row {items : List CartItem} (hn : (items.map fun ci => ci.id).Nodup)
    {e : CartItem} (he : e ∈ items) {v : Int} (hv : e.user_id ≠ v) :
    ∀ c ∈ items, c.id = e.id → c.user_id ≠ v := by
  intro c hc hid
  rw [eq_of_id_eq hn hc he hid]
  exact hv

/-- C29: in a state whose cart rows have distinct ids, for distinct users u and v, a
request of u to add, update, remove or clear, whatever its parameters, leaves the rows of
v in cart_items (and so their quantities) as they were, and the results of Get cart,
Summary and Validate cart for v are the same before and after. -/
theorem cart_isolation (db : Db) (hn : (db.cart_items.map fun ci => ci.id).Nodup)
    (u v : Int) (huv : u ≠ v) :
    (∀ b t, SameCartFor v db (cartAdd db u b t).2) ∧
    (∀ id q, SameCartFor v db (cartUpdate db u id q).2) ∧
    (∀ id, SameCartFor v db (cartRemove db u id).2) ∧
    SameCartFor v db (cartClear db u).2 := by
  have hrefl : SameCartFor v db db := ⟨rfl, rfl, rfl, rfl⟩
  refine ⟨?_, ?_, ?_, ?_⟩
  · intro b t
    rcases cartAdd_unchanged_or_valid db u b t with h1 | ⟨pid, qty, product, h1, h2, h3, h4, h5, h6⟩
    · rw [h1.1]; exact hrefl
    · rw [@cartAdd_of_valid db u b t pid qty product h1 h2 h3 h4 h5 h6]
      cases hf : db.cart_items.find? fun ci =>
          decide (ci.user_id = u) && decide (ci.product_id = pid) with
      | none =>
        refine sameCartFor_of_filter ?_ ?_
        · rfl
        · simp [List.filter_append, List.filter_cons, huv]
      | some e =>
        by_cases hm : e.quantity + qty > product.stock
        · simp only [hm, if_true]; exact hrefl
        · simp only [hm, if_false]
          refine sameCartFor_of_filter ?_ ?_
          · rfl
          have he := List.mem_of_find?_eq_some hf
          have hp := List.find?_some hf
          simp only [Bool.and_eq_true, decide_eq_true_eq] at hp
          exact filter_user_setQuantity (foreign_of_row hn he (by rw [hp.1]; exact huv))
  · intro id q
    rcases cartUpdate_unchanged_or_valid db u id q with h1 | ⟨qty, r, h1, h2, h3, h4⟩
    · rw [h1.1]; exact hrefl
    · rw [cartUpdate_of_valid h1 h2 h3 h4]
      obtain ⟨hr1, _, _, hr4, hr5⟩ := joinProducts_find h3
      refine sameCartFor_of_filter ?_ ?_
      · rfl
      have := foreign_of_row hn hr1 (v := v) (by rw [hr5]; exact huv)
      rw [hr4] at this
      exact filter_user_setQuantity this
  · intro id
    rcases cartRemove_unchanged_or_valid db u id with h1 | ⟨r, h3, _, h2⟩
    · rw [h1.1]; exact hrefl
    · rw [h2]
      obtain ⟨hr1, _, _, hr4, hr5⟩ := joinProducts_find h3
      refine sameCartFor_of_filter ?_ ?_
      · rfl
      have := foreign_of_row hn hr1 (v := v) (by rw [hr5]; exact huv)
      rw [hr4] at this
      exact filter_user_remove this
  · rcases cartClear_unchanged_or_valid db u with h1 | ⟨_, h2⟩
    · rw [h1.1]; exact hrefl
    · rw [h2]
      refine sameCartFor_of_filter ?_ ?_
      · rfl
      simp only [List.filter_filter]
      apply List.filter_congr
      intro c _
      by_cases hc : c.user_id = v
      · have hvu : ¬ v = u := fun h => huv h.symm
        simp [hc, hvu]
      · simp [hc]

theorem cart_isolation_witness :
    (sampleDb.cart_items.map fun ci => ci.id).Nodup ∧ (8 : Int) ≠ 7 ∧
    ((∀ b t, SameCartFor 7 sampleDb (cartAdd sampleDb 8 b t).2) ∧
      (∀ id q, SameCartFor 7 sampleDb (cartUpdate sampleDb 8 id q).2) ∧
      (∀ id, SameCartFor 7 sampleDb (cartRemove sampleDb 8 id).2) ∧
      SameCartFor 7 sampleDb (cartClear sampleDb 8).2) :=
  ⟨by decide, by decide, cart_isolation sampleDb (by decide) 8 7 (by decide)⟩

theorem find?_perm_of_unique {α : Type} {p : α → Bool} {l l' : List α} (hp : l'.Perm l)
    (hu : ∀ a ∈ l, ∀ b ∈ l, p a = true → p b = true → a = b) :
    l'.find? p = l.find? p := by
  cases hl : l.find? p with
  | none =>
    rw [List.find?_eq_none] at hl ⊢
    intro x hx
    exact hl x (hp.mem_iff.1 hx)
  | some a =>
    have ha := List.mem_of_find?_eq_some hl
    have hpa := List.find?_some hl
    cases hl' : l'.find? p with
    | none =>
      rw [List.find?_eq_none] at hl'
      exact absurd hpa (hl' a (hp.mem_iff.2 ha))
    | some b =>
      have hb := hp.mem_iff.1 (List.mem_of_find?_eq_some hl')
      rw [hu b hb a ha (List.find?_some hl') hpa]

/-- C30, the claim as stated fails: two registrations, both answered with success, leave
a table where the first account has the username "luz@tienda.com" and the second has that
string as its email, so two users match that identifier and the username of one user is
the email of another. -/
theorem login_identifier_shared_counterexample :
    UserReachable crossStore ∧
    crossStore.users =
      [⟨1, "luz@tienda.com", "otra@tienda.com", "saltsecreto", 10⟩,
       ⟨2, "luz", "luz@tienda.com", "saltsecreto", 20⟩] ∧
    (crossStore.users.filter fun usr =>
      decide (usr.username = "luz@tienda.com") || decide (usr.email = "luz@tienda.com")).length
        = 2 ∧
    (∃ a ∈ crossStore.users, ∃ b ∈ crossStore.users, a ≠ b ∧ a.username = b.email) :=
  ⟨.register _ _ _ _ (.register _ _ _ _ (.init 0)), by decide, by decide,
    ⟨1, "luz@tienda.com", "otra@tienda.com", "saltsecreto", 10⟩, by decide,
    ⟨2, "luz", "luz@tienda.com", "saltsecreto", 20⟩, by decide, by decide, by decide⟩

/-- C30, amended: in every users table reachable from the empty one by register requests,
for every string s at most one user has the username s and at most one has the email s.
The lookup of login for the identifier s yields the user whose username is s when there
is one, and otherwise the user whose email is s. So the lookup and the login response do
not depend on the order of the rows. -/
theorem login_identifier_per_column (store : UserStore) (hr : UserReachable store)
    (s : String) :
    (∀ a ∈ store.users, ∀ b ∈ store.users, a.username = s → b.username = s → a = b) ∧
    (∀ a ∈ store.users, ∀ b ∈ store.users, a.email = s → b.email = s → a = b) ∧
    (∀ user ∈ store.users, user.username = s → findUser store.users s s = some user) ∧
    (∀ user ∈ store.users, user.email = s → (∀ usr ∈ store.users, usr.username ≠ s) →
      findUser store.users s s = some user) ∧
    (∀ users, users.Perm store.users →
      findUser users s s = findUser store.users s s ∧
      ∀ env body, truthy (loginIdentifier body) = some s →
        authLogin env ⟨users, store.user_seq⟩ body = authLogin env store body) := by
  have hn := users_nodup_of_reachable hr
  have hu1 : ∀ a ∈ store.users, ∀ b ∈ store.users, a.username = s → b.username = s → a = b :=
    fun a ha b hb h1 h2 => List.inj_on_of_nodup_map hn.1 ha hb (h1.trans h2.symm)
  have hu2 : ∀ a ∈ store.users, ∀ b ∈ store.users, a.email = s → b.email = s → a = b :=
    fun a ha b hb h1 h2 => List.inj_on_of_nodup_map hn.2 ha hb (h1.trans h2.symm)
  have hname : ∀ user ∈ store.users, user.username = s →
      (store.users.find? fun usr => decide (usr.username = s)) = some user := by
    intro user hm hs
    cases hf : store.users.find? fun usr => decide (usr.username = s) with
    | none =>
      rw [List.find?_eq_none] at hf
      have := hf user hm
      simp [hs] at this
    | some usr =>
      have h1 := List.mem_of_find?_eq_some hf
      have h2 := List.find?_some hf
      simp only [decide_eq_true_eq] at h2
      rw [hu1 usr h1 user hm h2 hs]
  have hmail : ∀ user ∈ store.users, user.email = s →
      (store.users.find? fun usr => decide (usr.email = s)) = some user := by
    intro user hm hs
    cases hf : store.users.find? fun usr => decide (usr.email = s) with
    | none =>
      rw [List.find?_eq_none] at hf
      have := hf user hm
      simp [hs] at this
    | some usr =>
      have h1 := List.mem_of_find?_eq_some hf
      have h2 := List.find?_some hf
      simp only [decide_eq_true_eq] at h2
      rw [hu2 usr h1 user hm h2 hs]
  refine ⟨hu1, hu2, ?_, ?_, ?_⟩
  · intro user hm hs
    simp only [findUser, hname user hm hs]
  · intro user hm hs hno
    have hnone : (store.users.find? fun usr => decide (usr.username = s)) = none := by
      rw [List.find?_eq_none]
      intro usr husr
      simpa using hno usr husr
    simp only [findUser, hnone, hmail user hm hs]
  · intro users hperm
    have hfind : findUser users s s = findUser store.users s s := by
      have e1 : (users.find? fun usr => decide (usr.username = s)) =
          store.users.find? fun usr => decide (usr.username = s) :=
        find?_perm_of_unique hperm fun a ha b hb hpa hpb =>
          hu1 a ha b hb (by simpa using hpa) (by simpa using hpb)
      have e2 : (users.find? fun usr => decide (usr.email = s)) =
          store.users.find? fun usr => decide (usr.email = s) :=
        find?_perm_of_unique hperm fun a ha b hb hpa hpb =>
          hu2 a ha b hb (by simpa using hpa) (by simpa using hpb)
      simp only [findUser, e1, e2]
    refine ⟨hfind, ?_⟩
    intro env body hid
    cases hpw : truthy body.password <;> simp only [authLogin, hid, hpw, hfind]

/-- Witness of C30: the table where one identifier matches two accounts; the lookup finds
the account that has it as username, also with the rows in the other order. -/
theorem login_identifier_per_column_witness :
    UserReachable crossStore ∧
    findUser crossStore.users "luz@tienda.com" "luz@tienda.com" =
      some ⟨1, "luz@tienda.com", "otra@tienda.com", "saltsecreto", 10⟩ ∧
    findUser crossStore.users.reverse "luz@tienda.com" "luz@tienda.com" =
      findUser crossStore.users "luz@tienda.com" "luz@tienda.com" :=
  have h := login_identifier_per_column crossStore
    (.register _ _ _ _ (.register _ _ _ _ (.init 0))) "luz@tienda.com"
  ⟨.register _ _ _ _ (.register _ _ _ _ (.init 0)),
    h.2.2.1 ⟨1, "luz@tienda.com", "otra@tienda.com", "saltsecreto", 10⟩ (by decide) rfl,
    (h.2.2.2.2 crossStore.users.reverse (List.reverse_perm _)).1⟩

end Tienda
